import Mathlib

/-!
# PyREBox GDB stub (`qemu_glue_gdbstub.c`): a shallow embedding

The protocol engine of the stub is embedded as pure Lean functions over an
explicit session record.

Conventions of the embedding.

* A byte is a `Nat` (0..255); a C string is the list of its bytes up to the
  first NUL.  Fixed C arrays (`line_buf`, `last_packet`) are lists holding the
  whole array, stale cells included; a store is `List.set`.
* `int` values that can be negative are `Int`; truncating conversions are
  written out with `%`.
* Calls that leave the engine (the transport, QEMU's run state, the Python
  `vmi` module) append an `Event` to the `trace` of the session record; the
  answers of the Python side and QEMU's static configuration come from an
  `Env`.
* A function that may end the process (`exit`, `abort`) returns `Option`.
-/

namespace Pyrebox

/-! ## C library helpers -/

/-- ASCII bytes of a string literal. -/
def bytes (s : String) : List Nat := s.toList.map Char.toNat

/-- The C string stored at the start of `a`: the bytes before the first NUL. -/
def cstr (a : List Nat) : List Nat := a.takeWhile (fun c => c != 0)

/-- Character `*p` of a C string given by its bytes (NUL at the end). -/
def peek (p : List Nat) : Nat := p.headD 0

/-- Result of `strncmp(a, b, n) == 0` for C strings. -/
def strncmp_eq (a b : List Nat) (n : Nat) : Bool := (cstr a).take n == (cstr b).take n

/-- Result of `strcmp(a, b) == 0` for C strings. -/
def strcmp_eq (a b : List Nat) : Bool := cstr a == cstr b

/-- Library `isxdigit` in the C locale. -/
def isxdigit (c : Nat) : Bool :=
  (48 ≤ c && c ≤ 57) || (65 ≤ c && c ≤ 70) || (97 ≤ c && c ≤ 102)

/-- Library `isspace` in the C locale. -/
def isspace (c : Nat) : Bool := c == 32 || (9 ≤ c && c ≤ 13)

/-- Value of a hexadecimal digit as `strtoull` reads it. -/
def xdigit_val (c : Nat) : Nat :=
  if 48 ≤ c ∧ c ≤ 57 then c - 48
  else if 65 ≤ c ∧ c ≤ 70 then c - 65 + 10
  else if 97 ≤ c ∧ c ≤ 102 then c - 97 + 10
  else 0

/-- Library `strtoull(p, &p, 16)` (and `strtoul` on an LP64 host): skips white
space, takes an optional sign and an optional `0x` prefix, reads hexadecimal
digits, saturates at `2^64 - 1`, negates modulo `2^64` after a minus sign.
Returns the value and the unread rest; with no digit the value is 0 and
nothing is consumed. -/
def strtoull (p : List Nat) : Nat × List Nat :=
  let q := p.dropWhile isspace
  let neg := peek q == 45
  let q1 := if peek q == 45 || peek q == 43 then q.tail else q
  let q2 :=
    match q1 with
    | 48 :: x :: h :: t => if (x == 120 || x == 88) && isxdigit h then h :: t else q1
    | _ => q1
  let digits := q2.takeWhile isxdigit
  if digits.isEmpty then (0, p)
  else
    let v := digits.foldl (fun a d => a * 16 + xdigit_val d) 0
    let v := if 2 ^ 64 ≤ v then 2 ^ 64 - 1 else if neg then (2 ^ 64 - v) % 2 ^ 64 else v
    (v, q2.drop digits.length)

/-- Conversion of an unsigned 64-bit value to `int` (two's complement,
32 bits). -/
def to_int (v : Nat) : Int :=
  if v % 2 ^ 32 < 2 ^ 31 then (v % 2 ^ 32 : Nat) else ((v % 2 ^ 32 : Nat) : Int) - 2 ^ 32

/-- Conversion of an `int` to an unsigned type of `w` bits. -/
def to_unsigned (w : Nat) (x : Int) : Nat := (x % 2 ^ w).toNat

/-- Value of a `char` holding byte `b` where plain `char` is signed. -/
def schar (b : Nat) : Int := if b % 256 < 128 then (b % 256 : Nat) else ((b % 256 : Nat) : Int) - 256

/-- Output of `printf("%x")`/`"%llx"` for an unsigned value: lowercase, no padding. -/
def fmt_x (v : Nat) : List Nat := (Nat.toDigits 16 v).map Char.toNat

/-- Output of `printf("%02x")`: at least two digits, padded with `0`. -/
def fmt_02x (v : Nat) : List Nat :=
  let d := fmt_x v
  List.replicate (2 - d.length) 48 ++ d

/-- Sequence of byte stores `dst[off] = src[0]; dst[off+1] = src[1]; ...`
(`memcpy(dst + off, src, n)`). -/
def memcpy (dst : List Nat) (off : Nat) : List Nat → List Nat
  | [] => dst
  | v :: vs => memcpy (dst.set off v) (off + 1) vs

/-- QEMU's `pstrcat(buf, size, s)`: append, truncating so that the string
with its NUL fits in `size` bytes. -/
def pstrcat (buf : List Nat) (size : Nat) (s : List Nat) : List Nat :=
  if buf.length < size then buf ++ s.take (size - buf.length - 1) else buf

/-! ## Constants -/

def MAX_PACKET_LENGTH : Nat := 4096

/-- Constant `GDB_SIGNAL_TRAP` of the signal enum. -/
def GDB_SIGNAL_TRAP : Nat := 5

/-- QEMU's single-step flag bits (`SSTEP_ENABLE`, from QEMU's `cpu.h`). -/
def SSTEP_ENABLE : Nat := 1

/-- QEMU's `SSTEP_NOIRQ`. -/
def SSTEP_NOIRQ : Nat := 2

/-- QEMU's `SSTEP_NOTIMER`. -/
def SSTEP_NOTIMER : Nat := 4

/-- Host `ENOSYS`. -/
def ENOSYS : Int := 38

/-! ## Packet codec -/

def pyrebox_fromhex (v : Nat) : Nat :=
  if 48 ≤ v ∧ v ≤ 57 then v - 48
  else if 65 ≤ v ∧ v ≤ 70 then v - 65 + 10
  else if 97 ≤ v ∧ v ≤ 102 then v - 97 + 10
  else 0

def pyrebox_tohex (v : Nat) : Nat :=
  if v < 10 then v + 48 else v - 10 + 97

/-- Bytes written by `pyrebox_memtohex(buf, mem, len)`: two digits per byte of
`mem`, then the NUL. -/
def pyrebox_memtohex (mem : List Nat) : Nat → List Nat
  | 0 => [0]
  | len + 1 =>
    let c := mem.headD 0
    pyrebox_tohex (c >>> 4) :: pyrebox_tohex (c &&& 0xf) :: pyrebox_memtohex mem.tail len

/-- Bytes stored in `mem[0..len)` by `pyrebox_hextomem(mem, buf, len)`. -/
def pyrebox_hextomem (buf : List Nat) : Nat → List Nat
  | 0 => []
  | len + 1 =>
    (((pyrebox_fromhex (buf.headD 0) <<< 4) ||| pyrebox_fromhex (buf.tail.headD 0)) % 256)
      :: pyrebox_hextomem buf.tail.tail len

/-- Loop of `pyrebox_memtox`: `out` is what has been written at `buf` so far. -/
def pyrebox_memtox_loop (mem : List Nat) (out : List Nat) : Nat → List Nat
  | 0 => out
  | len + 1 =>
    let c := mem.headD 0
    if c = 35 ∨ c = 36 ∨ c = 42 ∨ c = 125 then
      pyrebox_memtox_loop mem.tail (out ++ [125, (c ^^^ 0x20) % 256]) len
    else
      pyrebox_memtox_loop mem.tail (out ++ [c]) len

/-- Model of `pyrebox_memtox(buf, mem, len)`: the bytes written at `buf` and the
return value `p - buf`. -/
def pyrebox_memtox (mem : List Nat) (len : Nat) : List Nat × Nat :=
  let out := pyrebox_memtox_loop mem [] len
  (out, out.length)

/-! ## Session state, effects and environment -/

inductive RSState where
  | RS_INACTIVE
  | RS_IDLE
  | RS_GETLINE
  | RS_GETLINE_ESC
  | RS_GETLINE_RLE
  | RS_CHKSUM1
  | RS_CHKSUM2
  deriving DecidableEq, Repr

/-- A call that leaves the protocol engine, or (for `handle_packet`) the entry
into the dispatcher, in the order in which the code performs them. -/
inductive Event where
  /-- Bytes handed to `qemu_chr_fe_write_all` on the GDB socket. -/
  | put_buffer (buf : List Nat)
  /-- Entry into `pyrebox_gdb_handle_packet` with this command line. -/
  | handle_packet (line : List Nat)
  /-- QEMU `vm_stop(RUN_STATE_PAUSED)`. -/
  | vm_stop
  /-- QEMU `vm_start()`. -/
  | vm_start
  /-- Bytes handed to `qemu_chr_be_write` on the monitor channel. -/
  | mon_write (buf : List Nat)
  | py_get_threads
  | py_get_thread_description (thread : Nat) (threads : Option (List Nat))
  | py_get_thread_id (ordinal : Nat) (threads : Option (List Nat))
  | py_get_running_thread_first_cpu (threads : Option (List Nat))
  | py_does_thread_exist (thread : Nat) (threads : Option (List Nat))
  | py_gdb_read_thread_register (thread : Nat) (threads : Option (List Nat)) (index : Nat)
  | py_gdb_get_register_size (index : Nat)
  | py_gdb_write_thread_register (thread : Nat) (threads : Option (List Nat)) (index : Nat)
      (data : List Nat)
  | py_gdb_memory_rw_debug (thread : Nat) (threads : Option (List Nat)) (addr : Nat)
      (len : Int) (data : Option (List Nat)) (is_write : Bool)
  | py_gdb_set_cpu_pc (thread : Nat) (threads : Option (List Nat)) (pc : Nat)
  deriving DecidableEq, Repr

/-- The `GDBState` record, followed by the file-scope variables of the stub,
QEMU's run state and the trace of effects.  A Python thread list
(`current_threads`) is an opaque list; only its size is read by the engine. -/
structure GDBState where
  c_thread_id : Nat
  g_thread_id : Nat
  query_thread : Nat
  state : RSState
  /-- Array `char line_buf[MAX_PACKET_LENGTH]`. -/
  line_buf : List Nat
  line_buf_index : Nat
  /-- Field `int line_sum`, kept as the mathematical sum: it is only read through
  `& 0xff`, and overflowing the `int` takes more than eight million bytes
  inside one frame. -/
  line_sum : Nat
  line_csum : Nat
  /-- Array `uint8_t last_packet[MAX_PACKET_LENGTH + 4]`. -/
  last_packet : List Nat
  last_packet_len : Nat
  current_threads : Option (List Nat)
  number_of_current_threads : Nat
  vm_is_running : Nat
  /-- File-scope `pyrebox_gdb_has_xml`. -/
  pyrebox_gdb_has_xml : Bool
  /-- File-scope `gdb_num_regs`. -/
  gdb_num_regs : Int
  /-- File-scope `currently_running_thread`. -/
  currently_running_thread : Nat
  /-- File-scope `sstep_flags`. -/
  sstep_flags : Int
  /-- What QEMU's `runstate_is_running()` answers. -/
  runstate_running : Bool
  trace : List Event
  deriving DecidableEq, Repr

/-- The functions of the Python module `vmi` whose glue function passes the thread
list after `Py_INCREF(s->current_threads)` with no test of the pointer, on a path that
a session without a thread list reaches.  For these the model tells a missing or not
callable attribute (the glue returns before the `Py_INCREF`) from a call. -/
inductive VmiFunction where
  | get_thread_description
  | does_thread_exist
  | gdb_read_thread_register
  | gdb_write_thread_register
  | gdb_memory_rw_debug
  | gdb_set_cpu_pc
  deriving DecidableEq, Repr

/-- Answers of the collaborators of the engine: the Python `vmi` module (a
`none` answer is a call that produced no result: an exception or, for the functions
that are not in `VmiFunction`, a missing or not callable attribute) and QEMU's static
configuration. -/
structure Env where
  get_threads : Option (List Nat)
  get_thread_description : Nat → Option (List Nat) → Option (List Nat)
  get_thread_id : Nat → Option (List Nat) → Option Nat
  get_running_thread_first_cpu : Option (List Nat) → Option Nat
  does_thread_exist : Nat → Option (List Nat) → Option Bool
  gdb_read_thread_register : Nat → Option (List Nat) → Nat → Option (List Nat)
  gdb_get_register_size : Nat → Option Int
  gdb_write_thread_register : Nat → Option (List Nat) → Nat → List Nat → Option Int
  gdb_memory_rw_debug : Nat → Option (List Nat) → Nat → Int → Option (List Nat) → Bool →
    Option (List Nat)
  /-- QEMU `runstate_needs_reset()`. -/
  runstate_needs_reset : Bool
  /-- Width in bits of `target_ulong` (`8 * TARGET_LONG_SIZE`). -/
  target_long_bits : Nat
  /-- The `gdb_core_xml_file` of the class of the first CPU (`none` is NULL). -/
  gdb_core_xml_file : Option (List Nat)
  /-- Result of `gdb_arch_name` of the class of the first CPU, when it has one. -/
  gdb_arch_name : Option (List Nat)
  /-- The `xml` names of the register sets `cpu->gdb_regs` of the first CPU. -/
  gdb_regs_xml : List (List Nat)
  /-- QEMU's table `xml_builtin` of (name, document) pairs. -/
  xml_builtin : List (List Nat × List Nat)
  /-- Contents of the local array `mem_buf` of the dispatcher when it is entered
  (the array is not initialised by the code). -/
  uninit_mem_buf : List Nat
  /-- Whether the attribute of the module `vmi` exists and is callable
  (`PyObject_GetAttrString` and `PyCallable_Check`); when it is not, the glue function
  returns without building the arguments. -/
  callable : VmiFunction → Bool := fun _ => true

def GDBState.log (s : GDBState) (e : Event) : GDBState :=
  { s with trace := s.trace ++ [e] }

/-! ## Primitives and glue -/

def pyrebox_update_threads (E : Env) (s : GDBState) : GDBState :=
  if s.current_threads.isSome then s
  else
    let s1 := s.log Event.py_get_threads
    match E.get_threads with
    | some ret =>
      { s1 with current_threads := some ret, number_of_current_threads := ret.length % 2 ^ 32 }
    | none => s1

/-- The description copied by `get_thread_description(s, thread, buf, len)`
and the returned size `strnlen(buf, len)`.  `none`: `Py_INCREF(s->current_threads)`
with no thread list (a NULL pointer) faults. -/
def get_thread_description (E : Env) (s : GDBState) (thread : Nat) (len : Nat) :
    Option (GDBState × List Nat) :=
  if !E.callable VmiFunction.get_thread_description then some (s, [])
  else if s.current_threads.isNone then none
  else
    let s1 := s.log (Event.py_get_thread_description thread s.current_threads)
    match E.get_thread_description thread s.current_threads with
    | some d => some (s1, (cstr d).take (len - 1))
    | none => some (s1, [])

/-- Model of `pyrebox_thread_gdb_index(s, thread)`.  The engine calls it from the thread
enumeration only, for an ordinal below `number_of_current_threads`, a count that the
code makes non-zero only together with a thread list; the step
`Py_INCREF(s->current_threads)` is therefore not a fault there and is not modelled. -/
def pyrebox_thread_gdb_index (E : Env) (s : GDBState) (thread : Nat) : GDBState × Nat :=
  let s1 := s.log (Event.py_get_thread_id thread s.current_threads)
  match E.get_thread_id thread s.current_threads with
  | some ret => (s1, ret % 2 ^ 64)
  | none => (s1, 0)

def pyrebox_get_running_thread_first_cpu (E : Env) (s : GDBState) : GDBState × Nat :=
  if s.current_threads.isSome then
    let s1 := s.log (Event.py_get_running_thread_first_cpu s.current_threads)
    match E.get_running_thread_first_cpu s.current_threads with
    | some ret => (s1, ret % 2 ^ 64)
    | none => (s1, 0)
  else (s, 0)

/-- Model of `does_thread_exist(s, thread)`.  `none`: `Py_INCREF(s->current_threads)`
with no thread list faults. -/
def does_thread_exist (E : Env) (s : GDBState) (thread : Nat) : Option (GDBState × Int) :=
  if !E.callable VmiFunction.does_thread_exist then some (s, 0)
  else if s.current_threads.isNone then none
  else
    let s1 := s.log (Event.py_does_thread_exist thread s.current_threads)
    match E.does_thread_exist thread s.current_threads with
    | some true => some (s1, 1)
    | _ => some (s1, 0)

/-- Model of `gdb_read_thread_register(s, thread, index, mem + off)`: the array
after the copy and the returned length.  `none`: `Py_INCREF(s->current_threads)` with
no thread list faults, and so does `memcpy(buf, tmp_str, length)` when the bytes
returned by the Provider do not fit the array from `off` on (the copy has no bound). -/
def gdb_read_thread_register (E : Env) (s : GDBState) (thread : Nat) (index : Int)
    (mem : List Nat) (off : Nat) : Option (GDBState × List Nat × Nat) :=
  if !E.callable VmiFunction.gdb_read_thread_register then some (s, mem, 0)
  else if s.current_threads.isNone then none
  else
    let s1 := s.log (Event.py_gdb_read_thread_register thread s.current_threads
      (to_unsigned 64 index))
    match E.gdb_read_thread_register thread s.current_threads (to_unsigned 64 index) with
    | some ret =>
      if mem.length < off + ret.length then none
      else some (s1, memcpy mem off ret, ret.length)
    | none => some (s1, mem, 0)

def get_number_of_threads (s : GDBState) : Nat := s.number_of_current_threads

/-- Model of `pyrebox_vm_stop`; QEMU's `vm_stop()` is taken to pause the
machine at once (the stub runs in the main loop). -/
def pyrebox_vm_stop (E : Env) (s : GDBState) : GDBState :=
  let s1 := if s.runstate_running then
      { s with runstate_running := false, trace := s.trace ++ [Event.vm_stop] }
    else s
  pyrebox_update_threads E { s1 with vm_is_running := 0 }

/-- Model of `pyrebox_vm_start`; QEMU's `vm_start()` is taken to resume the
machine at once. -/
def pyrebox_vm_start (s : GDBState) : GDBState :=
  let s1 := { s with runstate_running := true, trace := s.trace ++ [Event.vm_start],
                     vm_is_running := 1 }
  if s1.current_threads.isSome then
    { s1 with current_threads := none, number_of_current_threads := 0 }
  else s1

/-- Model of `target_memory_rw_debug(s, thread, addr, mem, len, is_write)`: the
array after the call and the returned length.  `none`: `Py_INCREF(s->current_threads)`
with no thread list faults; on a read with a negative `len` the copy size
`length < len ? length : len` is negative and the `memcpy` faults. -/
def target_memory_rw_debug (E : Env) (s : GDBState) (thread : Nat) (addr : Nat)
    (mem : List Nat) (len : Int) (is_write : Bool) : Option (GDBState × List Nat × Int) :=
  if !E.callable VmiFunction.gdb_memory_rw_debug then some (s, mem, 0)
  else if s.current_threads.isNone then none
  else
    let data := if is_write then some (mem.take len.toNat) else none
    let s1 := s.log
      (Event.py_gdb_memory_rw_debug thread s.current_threads addr len data is_write)
    match E.gdb_memory_rw_debug thread s.current_threads addr len data is_write with
    | some ret =>
      if is_write then some (s1, mem, to_int ret.length)
      else if len < 0 then none
      else some (s1, memcpy mem 0 (ret.take (min ret.length len.toNat)), to_int ret.length)
    | none => some (s1, mem, 0)

/-- Model of `gdb_set_cpu_pc(s, pc)`.  `none`: `Py_INCREF(s->current_threads)` with no
thread list faults. -/
def gdb_set_cpu_pc (E : Env) (s : GDBState) (pc : Nat) : Option GDBState :=
  if !E.callable VmiFunction.gdb_set_cpu_pc then some s
  else if s.current_threads.isNone then none
  else some (s.log (Event.py_gdb_set_cpu_pc s.c_thread_id s.current_threads pc))

def pyrebox_gdb_continue (E : Env) (s : GDBState) : GDBState :=
  if !E.runstate_needs_reset then pyrebox_vm_start s else s

/-- Model of `pyrebox_gdb_breakpoint_remove_all()`: the function body is empty. -/
def pyrebox_gdb_breakpoint_remove_all (s : GDBState) : GDBState := s

/-- Model of `pyrebox_cpu_single_step(thread, activate)`: the function body is empty. -/
def pyrebox_cpu_single_step (s : GDBState) (_thread : Nat) (_activate : Int) : GDBState := s

/-- Every case of the `switch` on the breakpoint type returns `-ENOSYS`. -/
def pyrebox_gdb_breakpoint_insert (_addr _len : Nat) (type : Int) : Int :=
  if type = 0 ∨ type = 1 ∨ type = 2 ∨ type = 3 ∨ type = 4 then -ENOSYS else -ENOSYS

def pyrebox_gdb_breakpoint_remove (_addr _len : Nat) (type : Int) : Int :=
  if type = 0 ∨ type = 1 ∨ type = 2 ∨ type = 3 ∨ type = 4 then -ENOSYS else -ENOSYS

def gdb_get_register_size (E : Env) (s : GDBState) (index : Int) : GDBState × Int :=
  let s1 := s.log (Event.py_gdb_get_register_size (to_unsigned 64 index))
  (s1, (E.gdb_get_register_size (to_unsigned 64 index)).getD 0)

/-- Model of `gdb_write_thread_register(s, thread, index, buf)`, with `buf` the
memory found at the pointer.  `none`: `Py_INCREF(s->current_threads)` with no thread
list faults. -/
def gdb_write_thread_register (E : Env) (s : GDBState) (thread : Nat) (index : Int)
    (buf : List Nat) : Option (GDBState × Int) :=
  let (s1, len) := gdb_get_register_size E s index
  if len ≤ 0 then some (s1, 0)
  else if !E.callable VmiFunction.gdb_write_thread_register then some (s1, 0)
  else if s1.current_threads.isNone then none
  else
    let data := buf.take len.toNat
    let s2 := s1.log (Event.py_gdb_write_thread_register thread s1.current_threads
      (to_unsigned 64 index) data)
    some (s2, (E.gdb_write_thread_register thread s1.current_threads (to_unsigned 64 index)
      data).getD 0)

/-! ## Writing to the GDB socket -/

def pyrebox_put_buffer (s : GDBState) (buf : List Nat) (len : Nat) : GDBState :=
  s.log (Event.put_buffer (buf.take len))

/-- Sum `csum` of `pyrebox_put_packet_binary`: the bytes are added as (signed)
`char` values. -/
def packet_csum (buf : List Nat) (len : Nat) : Int := ((buf.take len).map schar).sum

/-- Model of `pyrebox_put_packet_binary(s, buf, len, dump)`.  `(csum >> 4) & 0xf`
and `csum & 0xf` on the two's-complement `int` are `csum / 16 % 16` and
`csum % 16` (floor division, non-negative remainder). -/
def pyrebox_put_packet_binary (s : GDBState) (buf : List Nat) (len : Nat) : GDBState :=
  let csum := packet_csum buf len
  let p := s.last_packet
  let p := p.set 0 36
  let p := memcpy p 1 (buf.take len)
  let p := p.set (len + 1) 35
  let p := p.set (len + 2) (pyrebox_tohex ((csum / 16) % 16).toNat)
  let p := p.set (len + 3) (pyrebox_tohex (csum % 16).toNat)
  pyrebox_put_buffer { s with last_packet := p, last_packet_len := len + 4 } p (len + 4)

def pyrebox_put_packet (s : GDBState) (buf : List Nat) : GDBState :=
  pyrebox_put_packet_binary s buf (cstr buf).length

/-- The document generated for `target.xml`. -/
def target_xml (E : Env) : List Nat :=
  let t := pstrcat [] 1024 (bytes ("<?xml version=\"1.0\"?>" ++
    "<!DOCTYPE target SYSTEM \"gdb-target.dtd\">" ++ "<target>"))
  let t := match E.gdb_arch_name with
    | some arch =>
      pstrcat (pstrcat (pstrcat t 1024 (bytes "<architecture>")) 1024 (cstr arch)) 1024
        (bytes "</architecture>")
    | none => t
  let t := pstrcat t 1024 (bytes "<xi:include href=\"")
  let t := pstrcat t 1024 (cstr (E.gdb_core_xml_file.getD []))
  let t := pstrcat t 1024 (bytes "\"/>")
  let t := E.gdb_regs_xml.foldl (fun t r =>
    pstrcat (pstrcat (pstrcat t 1024 (bytes "<xi:include href=\"")) 1024 (cstr r)) 1024
      (bytes "\"/>")) t
  pstrcat t 1024 (bytes "</target>")

/-- Loop over `xml_builtin` in `pyrebox_get_feature_xml`. -/
def xml_builtin_lookup (p : List Nat) (len : Nat) : List (List Nat × List Nat) → Option (List Nat)
  | [] => none
  | (name, doc) :: rest =>
    if strncmp_eq name p len && (cstr name).length == len then some (cstr doc)
    else xml_builtin_lookup p len rest

/-- Model of `pyrebox_get_feature_xml(p, &newp, cc)`: the document and `newp`. -/
def pyrebox_get_feature_xml (E : Env) (p : List Nat) : Option (List Nat) × List Nat :=
  let len := (p.takeWhile (fun c => c != 58)).length
  let newp := p.drop len
  if strncmp_eq p (bytes "target.xml") len then (some (target_xml E), newp)
  else (xml_builtin_lookup p len E.xml_builtin, newp)

def pyrebox_gdb_signal_trap (s : GDBState) (thread : Nat) : GDBState :=
  let s1 := { s with currently_running_thread := thread }
  pyrebox_put_packet s1
    (bytes "T" ++ fmt_02x GDB_SIGNAL_TRAP ++ bytes "thread:" ++ fmt_x thread ++ bytes ";")

/-! ## The dispatcher -/

def is_query_packet (p query : List Nat) (separator : Nat) : Bool :=
  let query_len := (cstr query).length
  strncmp_eq p query query_len &&
    (peek (p.drop query_len) == 0 || peek (p.drop query_len) == separator)

/-- Skip one character `c` if it is the next one (`if (*p == c) p++;`). -/
def skip_char (p : List Nat) (c : Nat) : List Nat := if peek p == c then p.tail else p

/-- Label `unknown_command`: `buf[0] = 0`, then the packet of the string `buf`. -/
def unknown_command (s : GDBState) : Option (GDBState × RSState) :=
  some (pyrebox_put_packet s [0], RSState.RS_IDLE)

/-- Optional `PC` argument of `c` and `s`; `none` when `gdb_set_cpu_pc` faults. -/
def set_pc_if_given (E : Env) (s : GDBState) (p : List Nat) : Option GDBState :=
  if peek p != 0 then
    let addr := to_int (strtoull p).1
    gdb_set_cpu_pc E s (to_unsigned E.target_long_bits addr)
  else some s

/-- Loop of `g`: registers `addr`, `addr + 1`, ... below `gdb_num_regs` are read
to `mem_buf + len`; `none` when a read faults. -/
def read_all_registers (E : Env) :
    Nat → GDBState → Int → List Nat → Nat → Option (GDBState × List Nat × Nat)
  | 0, s, _, mem, len => some (s, mem, len)
  | n + 1, s, addr, mem, len =>
    if addr < s.gdb_num_regs then
      match gdb_read_thread_register E s s.g_thread_id addr mem len with
      | none => none
      | some r => read_all_registers E n r.1 (addr + 1) r.2.1 (len + r.2.2)
    else some (s, mem, len)

/-- Loop of `G`: `registers` is the offset of the pointer in `mem_buf`, `len`
what is left of the payload; `none` when a write faults. -/
def write_all_registers (E : Env) :
    Nat → GDBState → Int → List Nat → Int → Int → Option GDBState
  | 0, s, _, _, _, _ => some s
  | n + 1, s, addr, mem, registers, len =>
    if addr < s.gdb_num_regs ∧ 0 < len then
      match gdb_write_thread_register E s s.g_thread_id addr (mem.drop registers.toNat) with
      | none => none
      | some r => write_all_registers E n r.1 (addr + 1) mem (registers + r.2) (len - r.2)
    else some s

/-- Branch `qXfer:features:read:` of the dispatcher, `p` just after the 19
characters of the prefix. -/
def handle_xfer_features (E : Env) (s : GDBState) (p : List Nat) : Option (GDBState × RSState) :=
  if E.gdb_core_xml_file.isNone then unknown_command s
  else
    let s := { s with pyrebox_gdb_has_xml := true }
    let (xml, p) := pyrebox_get_feature_xml E p
    match xml with
    | none => some (pyrebox_put_packet s (bytes "E00"), RSState.RS_IDLE)
    | some xml =>
      let p := skip_char p 58
      let r := strtoull p
      let addr := to_int r.1
      let p := skip_char r.2 44
      let len := to_int (strtoull p).1
      let total_len := xml.length % 2 ^ E.target_long_bits
      if total_len < to_unsigned E.target_long_bits addr then
        some (pyrebox_put_packet s (bytes "E00"), RSState.RS_IDLE)
      else
        let len := if len > ((MAX_PACKET_LENGTH : Int) - 5) / 2 then
          ((MAX_PACKET_LENGTH : Int) - 5) / 2 else len
        let rest := (total_len - to_unsigned E.target_long_bits addr) % 2 ^ E.target_long_bits
        if to_unsigned E.target_long_bits len < rest then
          let r := pyrebox_memtox (xml.drop addr.toNat) len.toNat
          some (pyrebox_put_packet_binary s (109 :: r.1) (r.2 + 1), RSState.RS_IDLE)
        else
          let r := pyrebox_memtox (xml.drop addr.toNat) (to_int rest).toNat
          some (pyrebox_put_packet_binary s (108 :: r.1) (r.2 + 1), RSState.RS_IDLE)

/-- Cases `q` and `Q` of the dispatcher, `p` after the command letter. -/
def handle_query (E : Env) (s : GDBState) (p : List Nat) : Option (GDBState × RSState) :=
  if strcmp_eq p (bytes "qemu.sstepbits") then
    some (pyrebox_put_packet s (bytes "ENABLE=" ++ fmt_x SSTEP_ENABLE ++ bytes ",NOIRQ=" ++
      fmt_x SSTEP_NOIRQ ++ bytes ",NOTIMER=" ++ fmt_x SSTEP_NOTIMER), RSState.RS_IDLE)
  else if is_query_packet p (bytes "qemu.sstep") 61 then
    let p := p.drop 10
    if peek p != 61 then
      some (pyrebox_put_packet s (bytes "0x" ++ fmt_x (to_unsigned 32 s.sstep_flags)),
        RSState.RS_IDLE)
    else
      let type := to_int (strtoull p.tail).1
      some (pyrebox_put_packet { s with sstep_flags := type } (bytes "OK"), RSState.RS_IDLE)
  else if strcmp_eq p (bytes "C") then
    some (pyrebox_put_packet s (bytes "QC1"), RSState.RS_IDLE)
  else if strcmp_eq p (bytes "fThreadInfo") || strcmp_eq p (bytes "sThreadInfo") then
    let s := if strcmp_eq p (bytes "fThreadInfo") then { s with query_thread := 0 } else s
    if s.query_thread < get_number_of_threads s then
      let r := pyrebox_thread_gdb_index E s s.query_thread
      let s := pyrebox_put_packet r.1 (bytes "m" ++ fmt_x r.2)
      some ({ s with query_thread := (s.query_thread + 1) % 2 ^ 32 }, RSState.RS_IDLE)
    else
      some (pyrebox_put_packet s (bytes "l"), RSState.RS_IDLE)
  else if strncmp_eq p (bytes "ThreadExtraInfo,") 16 then
    let thread := (strtoull (p.drop 16)).1 % 2 ^ 32
    match get_thread_description E s thread ((MAX_PACKET_LENGTH + 1) / 2) with
    | none => none
    | some r => some (pyrebox_put_packet r.1 (pyrebox_memtohex r.2 r.2.length), RSState.RS_IDLE)
  else if strncmp_eq p (bytes "Rcmd,") 5 then
    let len := (p.drop 5).length
    if len % 2 != 0 then
      some (pyrebox_put_packet s (bytes "E01"), RSState.RS_IDLE)
    else
      let len := len / 2
      let mem := pyrebox_hextomem (p.drop 5) len ++ [0]
      let s := s.log (Event.mon_write mem)
      some (pyrebox_put_packet s (bytes "OK"), RSState.RS_IDLE)
  else if is_query_packet p (bytes "Supported") 58 then
    let buf := bytes "PacketSize=" ++ fmt_x MAX_PACKET_LENGTH
    let buf := if E.gdb_core_xml_file.isSome then
      pstrcat buf (MAX_PACKET_LENGTH + 1) (bytes ";qXfer:features:read+") else buf
    some (pyrebox_put_packet s buf, RSState.RS_IDLE)
  else if strncmp_eq p (bytes "Xfer:features:read:") 19 then
    handle_xfer_features E s (p.drop 19)
  else if is_query_packet p (bytes "Attached") 58 then
    some (pyrebox_put_packet s (bytes "1"), RSState.RS_IDLE)
  else unknown_command s

/-- Model of `pyrebox_gdb_handle_packet(s, line_buf)`: the session after the
command and the returned parser state; `none` when the process ends (`k`, or
a fault in the glue).  `line_buf` is read as a C string.  The local array `mem_buf`
starts as `E.uninit_mem_buf`; the local array `buf` has `MAX_PACKET_LENGTH + 1`
characters, and in `g` and `p`, where nothing bounds the length, the result is
`none` when the `2 * len + 1` characters that `pyrebox_memtohex` writes do not fit
it.  The monitor command started by `qRcmd` and the output it may send back are
outside the model. -/
def pyrebox_gdb_handle_packet (E : Env) (s : GDBState) (line_buf : List Nat) :
    Option (GDBState × RSState) :=
  let s := s.log (Event.handle_packet (cstr line_buf))
  let ch := peek (cstr line_buf)
  let p := (cstr line_buf).tail
  if ch = 63 then -- '?'
    let r := pyrebox_get_running_thread_first_cpu E s
    let s := pyrebox_gdb_signal_trap r.1 r.2
    some (pyrebox_gdb_breakpoint_remove_all s, RSState.RS_IDLE)
  else if ch = 99 then -- 'c'
    match set_pc_if_given E s p with
    | none => none
    | some s => some (pyrebox_gdb_continue E s, RSState.RS_IDLE)
  else if ch = 67 then -- 'C'
    some (pyrebox_gdb_continue E s, RSState.RS_IDLE)
  else if ch = 118 then -- 'v'
    if strncmp_eq p (bytes "Cont") 4 then
      if peek (p.drop 4) == 63 then
        some (pyrebox_put_packet s (bytes ""), RSState.RS_IDLE)
      else unknown_command s
    else unknown_command s
  else if ch = 107 then -- 'k'
    none
  else if ch = 68 then -- 'D'
    let s := pyrebox_gdb_breakpoint_remove_all s
    let s := pyrebox_gdb_continue E s
    some (pyrebox_put_packet s (bytes "OK"), RSState.RS_IDLE)
  else if ch = 115 then -- 's'
    match set_pc_if_given E s p with
    | none => none
    | some s =>
      let s := pyrebox_cpu_single_step s s.c_thread_id 1
      some (pyrebox_gdb_continue E s, RSState.RS_IDLE)
  else if ch = 103 then -- 'g'
    match read_all_registers E s.gdb_num_regs.toNat s 0 E.uninit_mem_buf 0 with
    | none => none
    | some r =>
      if MAX_PACKET_LENGTH + 1 < 2 * r.2.2 + 1 then none
      else some (pyrebox_put_packet r.1 (pyrebox_memtohex r.2.1 r.2.2), RSState.RS_IDLE)
  else if ch = 71 then -- 'G'
    let len := p.length / 2
    let mem := memcpy E.uninit_mem_buf 0 (pyrebox_hextomem p len)
    match write_all_registers E s.gdb_num_regs.toNat s 0 mem 0 len with
    | none => none
    | some s => some (pyrebox_put_packet s (bytes "OK"), RSState.RS_IDLE)
  else if ch = 109 then -- 'm'
    let r := strtoull p
    let addr := to_int r.1
    let p := skip_char r.2 44
    let len := to_int (strtoull p).1
    if len > (MAX_PACKET_LENGTH : Int) / 2 then
      some (pyrebox_put_packet s (bytes "E22"), RSState.RS_IDLE)
    else
      match target_memory_rw_debug E s s.g_thread_id (to_unsigned E.target_long_bits addr)
          E.uninit_mem_buf len false with
      | none => none
      | some (s, mem, res) =>
        if res = 0 then some (pyrebox_put_packet s (bytes "E14"), RSState.RS_IDLE)
        else some (pyrebox_put_packet s (pyrebox_memtohex mem len.toNat), RSState.RS_IDLE)
  else if ch = 77 then -- 'M'
    let r := strtoull p
    let addr := to_int r.1
    let p := skip_char r.2 44
    let r := strtoull p
    let len := to_int r.1
    let p := skip_char r.2 58
    if p.length / 2 < to_unsigned 64 len then
      some (pyrebox_put_packet s (bytes "E22"), RSState.RS_IDLE)
    else
      let mem := memcpy E.uninit_mem_buf 0 (pyrebox_hextomem p len.toNat)
      match target_memory_rw_debug E s s.g_thread_id (to_unsigned E.target_long_bits addr)
          mem len true with
      | none => none
      | some (s, _, res) =>
        if res = 0 then some (pyrebox_put_packet s (bytes "E14"), RSState.RS_IDLE)
        else some (pyrebox_put_packet s (bytes "OK"), RSState.RS_IDLE)
  else if ch = 112 then -- 'p'
    if !s.pyrebox_gdb_has_xml then unknown_command s
    else
      let addr := to_int (strtoull p).1
      match gdb_read_thread_register E s s.g_thread_id addr E.uninit_mem_buf 0 with
      | none => none
      | some r =>
        if r.2.2 != 0 then
          if MAX_PACKET_LENGTH + 1 < 2 * r.2.2 + 1 then none
          else some (pyrebox_put_packet r.1 (pyrebox_memtohex r.2.1 r.2.2), RSState.RS_IDLE)
        else some (pyrebox_put_packet r.1 (bytes "E14"), RSState.RS_IDLE)
  else if ch = 80 then -- 'P'
    if !s.pyrebox_gdb_has_xml then unknown_command s
    else
      let r := strtoull p
      let addr := to_int r.1
      let p := skip_char r.2 61
      let reg_size := p.length / 2
      let mem := memcpy E.uninit_mem_buf 0 (pyrebox_hextomem p reg_size)
      match gdb_write_thread_register E s s.g_thread_id addr mem with
      | none => none
      | some r => some (pyrebox_put_packet r.1 (bytes "OK"), RSState.RS_IDLE)
  else if ch = 90 ∨ ch = 122 then -- 'Z', 'z'
    let r := strtoull p
    let type := to_int r.1
    let p := skip_char r.2 44
    let r := strtoull p
    let addr := to_int r.1
    let p := skip_char r.2 44
    let len := to_int (strtoull p).1
    let res := if ch = 90 then
        pyrebox_gdb_breakpoint_insert (to_unsigned E.target_long_bits addr)
          (to_unsigned E.target_long_bits len) type
      else
        pyrebox_gdb_breakpoint_remove (to_unsigned E.target_long_bits addr)
          (to_unsigned E.target_long_bits len) type
    if res ≥ 0 then some (pyrebox_put_packet s (bytes "OK"), RSState.RS_IDLE)
    else if res = -ENOSYS then some (pyrebox_put_packet s (bytes ""), RSState.RS_IDLE)
    else some (pyrebox_put_packet s (bytes "E22"), RSState.RS_IDLE)
  else if ch = 72 then -- 'H'
    let type := peek p
    let thread := (strtoull p.tail).1 % 2 ^ 32
    let thread := if thread = 2 ^ 32 - 1 then 0
      else if thread = 0 then s.currently_running_thread % 2 ^ 32
      else thread
    if type = 99 then
      some (pyrebox_put_packet { s with c_thread_id := thread } (bytes "OK"), RSState.RS_IDLE)
    else if type = 103 then
      some (pyrebox_put_packet { s with g_thread_id := thread } (bytes "OK"), RSState.RS_IDLE)
    else some (pyrebox_put_packet s (bytes "E22"), RSState.RS_IDLE)
  else if ch = 84 then -- 'T'
    let thread := (strtoull p).1 % 2 ^ 32
    match does_thread_exist E s thread with
    | none => none
    | some r =>
      if r.2 != 0 then some (pyrebox_put_packet r.1 (bytes "OK"), RSState.RS_IDLE)
      else some (pyrebox_put_packet r.1 (bytes "E22"), RSState.RS_IDLE)
  else if ch = 113 ∨ ch = 81 then -- 'q', 'Q'
    handle_query E s p
  else unknown_command s

/-! ## The frame parser -/

/-- The `switch (s->state)` of `pyrebox_gdb_read_byte`, reached when no reply
is pending (or the byte is `$`) and the target is stopped. -/
def read_byte_switch (E : Env) (s : GDBState) (ch : Nat) : Option GDBState :=
  match s.state with
  | RSState.RS_IDLE =>
    if ch = 36 then
      some { s with line_buf_index := 0, line_sum := 0, state := RSState.RS_GETLINE }
    else some s
  | RSState.RS_GETLINE =>
    if ch = 125 then
      some { s with state := RSState.RS_GETLINE_ESC, line_sum := s.line_sum + ch }
    else if ch = 42 then
      some { s with state := RSState.RS_GETLINE_RLE, line_sum := s.line_sum + ch }
    else if ch = 35 then
      some { s with state := RSState.RS_CHKSUM1 }
    else if s.line_buf_index ≥ MAX_PACKET_LENGTH - 1 then
      some { s with state := RSState.RS_IDLE }
    else
      some { s with line_buf := s.line_buf.set s.line_buf_index (ch % 256),
                    line_buf_index := s.line_buf_index + 1,
                    line_sum := s.line_sum + ch }
  | RSState.RS_GETLINE_ESC =>
    if ch = 35 then
      some { s with state := RSState.RS_CHKSUM1 }
    else if s.line_buf_index ≥ MAX_PACKET_LENGTH - 1 then
      some { s with state := RSState.RS_IDLE }
    else
      some { s with line_buf := s.line_buf.set s.line_buf_index ((ch ^^^ 0x20) % 256),
                    line_buf_index := s.line_buf_index + 1,
                    line_sum := s.line_sum + ch,
                    state := RSState.RS_GETLINE }
  | RSState.RS_GETLINE_RLE =>
    if ch < 32 then
      some { s with state := RSState.RS_GETLINE }
    else
      let repeat_count := ch % 256 - 32 + 3
      if s.line_buf_index + repeat_count ≥ MAX_PACKET_LENGTH - 1 then
        some { s with state := RSState.RS_IDLE }
      else if s.line_buf_index < 1 then
        some { s with state := RSState.RS_GETLINE }
      else
        some { s with line_buf := memcpy s.line_buf s.line_buf_index
                        (List.replicate repeat_count (s.line_buf.getD (s.line_buf_index - 1) 0)),
                      line_buf_index := s.line_buf_index + repeat_count,
                      line_sum := s.line_sum + ch,
                      state := RSState.RS_GETLINE }
  | RSState.RS_CHKSUM1 =>
    if !isxdigit ch then
      some { s with state := RSState.RS_GETLINE }
    else
      some { s with line_buf := s.line_buf.set s.line_buf_index 0,
                    line_csum := pyrebox_fromhex ch <<< 4,
                    state := RSState.RS_CHKSUM2 }
  | RSState.RS_CHKSUM2 =>
    if !isxdigit ch then
      some { s with state := RSState.RS_GETLINE }
    else
      let s := { s with line_csum := s.line_csum ||| pyrebox_fromhex ch }
      if s.line_csum ≠ s.line_sum &&& 0xff then
        some { pyrebox_put_buffer s [45] 1 with state := RSState.RS_IDLE }
      else
        match pyrebox_gdb_handle_packet E (pyrebox_put_buffer s [43] 1) s.line_buf with
        | some r => some { r.1 with state := r.2 }
        | none => none
  | RSState.RS_INACTIVE => none

/-- Model of `pyrebox_gdb_read_byte(s, ch)`, for a byte `ch` (below 256, as
`pyrebox_gdb_chr_receive` passes it); `none` when the process ends (`abort()`
in state `RS_INACTIVE`, or inside the dispatcher). -/
def pyrebox_gdb_read_byte (E : Env) (s : GDBState) (ch : Nat) : Option GDBState :=
  let s1 :=
    if s.last_packet_len != 0 then
      let s := if ch = 45 then pyrebox_put_buffer s s.last_packet s.last_packet_len else s
      if ch = 43 ∨ ch = 36 then { s with last_packet_len := 0 } else s
    else s
  if s.last_packet_len != 0 ∧ ch ≠ 36 then some s1
  else if s1.runstate_running then
    let s2 := pyrebox_vm_stop E s1
    let r := pyrebox_get_running_thread_first_cpu E s2
    some (pyrebox_gdb_signal_trap r.1 r.2)
  else read_byte_switch E s1 ch

/-- Model of `pyrebox_gdb_chr_receive`: the bytes of `buf` are given to
`pyrebox_gdb_read_byte` one after the other. -/
def pyrebox_gdb_chr_receive (E : Env) (s : GDBState) : List Nat → Option GDBState
  | [] => some s
  | ch :: rest =>
    match pyrebox_gdb_read_byte E s ch with
    | some s1 => pyrebox_gdb_chr_receive E s1 rest
    | none => none

/-- QEMU's character-device events as far as `pyrebox_gdb_chr_event` tells them
apart: the opening of a connection, and every other event (the `default` case). -/
inductive ChrEvent where
  | CHR_EVENT_OPENED
  | other
  deriving DecidableEq

/-- Model of `pyrebox_gdb_chr_event(opaque, event)`. -/
def pyrebox_gdb_chr_event (E : Env) (s : GDBState) (event : ChrEvent) : GDBState :=
  match event with
  | ChrEvent.CHR_EVENT_OPENED =>
    let s := pyrebox_vm_stop E s
    let r := pyrebox_get_running_thread_first_cpu E s
    { r.1 with currently_running_thread := r.2, pyrebox_gdb_has_xml := false }
  | ChrEvent.other => s

/-- The session that `pyrebox_gdbserver_start` sets up on its first call: a
zeroed `GDBState` (`g_malloc0`), parser state `RS_IDLE`, `vm_is_running = 1`,
the register count of the first CPU, and the initial values of the file-scope
variables.  `running` is QEMU's run state at that moment. -/
def fresh_session (gdb_num_core_regs : Int) (running : Bool) : GDBState :=
  { c_thread_id := 0, g_thread_id := 0, query_thread := 0, state := RSState.RS_IDLE,
    line_buf := List.replicate MAX_PACKET_LENGTH 0, line_buf_index := 0, line_sum := 0,
    line_csum := 0, last_packet := List.replicate (MAX_PACKET_LENGTH + 4) 0,
    last_packet_len := 0, current_threads := none, number_of_current_threads := 0,
    vm_is_running := 1, pyrebox_gdb_has_xml := false, gdb_num_regs := gdb_num_core_regs,
    currently_running_thread := 0,
    sstep_flags := ((SSTEP_ENABLE ||| SSTEP_NOIRQ ||| SSTEP_NOTIMER : Nat) : Int),
    runstate_running := running, trace := [] }

/-! ## Monitor output -/

/-- Model of `pyrebox_gdb_monitor_output(s, msg, len)`, `msg` being the memory at the
pointer: the local array `buf` receives `O`, the hex text of the first `len` bytes
(`len` cut down to `MAX_PACKET_LENGTH / 2 - 1`) and its NUL, and is sent as a packet. -/
def pyrebox_gdb_monitor_output (s : GDBState) (msg : List Nat) (len : Int) : GDBState :=
  let len := if len > (MAX_PACKET_LENGTH : Int) / 2 - 1 then (MAX_PACKET_LENGTH : Int) / 2 - 1
    else len
  pyrebox_put_packet s (79 :: pyrebox_memtohex msg len.toNat)

/-- The value `max_sz = (sizeof(last_packet) - 2) / 2` of `pyrebox_gdb_monitor_write`. -/
def monitor_max_sz : Int := (((MAX_PACKET_LENGTH + 4 : Nat) : Int) - 2) / 2

/-- Model of `pyrebox_gdb_monitor_write(chr, buf, len)` on the session
`pyrebox_gdbserver_state`: the session after the loop and the returned value. -/
def pyrebox_gdb_monitor_write (s : GDBState) (buf : List Nat) (len : Int) : GDBState × Int :=
  if len ≤ monitor_max_sz then (pyrebox_gdb_monitor_output s buf len, len)
  else
    pyrebox_gdb_monitor_write (pyrebox_gdb_monitor_output s buf monitor_max_sz)
      (buf.drop monitor_max_sz.toNat) (len - monitor_max_sz)
termination_by len.toNat
decreasing_by
  have h : monitor_max_sz = 2049 := by decide
  simp only [h] at *
  omega

/-! ## Sessions driven by inbound bytes -/

/-- The sessions reached from a freshly started one by inbound bytes: each
step is one call of `pyrebox_gdb_read_byte` that returns, with whatever the
collaborators answer at that moment. -/
inductive Reachable (gdb_num_core_regs : Int) : GDBState → Prop where
  | start (running : Bool) : Reachable gdb_num_core_regs (fresh_session gdb_num_core_regs running)
  | byte (E : Env) (s s1 : GDBState) (ch : Nat) : Reachable gdb_num_core_regs s → ch < 256 →
      pyrebox_gdb_read_byte E s ch = some s1 → Reachable gdb_num_core_regs s1

/-- A sample environment for the concrete instances: three threads 7, 8, 9,
registers of four bytes, a 64-bit target with a core description file. -/
def demo_env : Env where
  get_threads := some [7, 8, 9]
  get_thread_description := fun _ _ => some (bytes "cpu")
  get_thread_id := fun i t => (t.getD []).get? i
  get_running_thread_first_cpu := fun t => (t.getD []).head?
  does_thread_exist := fun th t => some (decide (th ∈ t.getD []))
  gdb_read_thread_register := fun _ _ i => some [i % 256, 0, 0, 0]
  gdb_get_register_size := fun _ => some 4
  gdb_write_thread_register := fun _ _ _ d => some d.length
  gdb_memory_rw_debug := fun _ _ a l _ _ => some (List.replicate l.toNat (a % 256))
  runstate_needs_reset := false
  target_long_bits := 64
  gdb_core_xml_file := some (bytes "core.xml")
  gdb_arch_name := none
  gdb_regs_xml := []
  xml_builtin := [(bytes "core.xml", bytes "<feature/>")]
  uninit_mem_buf := List.replicate MAX_PACKET_LENGTH 0

/-! ## Reference definitions used in the statements -/

/-- The escaping rule of `escape_binary` as the specification words it: each
of `#`, `$`, `*`, `}` becomes `}` followed by the byte XOR `0x20`, every other
byte is kept. -/
def escape_binary : List Nat → List Nat
  | [] => []
  | c :: cs =>
    if c = 35 ∨ c = 36 ∨ c = 42 ∨ c = 125 then 125 :: (c ^^^ 0x20) :: escape_binary cs
    else c :: escape_binary cs

/-- The bytes that `escape_binary` escapes: `#`, `$`, `*`, `}`. -/
def is_special (c : Nat) : Bool := c == 35 || c == 36 || c == 42 || c == 125

/-- The lowercase hexadecimal digit of a nybble. -/
def hex_digit (v : Nat) : Nat := (bytes "0123456789abcdef").getD v 0

/-- The frame `$<payload>#<cc>` with the checksum of the specification: the sum
of the payload bytes modulo 256, as two lowercase digits, high nybble first. -/
def frame_of (payload : List Nat) : List Nat :=
  36 :: payload ++ [35, hex_digit (payload.sum % 256 / 16), hex_digit (payload.sum % 16)]

/-- The parser fields of a session. -/
def parser_of (s : GDBState) : List Nat × Nat × Nat × Nat × RSState :=
  (s.line_buf, s.line_buf_index, s.line_sum, s.line_csum, s.state)


/-- What every returning dispatch guarantees about the parser. -/
def hp_ok (s : GDBState) (r : Option (GDBState × RSState)) : Prop :=
  ∀ x, r = some x → parser_of x.1 = parser_of s ∧ x.2 = RSState.RS_IDLE


/-- The interrupt of a running target: stop request, then the stop packet. -/
def stop_and_report (E : Env) (s : GDBState) : GDBState :=
  pyrebox_gdb_signal_trap (pyrebox_get_running_thread_first_cpu E (pyrebox_vm_stop E s)).1
    (pyrebox_get_running_thread_first_cpu E (pyrebox_vm_stop E s)).2

/-- Invariant of the sessions driven by inbound bytes. -/
def session_inv (s : GDBState) : Prop :=
  s.line_buf_index ≤ MAX_PACKET_LENGTH - 1 ∧ s.line_buf.length = MAX_PACKET_LENGTH ∧
  ((s.last_packet_len ≠ 0 ∨ s.runstate_running = true) → s.state = RSState.RS_IDLE)

/-- The thread that the Provider reports as running on the first core when the
engine stops the target in session `s`: the answer of `get_running_thread_first_cpu`
for the thread list of the session (fetched with `get_threads` when the session
has none), reduced to 64 bits; 0 when there is no thread list or no answer. -/
def reported_first_core_thread (E : Env) (s : GDBState) : Nat :=
  let threads := if s.current_threads.isSome then s.current_threads else E.get_threads
  if threads.isSome then (E.get_running_thread_first_cpu threads).getD 0 % 2 ^ 64 else 0

/-- The Provider calls made while the engine stops the target in session `s`. -/
def stop_provider_calls (E : Env) (s : GDBState) : List Event :=
  let threads := if s.current_threads.isSome then s.current_threads else E.get_threads
  (if s.current_threads.isSome then [] else [Event.py_get_threads]) ++
  (if threads.isSome then [Event.py_get_running_thread_first_cpu threads] else [])

/-- A session whose line buffer is full: `$` followed by 4095 times `a`. -/
def full_buffer_session : GDBState :=
  { fresh_session 0 false with
    line_buf := memcpy (fresh_session 0 false).line_buf 0 (List.replicate 4095 97),
    line_buf_index := 4095,
    line_sum := (List.replicate 4095 97).sum,
    state := RSState.RS_GETLINE }

/-- A session in the RLENext state: `$a*` was received. -/
def rle_sample_session : GDBState :=
  { fresh_session 0 false with
    line_buf := 97 :: List.replicate 4095 0,
    line_buf_index := 1,
    line_sum := 97 + 42,
    state := RSState.RS_GETLINE_RLE }

/-- The value of a field of hexadecimal digits. -/
def hex_value (digits : List Nat) : Nat := digits.foldl (fun a d => a * 16 + xdigit_val d) 0

/-- A numeric field of a command line: one or more hexadecimal digits. -/
def is_hex_field (digits : List Nat) : Prop := digits ≠ [] ∧ ∀ c ∈ digits, isxdigit c = true

/-- The lowercase hexadecimal text of a byte string: two digits per byte, high
nybble first. -/
def hex_encode : List Nat → List Nat
  | [] => []
  | b :: bs => hex_digit (b / 16) :: hex_digit (b % 16) :: hex_encode bs

/-- The address that `m` and `M` pass to the Provider for the address field
`addr`: the value read by `strtoull`, stored in the `int` variable `addr` and
converted to `target_ulong` at the call. -/
def memory_address (E : Env) (addr : List Nat) : Nat :=
  to_unsigned E.target_long_bits (to_int (strtoull addr).1)

/-- A Provider whose memory read at `0x1000` for four bytes returns
`de ad be ef` and whose other memory calls produce nothing. -/
def deadbeef_env : Env :=
  { demo_env with
    gdb_memory_rw_debug := fun _ _ a l _ w =>
      if a = 0x1000 ∧ l = 4 ∧ w = false then some [0xde, 0xad, 0xbe, 0xef] else none }

/-- The value that `target_memory_rw_debug` returns for the answer `r` of the
Provider: the length of the returned byte string as an `int`, 0 when the call
produced nothing.  The dispatcher takes 0 as the failure of the access. -/
def rw_result (r : Option (List Nat)) : Int :=
  match r with
  | some ret => to_int ret.length
  | none => 0

/-- The Provider calls of the loop of `g`: one register read per index, from
`k` upwards, `n` of them. -/
def register_reads (thread : Nat) (threads : Option (List Nat)) (k : Nat) : Nat → List Event
  | 0 => []
  | n + 1 => Event.py_gdb_read_thread_register thread threads k ::
      register_reads thread threads (k + 1) n

/-- A Provider with four registers of widths 4, 4, 8 and 4. -/
def four_regs_env : Env :=
  { demo_env with
    gdb_read_thread_register := fun _ _ i =>
      [[1, 2, 3, 4], [5, 6, 7, 8], [9, 10, 11, 12, 13, 14, 15, 16], [17, 18, 19, 20]][i]? }

/-- A Provider whose only register is 2049 bytes wide. -/
def wide_register_env : Env :=
  { demo_env with
    gdb_read_thread_register := fun _ _ i => [List.replicate 2049 0][i]? }

/-- A stopped session of a target with four core registers that holds the thread
list of `demo_env`. -/
def regs_session : GDBState :=
  { fresh_session 4 false with current_threads := some [7, 8, 9],
                               number_of_current_threads := 3 }

/-- A stopped session of a target with one core register that holds the thread list
of `demo_env`. -/
def one_reg_session : GDBState :=
  { fresh_session 1 false with current_threads := some [7, 8, 9],
                               number_of_current_threads := 3 }

/-- The value that `H` stores for the thread field `p`: `strtoull` reads it into
the `uint32_t` variable `thread`, all-ones (`-1`) becomes 0, and 0 becomes the
thread last recorded as running. -/
def selected_thread (s : GDBState) (p : List Nat) : Nat :=
  if (strtoull p).1 % 2 ^ 32 = 2 ^ 32 - 1 then 0
  else if (strtoull p).1 % 2 ^ 32 = 0 then s.currently_running_thread % 2 ^ 32
  else (strtoull p).1 % 2 ^ 32

/-- A Provider whose first thread has an identifier above `2^32`. -/
def wide_env : Env := { demo_env with get_threads := some [0x100000007, 8, 9] }

/-- The session after the command lines `lines` are dispatched one after the
other; `none` when the process ends. -/
def dispatch_all (E : Env) (s : GDBState) : List (List Nat) → Option GDBState
  | [] => some s
  | l :: ls =>
    match pyrebox_gdb_handle_packet E s l with
    | some r => dispatch_all E r.1 ls
    | none => none

/-- The reply of the thread enumeration at ordinal `i` of `n` threads: `m` and the
hexadecimal identifier that the Provider gives for the ordinal, or `l` past the
end. -/
def thread_info_reply (E : Env) (threads : Option (List Nat)) (n i : Nat) : List Nat :=
  if i < n then bytes "m" ++ fmt_x ((E.get_thread_id i threads).getD 0 % 2 ^ 64) else bytes "l"

/-- The effects of one enumeration command `cmd` at ordinal `i`: entry of the
dispatcher, the Provider call for the identifier (none past the end), the reply. -/
def thread_info_events (E : Env) (threads : Option (List Nat)) (n : Nat) (cmd : List Nat)
    (i : Nat) : List Event :=
  Event.handle_packet cmd :: (if i < n then [Event.py_get_thread_id i threads] else []) ++
    [Event.put_buffer (frame_of (thread_info_reply E threads n i))]

/-- The effects of `k` commands `qsThreadInfo` from ordinal `i` on. -/
def thread_info_trace (E : Env) (threads : Option (List Nat)) (n : Nat) : Nat → Nat → List Event
  | _, 0 => []
  | i, k + 1 => thread_info_events E threads n (bytes "qsThreadInfo") i ++
      thread_info_trace E threads n (i + 1) k

/-- The packets written to the transport, in order. -/
def sent_packets : List Event → List (List Nat)
  | [] => []
  | Event.put_buffer b :: es => b :: sent_packets es
  | _ :: es => sent_packets es

/-- A stopped session with the thread list of `demo_env`: three threads. -/
def threads_session : GDBState :=
  { fresh_session 0 false with current_threads := some [7, 8, 9], number_of_current_threads := 3 }

/-- The tests of the cases `q` and `Q` of the dispatcher, `p` after the command
letter: true when one of them takes the query (a `qXfer:features:read:` request is
taken only when the target has a core description file). -/
def recognised_query (E : Env) (p : List Nat) : Bool :=
  strcmp_eq p (bytes "qemu.sstepbits") || is_query_packet p (bytes "qemu.sstep") 61 ||
  strcmp_eq p (bytes "C") || strcmp_eq p (bytes "fThreadInfo") ||
  strcmp_eq p (bytes "sThreadInfo") || strncmp_eq p (bytes "ThreadExtraInfo,") 16 ||
  strncmp_eq p (bytes "Rcmd,") 5 || is_query_packet p (bytes "Supported") 58 ||
  (strncmp_eq p (bytes "Xfer:features:read:") 19 && E.gdb_core_xml_file.isSome) ||
  is_query_packet p (bytes "Attached") 58

/-- The first characters that the `switch` of the dispatcher has a case for. -/
def command_letters : List Nat := bytes "?cCvkDsgGmMpPZzHTqQ"

/-- The thread that `pyrebox_get_running_thread_first_cpu` returns in session `s`:
the Provider's answer for the thread list of the session, reduced to 64 bits; 0
when the Provider gives no answer or the session holds no thread list (the
Provider is then not asked). -/
def first_core_thread (E : Env) (s : GDBState) : Nat :=
  if s.current_threads.isSome then
    (E.get_running_thread_first_cpu s.current_threads).getD 0 % 2 ^ 64
  else 0

/-- A stopped session whose thread list is `[1, 2]`. -/
def two_threads_session : GDBState :=
  { fresh_session 0 false with current_threads := some [1, 2], number_of_current_threads := 2 }

/-- One unit of the wire payload of a frame: a byte sent as it is, or the escape
character `}` followed by a byte `b` (which stands for `b XOR 0x20`). -/
inductive WireItem where
  | plain (c : Nat)
  | escaped (b : Nat)
  deriving DecidableEq, Repr

/-- The bytes of a wire payload as transmitted. -/
def wire_bytes : List WireItem → List Nat
  | [] => []
  | WireItem.plain c :: is => c :: wire_bytes is
  | WireItem.escaped b :: is => 125 :: b :: wire_bytes is

/-- The payload after un-escaping: the bytes that end up in the line buffer. -/
def unescaped : List WireItem → List Nat
  | [] => []
  | WireItem.plain c :: is => c :: unescaped is
  | WireItem.escaped b :: is => (b ^^^ 0x20) :: unescaped is

/-- The units the parser reads as payload: a plain byte is none of `#`, `}`, `*`, and
the byte after `}` is not `#`. -/
def wire_item_ok : WireItem → Bool
  | WireItem.plain c => decide (c < 256 ∧ c ≠ 35 ∧ c ≠ 125 ∧ c ≠ 42)
  | WireItem.escaped b => decide (b < 256 ∧ b ≠ 35)

/-- The document that QEMU's table `xml_builtin` holds under exactly this name. -/
def builtin_document (name : List Nat) : List (List Nat × List Nat) → Option (List Nat)
  | [] => none
  | (n, doc) :: rest => if cstr n = name then some (cstr doc) else builtin_document name rest

/-- The known documents, as the specification names them: `target.xml` is the
generated description, a name of the table `xml_builtin` is its document, and no other
name is a document. -/
def known_document (E : Env) (name : List Nat) : Option (List Nat) :=
  if name = bytes "target.xml" then some (target_xml E)
  else builtin_document name E.xml_builtin

/-- The reply payload for a chunk request, as the specification words it: `E00` for an
unknown document or an offset past its end; otherwise, with `n = min len 2045`, `m` and
the escaped `n` bytes at the offset when `n` is less than what remains, else `l` and the
escaped rest of the document. -/
def xfer_reply (doc : Option (List Nat)) (offset len : Nat) : List Nat :=
  match doc with
  | none => bytes "E00"
  | some xml =>
    if xml.length < offset then bytes "E00"
    else if min len 2045 < xml.length - offset then
      109 :: escape_binary ((xml.drop offset).take (min len 2045))
    else 108 :: escape_binary (xml.drop offset)

/-- The wire units that `pyrebox_memtox` writes for a byte string: an escape sequence
for each of `#`, `$`, `*`, `}`, the byte itself otherwise. -/
def escape_items : List Nat → List WireItem
  | [] => []
  | c :: cs =>
    if c = 35 ∨ c = 36 ∨ c = 42 ∨ c = 125 then WireItem.escaped (c ^^^ 0x20) :: escape_items cs
    else WireItem.plain c :: escape_items cs

/-- The session after the packet `O` followed by the hex text of `chunk` has been sent. -/
def after_output (s : GDBState) (chunk : List Nat) : GDBState :=
  { s with
    last_packet := frame_of (79 :: hex_encode chunk) ++
      s.last_packet.drop ((79 :: hex_encode chunk).length + 4),
    last_packet_len := (79 :: hex_encode chunk).length + 4,
    trace := s.trace ++ [Event.put_buffer (frame_of (79 :: hex_encode chunk))] }

/-! ## Helper lemmas -/

theorem and_0xff (x : Nat) : x &&& 0xff = x % 256 := Nat.and_pow_two_sub_one_eq_mod x 8

theorem memcpy_eq (src : List Nat) : ∀ (dst : List Nat) (off : Nat),
    off + src.length ≤ dst.length →
    memcpy dst off src = dst.take off ++ src ++ dst.drop (off + src.length) := by
  induction src with
  | nil => intro dst off _; simp [memcpy]
  | cons v vs ih =>
    intro dst off h
    simp only [List.length_cons] at h
    have hlt : off < dst.length := by omega
    rw [memcpy, ih _ _ (by simp only [List.length_set]; omega)]
    rw [List.set_eq_take_append_cons_drop, if_pos hlt]
    have h1 : List.take (off + 1) (List.take off dst ++ v :: List.drop (off + 1) dst)
        = List.take off dst ++ [v] := by
      rw [List.take_append_eq_append_take]
      simp [List.length_take, Nat.min_eq_left (Nat.le_of_lt hlt)]
    have h2 : List.drop (off + 1 + vs.length) (List.take off dst ++ v :: List.drop (off + 1) dst)
        = List.drop (off + (vs.length + 1)) dst := by
      rw [List.drop_append_eq_append_drop]
      have e1 : (List.take off dst).length = off := by
        rw [List.length_take]; omega
      have e2 : off + 1 + vs.length - off = vs.length + 1 := by omega
      have e3 : List.drop (off + 1 + vs.length) (List.take off dst) = [] := by
        apply List.drop_eq_nil_of_le; omega
      rw [e1, e2, e3, List.drop_succ_cons, List.drop_drop, List.nil_append]
      congr 1; omega
    rw [h1, h2]; simp

theorem memcpy_length (src : List Nat) : ∀ (dst : List Nat) (off : Nat),
    (memcpy dst off src).length = dst.length := by
  induction src with
  | nil => intro dst off; rfl
  | cons v vs ih => intro dst off; rw [memcpy, ih, List.length_set]

set_option maxRecDepth 100000 in
theorem hex_byte_roundtrip : ∀ c < 256,
    ((pyrebox_fromhex (pyrebox_tohex (c >>> 4)) <<< 4) |||
      pyrebox_fromhex (pyrebox_tohex (c &&& 0xf))) % 256 = c := by
  decide

theorem memtox_loop_eq (mem : List Nat) : ∀ out : List Nat,
    pyrebox_memtox_loop mem out mem.length = out ++ escape_binary mem := by
  induction mem with
  | nil => intro out; simp [pyrebox_memtox_loop, escape_binary]
  | cons c cs ih =>
    intro out
    by_cases hc : c = 35 ∨ c = 36 ∨ c = 42 ∨ c = 125
    · have hx : (c ^^^ 0x20) % 256 = c ^^^ 0x20 := by
        rcases hc with h | h | h | h <;> subst h <;> decide
      simp [pyrebox_memtox_loop, escape_binary, hc, ih, hx]
    · simp [pyrebox_memtox_loop, escape_binary, hc, ih]

theorem escape_binary_length (mem : List Nat) :
    (escape_binary mem).length = mem.length + mem.countP is_special := by
  induction mem with
  | nil => rfl
  | cons c cs ih =>
    by_cases hc : c = 35 ∨ c = 36 ∨ c = 42 ∨ c = 125
    · have hs : is_special c = true := by
        rcases hc with h | h | h | h <;> subst h <;> decide
      simp [escape_binary, hc, ih, hs, List.countP_cons]; omega
    · have hs : is_special c = false := by
        simp only [is_special, Bool.or_eq_false_iff, beq_eq_false_iff_ne]
        simp only [not_or] at hc
        exact ⟨⟨⟨hc.1, hc.2.1⟩, hc.2.2.1⟩, hc.2.2.2⟩
      simp [escape_binary, hc, ih, hs, List.countP_cons]; omega

theorem memcpy_append (a : List Nat) : ∀ (dst : List Nat) (off : Nat) (b : List Nat),
    memcpy dst off (a ++ b) = memcpy (memcpy dst off a) (off + a.length) b := by
  induction a with
  | nil => intro dst off b; simp [memcpy]
  | cons v vs ih =>
    intro dst off b
    have e : off + 1 + vs.length = off + (vs.length + 1) := by omega
    show memcpy (dst.set off v) (off + 1) (vs ++ b) = _
    rw [ih, memcpy, List.length_cons, e]

theorem set_eq_memcpy (dst : List Nat) (i v : Nat) : dst.set i v = memcpy dst i [v] := rfl

theorem tohex_eq_hex_digit : ∀ v < 16, pyrebox_tohex v = hex_digit v := by decide

theorem schar_sum (l : List Nat) : ∃ k : Int, (l.map schar).sum = (l.sum : Int) - 256 * k := by
  induction l with
  | nil => exact ⟨0, by simp⟩
  | cons c cs ih =>
    obtain ⟨k, hk⟩ := ih
    by_cases h : c % 256 < 128
    · refine ⟨k + (c / 256 : Nat), ?_⟩
      simp only [List.map_cons, List.sum_cons, hk, schar, if_pos h]
      push_cast; omega
    · refine ⟨k + (c / 256 : Nat) + 1, ?_⟩
      simp only [List.map_cons, List.sum_cons, hk, schar, if_neg h]
      push_cast; omega

theorem csum_digits (buf : List Nat) :
    ((packet_csum buf buf.length / 16) % 16).toNat = buf.sum % 256 / 16 ∧
    (packet_csum buf buf.length % 16).toNat = buf.sum % 16 := by
  obtain ⟨k, hk⟩ := schar_sum buf
  simp only [packet_csum, List.take_length, hk]
  constructor <;> omega


/-- What `pyrebox_put_packet_binary` sends and stores, for a payload that fits. -/
theorem put_packet_binary_sends (s : GDBState) (buf : List Nat) (len : Nat)
    (hlen : buf.length = len) (hmax : len ≤ MAX_PACKET_LENGTH)
    (hlp : s.last_packet.length = MAX_PACKET_LENGTH + 4) :
    pyrebox_put_packet_binary s buf len =
      { s with last_packet := frame_of buf ++ s.last_packet.drop (len + 4),
               last_packet_len := len + 4,
               trace := s.trace ++ [Event.put_buffer (frame_of buf)] } ∧
    (pyrebox_put_packet_binary s buf len).last_packet.take
      (pyrebox_put_packet_binary s buf len).last_packet_len = frame_of buf ∧
    (frame_of buf).length = len + 4 := by
  subst hlen
  have hfl : (frame_of buf).length = buf.length + 4 := by simp [frame_of]
  have hd1 : buf.sum % 256 / 16 < 16 := by omega
  have hd2 : buf.sum % 16 < 16 := by omega
  have hm : ((((s.last_packet.set 0 36 |> fun p => memcpy p 1 (buf.take buf.length)).set
      (buf.length + 1) 35).set (buf.length + 2)
      (pyrebox_tohex ((packet_csum buf buf.length / 16) % 16).toNat)).set (buf.length + 3)
      (pyrebox_tohex (packet_csum buf buf.length % 16).toNat))
      = frame_of buf ++ s.last_packet.drop (buf.length + 4) := by
    rw [(csum_digits buf).1, (csum_digits buf).2, tohex_eq_hex_digit _ hd1,
      tohex_eq_hex_digit _ hd2, List.take_length]
    have : frame_of buf = [36] ++ buf ++ [35] ++ [hex_digit (buf.sum % 256 / 16)] ++
        [hex_digit (buf.sum % 16)] := by simp [frame_of]
    rw [this]
    have hl : 0 + ([36] ++ buf ++ [35] ++ [hex_digit (buf.sum % 256 / 16)] ++
        [hex_digit (buf.sum % 16)]).length ≤ s.last_packet.length := by
      simp only [List.length_append, List.length_singleton, hlp]; omega
    have hm2 := memcpy_eq _ _ _ hl
    simp only [memcpy_append, List.length_append, List.length_singleton, List.take_zero,
      List.nil_append, Nat.zero_add] at hm2
    simp only [set_eq_memcpy]
    have e1 : 1 + buf.length = buf.length + 1 := by omega
    have e2 : 1 + buf.length + 1 = buf.length + 2 := by omega
    have e3 : 1 + buf.length + 1 + 1 = buf.length + 3 := by omega
    have e4 : 1 + buf.length + 1 + 1 + 1 = buf.length + 4 := by omega
    rw [e4, e3, e2, e1] at hm2
    exact hm2
  have hres : pyrebox_put_packet_binary s buf buf.length =
      { s with last_packet := frame_of buf ++ s.last_packet.drop (buf.length + 4),
               last_packet_len := buf.length + 4,
               trace := s.trace ++ [Event.put_buffer (frame_of buf)] } := by
    simp only [pyrebox_put_packet_binary, pyrebox_put_buffer, GDBState.log]
    simp only [Function.comp] at hm
    simp only [hm]
    rw [← hfl, List.take_left]
  refine ⟨hres, ?_, hfl⟩
  rw [hres]
  show List.take (buf.length + 4) (frame_of buf ++ _) = _
  rw [← hfl, List.take_left]

/-! ### The dispatcher leaves the parser alone -/

theorem parser_of_log (s : GDBState) (e : Event) : parser_of (s.log e) = parser_of s := rfl
theorem parser_of_put_packet_binary (s : GDBState) (b : List Nat) (n : Nat) :
    parser_of (pyrebox_put_packet_binary s b n) = parser_of s := rfl
theorem parser_of_put_packet (s : GDBState) (b : List Nat) :
    parser_of (pyrebox_put_packet s b) = parser_of s := rfl
theorem parser_of_put_buffer (s : GDBState) (b : List Nat) (n : Nat) :
    parser_of (pyrebox_put_buffer s b n) = parser_of s := rfl
theorem parser_of_signal_trap (s : GDBState) (t : Nat) :
    parser_of (pyrebox_gdb_signal_trap s t) = parser_of s := rfl
theorem parser_of_remove_all (s : GDBState) :
    parser_of (pyrebox_gdb_breakpoint_remove_all s) = parser_of s := rfl
theorem parser_of_single_step (s : GDBState) (t : Nat) (a : Int) :
    parser_of (pyrebox_cpu_single_step s t a) = parser_of s := rfl
theorem parser_of_set_c (s : GDBState) (t : Nat) :
    parser_of { s with c_thread_id := t } = parser_of s := rfl
theorem parser_of_set_g (s : GDBState) (t : Nat) :
    parser_of { s with g_thread_id := t } = parser_of s := rfl
theorem parser_of_set_query (s : GDBState) (t : Nat) :
    parser_of { s with query_thread := t } = parser_of s := rfl
theorem parser_of_set_sstep (s : GDBState) (t : Int) :
    parser_of { s with sstep_flags := t } = parser_of s := rfl
theorem parser_of_set_xml (s : GDBState) (t : Bool) :
    parser_of { s with pyrebox_gdb_has_xml := t } = parser_of s := rfl

theorem parser_of_vm_start (s : GDBState) : parser_of (pyrebox_vm_start s) = parser_of s := by
  unfold pyrebox_vm_start; dsimp only; split <;> rfl

theorem parser_of_continue (E : Env) (s : GDBState) :
    parser_of (pyrebox_gdb_continue E s) = parser_of s := by
  unfold pyrebox_gdb_continue; split
  · exact parser_of_vm_start s
  · rfl

theorem parser_of_set_pc (E : Env) (s r : GDBState) (p : List Nat)
    (h : set_pc_if_given E s p = some r) : parser_of r = parser_of s := by
  unfold set_pc_if_given gdb_set_cpu_pc at h
  dsimp only at h
  split at h
  · split at h
    · cases h; rfl
    · split at h
      · cases h
      · cases h; rfl
  · cases h; rfl

theorem parser_of_update_threads (E : Env) (s : GDBState) :
    parser_of (pyrebox_update_threads E s) = parser_of s := by
  unfold pyrebox_update_threads; split
  · rfl
  · dsimp only; split <;> rfl

theorem parser_of_vm_stop (E : Env) (s : GDBState) :
    parser_of (pyrebox_vm_stop E s) = parser_of s := by
  unfold pyrebox_vm_stop; dsimp only
  rw [parser_of_update_threads]; split <;> rfl

theorem parser_of_first_cpu (E : Env) (s : GDBState) :
    parser_of (pyrebox_get_running_thread_first_cpu E s).1 = parser_of s := by
  unfold pyrebox_get_running_thread_first_cpu; split
  · dsimp only; split <;> rfl
  · rfl

theorem parser_of_thread_index (E : Env) (s : GDBState) (t : Nat) :
    parser_of (pyrebox_thread_gdb_index E s t).1 = parser_of s := by
  unfold pyrebox_thread_gdb_index; dsimp only; split <;> rfl

theorem parser_of_description (E : Env) (s : GDBState) (t n : Nat) (r : GDBState × List Nat)
    (h : get_thread_description E s t n = some r) : parser_of r.1 = parser_of s := by
  unfold get_thread_description at h
  dsimp only at h
  split at h
  · cases h; rfl
  · split at h
    · cases h
    · split at h <;> cases h <;> rfl

theorem parser_of_thread_exist (E : Env) (s : GDBState) (t : Nat) (r : GDBState × Int)
    (h : does_thread_exist E s t = some r) : parser_of r.1 = parser_of s := by
  unfold does_thread_exist at h
  dsimp only at h
  split at h
  · cases h; rfl
  · split at h
    · cases h
    · split at h <;> cases h <;> rfl

theorem parser_of_read_register (E : Env) (s : GDBState) (t : Nat) (i : Int) (m : List Nat)
    (o : Nat) (r : GDBState × List Nat × Nat)
    (h : gdb_read_thread_register E s t i m o = some r) : parser_of r.1 = parser_of s := by
  unfold gdb_read_thread_register at h
  dsimp only at h
  split at h
  · cases h; rfl
  · split at h
    · cases h
    · split at h
      · split at h
        · cases h
        · cases h; rfl
      · cases h; rfl

theorem parser_of_write_register (E : Env) (s : GDBState) (t : Nat) (i : Int) (m : List Nat)
    (r : GDBState × Int)
    (h : gdb_write_thread_register E s t i m = some r) : parser_of r.1 = parser_of s := by
  unfold gdb_write_thread_register gdb_get_register_size at h
  dsimp only at h
  split at h
  · cases h; rfl
  · split at h
    · cases h; rfl
    · split at h
      · cases h
      · cases h; rfl

theorem parser_of_read_all (E : Env) : ∀ (n : Nat) (s : GDBState) (a : Int) (m : List Nat)
    (l : Nat) (r : GDBState × List Nat × Nat),
    read_all_registers E n s a m l = some r → parser_of r.1 = parser_of s := by
  intro n
  induction n with
  | zero => intro s a m l r h; cases h; rfl
  | succ n ih =>
    intro s a m l r h
    unfold read_all_registers at h
    split at h
    · split at h
      · cases h
      · rename_i r1 heq
        exact (ih _ _ _ _ _ h).trans (parser_of_read_register _ _ _ _ _ _ _ heq)
    · cases h; rfl

theorem parser_of_write_all (E : Env) : ∀ (n : Nat) (s : GDBState) (a : Int) (m : List Nat)
    (g l : Int) (r : GDBState),
    write_all_registers E n s a m g l = some r → parser_of r = parser_of s := by
  intro n
  induction n with
  | zero => intro s a m g l r h; cases h; rfl
  | succ n ih =>
    intro s a m g l r h
    unfold write_all_registers at h
    split at h
    · split at h
      · cases h
      · rename_i r1 heq
        exact (ih _ _ _ _ _ _ h).trans (parser_of_write_register _ _ _ _ _ _ heq)
    · cases h; rfl

theorem parser_of_memory_rw (E : Env) (s : GDBState) (t a : Nat) (m : List Nat) (l : Int)
    (w : Bool) (r : GDBState × List Nat × Int)
    (h : target_memory_rw_debug E s t a m l w = some r) : parser_of r.1 = parser_of s := by
  unfold target_memory_rw_debug at h
  dsimp only at h
  split at h
  · cases h; rfl
  · split at h
    · cases h
    · split at h
      · split at h
        · cases h; rfl
        · split at h
          · cases h
          · cases h; rfl
      · cases h; rfl

theorem hp_ok_some {s s1 : GDBState} (h : parser_of s1 = parser_of s) :
    hp_ok s (some (s1, RSState.RS_IDLE)) := by
  intro x hx; cases hx; exact ⟨h, rfl⟩

theorem hp_ok_none (s : GDBState) : hp_ok s none := by
  intro x hx; cases hx

theorem hp_ok_unknown {s s1 : GDBState} (h : parser_of s1 = parser_of s) :
    hp_ok s (unknown_command s1) :=
  hp_ok_some (by rw [parser_of_put_packet, h])

theorem hp_ok_ite {s : GDBState} {c : Prop} [Decidable c] {a b : Option (GDBState × RSState)}
    (ha : c → hp_ok s a) (hb : ¬c → hp_ok s b) : hp_ok s (if c then a else b) := by
  by_cases h : c
  · rw [if_pos h]; exact ha h
  · rw [if_neg h]; exact hb h

theorem hp_ok_xfer (E : Env) (s0 s : GDBState) (h : parser_of s = parser_of s0) (p : List Nat) :
    hp_ok s0 (handle_xfer_features E s p) := by
  unfold handle_xfer_features
  refine hp_ok_ite (fun _ => hp_ok_unknown h) (fun _ => ?_)
  dsimp only
  split
  · exact hp_ok_some (by rw [parser_of_put_packet, parser_of_set_xml, h])
  · refine hp_ok_ite (fun _ => ?_) (fun _ => hp_ok_ite (fun _ => ?_) (fun _ => ?_))
    · exact hp_ok_some (by rw [parser_of_put_packet, parser_of_set_xml, h])
    · exact hp_ok_some (by rw [parser_of_put_packet_binary, parser_of_set_xml, h])
    · exact hp_ok_some (by rw [parser_of_put_packet_binary, parser_of_set_xml, h])

theorem hp_ok_query (E : Env) (s0 s : GDBState) (h : parser_of s = parser_of s0) (p : List Nat) :
    hp_ok s0 (handle_query E s p) := by
  unfold handle_query
  dsimp only
  repeat' first
    | with_reducible refine hp_ok_ite (fun _ => ?_) (fun _ => ?_)
    | with_reducible exact hp_ok_xfer E s0 s h _
    | with_reducible exact hp_ok_unknown h
    | with_reducible refine hp_ok_some (by simp only [parser_of_put_packet, parser_of_put_packet_binary,
        parser_of_set_sstep, parser_of_set_query, parser_of_thread_index,
        parser_of_log, apply_ite parser_of, ite_self, h])
  split
  · exact hp_ok_none s0
  · rename_i r heq
    exact hp_ok_some (by
      rw [parser_of_put_packet, parser_of_description _ _ _ _ _ heq, h])

theorem hp_ok_handle_packet (E : Env) (s : GDBState) (l : List Nat) :
    hp_ok s (pyrebox_gdb_handle_packet E s l) := by
  unfold pyrebox_gdb_handle_packet
  dsimp only
  have h0 : parser_of (s.log (Event.handle_packet (cstr l))) = parser_of s := rfl
  repeat' first
    | with_reducible refine hp_ok_ite (fun _ => ?_) (fun _ => ?_)
    | with_reducible exact hp_ok_none s
    | with_reducible exact hp_ok_query E s _ h0 _
    | with_reducible exact hp_ok_unknown h0
    | with_reducible refine hp_ok_some (by simp only [parser_of_put_packet, parser_of_put_packet_binary,
        parser_of_set_c, parser_of_set_g, parser_of_continue,
        parser_of_single_step, parser_of_remove_all, parser_of_signal_trap,
        parser_of_first_cpu, parser_of_log, h0])
  all_goals
    split
    · exact hp_ok_none s
    · rename_i heq
      first
        | (have hm := (parser_of_memory_rw _ _ _ _ _ _ _ _ heq).trans h0
           refine hp_ok_ite (fun _ => ?_) (fun _ => ?_) <;>
             exact hp_ok_some (by rw [parser_of_put_packet]; exact hm))
        | (have hm := (parser_of_read_register _ _ _ _ _ _ _ heq).trans h0
           refine hp_ok_ite (fun _ => hp_ok_ite (fun _ => hp_ok_none s) (fun _ => ?_))
             (fun _ => ?_) <;>
             exact hp_ok_some (by rw [parser_of_put_packet]; exact hm))
        | (have hm := (parser_of_thread_exist _ _ _ _ heq).trans h0
           refine hp_ok_ite (fun _ => ?_) (fun _ => ?_) <;>
             exact hp_ok_some (by rw [parser_of_put_packet]; exact hm))
        | (have hm := (parser_of_read_all _ _ _ _ _ _ _ heq).trans h0
           exact hp_ok_ite (fun _ => hp_ok_none s)
             (fun _ => hp_ok_some (by rw [parser_of_put_packet]; exact hm)))
        | (have hm := (parser_of_write_all _ _ _ _ _ _ _ _ heq).trans h0
           exact hp_ok_some (by rw [parser_of_put_packet]; exact hm))
        | (have hm := (parser_of_write_register _ _ _ _ _ _ heq).trans h0
           exact hp_ok_some (by rw [parser_of_put_packet]; exact hm))
        | (have hm := (parser_of_set_pc _ _ _ _ heq).trans h0
           exact hp_ok_some (by
             simp only [parser_of_continue, parser_of_single_step, hm]))

/-! ### Steps of the frame parser -/

theorem read_byte_stopped (E : Env) (s : GDBState) (ch : Nat) (hp : s.last_packet_len = 0)
    (hr : s.runstate_running = false) :
    pyrebox_gdb_read_byte E s ch = read_byte_switch E s ch := by
  simp [pyrebox_gdb_read_byte, hp, hr]

theorem read_byte_running (E : Env) (s : GDBState) (ch : Nat) (hp : s.last_packet_len = 0)
    (hr : s.runstate_running = true) :
    pyrebox_gdb_read_byte E s ch = some (stop_and_report E s) := by
  simp [pyrebox_gdb_read_byte, hp, hr, stop_and_report]

theorem read_byte_pending_nak (E : Env) (s : GDBState) (hp : s.last_packet_len ≠ 0) :
    pyrebox_gdb_read_byte E s 45 =
      some { s with trace := s.trace ++
        [Event.put_buffer (s.last_packet.take s.last_packet_len)] } := by
  simp [pyrebox_gdb_read_byte, hp, pyrebox_put_buffer, GDBState.log]

theorem read_byte_pending_ack (E : Env) (s : GDBState) (hp : s.last_packet_len ≠ 0) :
    pyrebox_gdb_read_byte E s 43 = some { s with last_packet_len := 0 } := by
  simp [pyrebox_gdb_read_byte, hp]

theorem read_byte_pending_other (E : Env) (s : GDBState) (ch : Nat)
    (hp : s.last_packet_len ≠ 0) (h1 : ch ≠ 45) (h2 : ch ≠ 43) (h3 : ch ≠ 36) :
    pyrebox_gdb_read_byte E s ch = some s := by
  simp [pyrebox_gdb_read_byte, hp, h1, h2, h3]

theorem read_byte_pending_dollar (E : Env) (s : GDBState) (hp : s.last_packet_len ≠ 0) :
    pyrebox_gdb_read_byte E s 36 =
      pyrebox_gdb_read_byte E { s with last_packet_len := 0 } 36 := by
  simp [pyrebox_gdb_read_byte, hp]

theorem fromhex_lt : ∀ c, pyrebox_fromhex c < 16 := by
  intro c; unfold pyrebox_fromhex; split_ifs <;> omega

theorem shl_or_eq : ∀ a < 16, ∀ b < 16, (a <<< 4) ||| b = 16 * a + b := by decide

theorem cstr_append_nul (p rest : List Nat) (hp : ∀ c ∈ p, c ≠ 0) : cstr (p ++ 0 :: rest) = p := by
  induction p with
  | nil => simp [cstr]
  | cons c cs ih =>
    have hc : c ≠ 0 := hp c (List.mem_cons_self _ _)
    have := ih (fun x hx => hp x (List.mem_cons_of_mem _ hx))
    simp only [cstr] at this ⊢
    simp [List.takeWhile_cons, hc, this]

theorem cstr_idem (l : List Nat) : cstr (cstr l) = cstr l := by
  induction l with
  | nil => rfl
  | cons c cs ih =>
    simp only [cstr] at ih ⊢
    by_cases hc : c = 0
    · simp [List.takeWhile_cons, hc]
    · simp [List.takeWhile_cons, hc, ih]

theorem handle_packet_cstr (E : Env) (s : GDBState) (l : List Nat) :
    pyrebox_gdb_handle_packet E s (cstr l) = pyrebox_gdb_handle_packet E s l := by
  unfold pyrebox_gdb_handle_packet
  rw [cstr_idem]

/-- Ordinary payload bytes are stored one after the other. -/
theorem receive_payload (E : Env) (payload : List Nat) : ∀ (s : GDBState) (rest : List Nat),
    s.state = RSState.RS_GETLINE → s.last_packet_len = 0 → s.runstate_running = false →
    (∀ c ∈ payload, c < 256 ∧ c ≠ 35 ∧ c ≠ 125 ∧ c ≠ 42) →
    s.line_buf_index + payload.length ≤ MAX_PACKET_LENGTH - 1 →
    pyrebox_gdb_chr_receive E s (payload ++ rest) =
      pyrebox_gdb_chr_receive E
        { s with line_buf := memcpy s.line_buf s.line_buf_index payload,
                 line_buf_index := s.line_buf_index + payload.length,
                 line_sum := s.line_sum + payload.sum } rest := by
  induction payload with
  | nil => intro s rest _ _ _ _ _; rfl
  | cons c cs ih =>
    intro s rest hst hp hr hc hlen
    obtain ⟨c1, c2, c3, c4⟩ := hc c (List.mem_cons_self _ _)
    simp only [List.length_cons] at hlen
    have hidx : ¬ (s.line_buf_index ≥ MAX_PACKET_LENGTH - 1) := by omega
    have hstep : pyrebox_gdb_read_byte E s c = some
        { s with line_buf := s.line_buf.set s.line_buf_index c,
                 line_buf_index := s.line_buf_index + 1,
                 line_sum := s.line_sum + c } := by
      rw [read_byte_stopped E s c hp hr]
      simp only [read_byte_switch, hst, if_neg c2, if_neg c3, if_neg c4, if_neg hidx,
        Nat.mod_eq_of_lt c1]
    rw [List.cons_append, pyrebox_gdb_chr_receive, hstep]
    refine (ih { s with line_buf := s.line_buf.set s.line_buf_index c,
                        line_buf_index := s.line_buf_index + 1,
                        line_sum := s.line_sum + c } rest hst hp hr
      (fun x hx => hc x (List.mem_cons_of_mem _ hx))
      (by show s.line_buf_index + 1 + cs.length ≤ _; omega)).trans ?_
    have e1 : s.line_buf_index + 1 + cs.length = s.line_buf_index + (cs.length + 1) := by omega
    have e2 : s.line_sum + c + cs.sum = s.line_sum + (c + cs.sum) := by omega
    simp only [memcpy, List.length_cons, List.sum_cons, e1, e2]

theorem step_getline_hash (E : Env) (s : GDBState) (hst : s.state = RSState.RS_GETLINE)
    (hp : s.last_packet_len = 0) (hr : s.runstate_running = false) :
    pyrebox_gdb_read_byte E s 35 = some { s with state := RSState.RS_CHKSUM1 } := by
  rw [read_byte_stopped E s 35 hp hr]
  simp [read_byte_switch, hst]

theorem step_chksum1 (E : Env) (s : GDBState) (ch : Nat) (hst : s.state = RSState.RS_CHKSUM1)
    (hp : s.last_packet_len = 0) (hr : s.runstate_running = false) (hx : isxdigit ch = true) :
    pyrebox_gdb_read_byte E s ch = some
      { s with line_buf := s.line_buf.set s.line_buf_index 0,
               line_csum := pyrebox_fromhex ch <<< 4,
               state := RSState.RS_CHKSUM2 } := by
  rw [read_byte_stopped E s ch hp hr]
  simp [read_byte_switch, hst, hx]

theorem step_chksum2_nak (E : Env) (s : GDBState) (ch : Nat) (hst : s.state = RSState.RS_CHKSUM2)
    (hp : s.last_packet_len = 0) (hr : s.runstate_running = false) (hx : isxdigit ch = true)
    (hne : s.line_csum ||| pyrebox_fromhex ch ≠ s.line_sum % 256) :
    pyrebox_gdb_read_byte E s ch = some
      { s with line_csum := s.line_csum ||| pyrebox_fromhex ch,
               state := RSState.RS_IDLE,
               trace := s.trace ++ [Event.put_buffer [45]] } := by
  rw [read_byte_stopped E s ch hp hr]
  simp [read_byte_switch, hst, hx, and_0xff, hne, pyrebox_put_buffer, GDBState.log]

theorem step_chksum2_ack (E : Env) (s : GDBState) (ch : Nat) (hst : s.state = RSState.RS_CHKSUM2)
    (hp : s.last_packet_len = 0) (hr : s.runstate_running = false) (hx : isxdigit ch = true)
    (heq : s.line_csum ||| pyrebox_fromhex ch = s.line_sum % 256) :
    pyrebox_gdb_read_byte E s ch =
      (pyrebox_gdb_handle_packet E
        { s with line_csum := s.line_sum % 256,
                 trace := s.trace ++ [Event.put_buffer [43]] } s.line_buf).map
        (fun r => { r.1 with state := r.2 }) := by
  rw [read_byte_stopped E s ch hp hr]
  simp only [read_byte_switch, hst, hx, and_0xff, heq, pyrebox_put_buffer, GDBState.log]
  simp only [Bool.not_true, Bool.false_eq_true, if_false, ne_eq, not_true_eq_false,
    List.take_succ_cons, List.take_zero]
  cases pyrebox_gdb_handle_packet E _ s.line_buf <;> rfl

theorem receive_trailer_nak (E : Env) (s : GDBState) (h l : Nat)
    (hst : s.state = RSState.RS_GETLINE) (hp : s.last_packet_len = 0)
    (hr : s.runstate_running = false) (hh : isxdigit h = true) (hl : isxdigit l = true)
    (hne : 16 * pyrebox_fromhex h + pyrebox_fromhex l ≠ s.line_sum % 256) :
    pyrebox_gdb_chr_receive E s [35, h, l] =
      some { s with state := RSState.RS_IDLE,
                    line_buf := s.line_buf.set s.line_buf_index 0,
                    line_csum := 16 * pyrebox_fromhex h + pyrebox_fromhex l,
                    trace := s.trace ++ [Event.put_buffer [45]] } := by
  have e := shl_or_eq _ (fromhex_lt h) _ (fromhex_lt l)
  rw [pyrebox_gdb_chr_receive, step_getline_hash E s hst hp hr]
  simp only
  rw [pyrebox_gdb_chr_receive, step_chksum1 E { s with state := RSState.RS_CHKSUM1 } h rfl hp hr hh]
  simp only
  rw [pyrebox_gdb_chr_receive, step_chksum2_nak E
    { s with line_buf := s.line_buf.set s.line_buf_index 0,
             line_csum := pyrebox_fromhex h <<< 4,
             state := RSState.RS_CHKSUM2 } l rfl hp hr hl (by rw [e]; exact hne)]
  simp only [pyrebox_gdb_chr_receive, e]

theorem receive_trailer_ack (E : Env) (s : GDBState) (h l : Nat)
    (hst : s.state = RSState.RS_GETLINE) (hp : s.last_packet_len = 0)
    (hr : s.runstate_running = false) (hh : isxdigit h = true) (hl : isxdigit l = true)
    (heq : 16 * pyrebox_fromhex h + pyrebox_fromhex l = s.line_sum % 256) :
    pyrebox_gdb_chr_receive E s [35, h, l] =
      (pyrebox_gdb_handle_packet E
        { s with state := RSState.RS_CHKSUM2,
                 line_buf := s.line_buf.set s.line_buf_index 0,
                 line_csum := s.line_sum % 256,
                 trace := s.trace ++ [Event.put_buffer [43]] }
        (s.line_buf.set s.line_buf_index 0)).map
        (fun r => { r.1 with state := r.2 }) := by
  have e := shl_or_eq _ (fromhex_lt h) _ (fromhex_lt l)
  rw [pyrebox_gdb_chr_receive, step_getline_hash E s hst hp hr]
  simp only
  rw [pyrebox_gdb_chr_receive, step_chksum1 E { s with state := RSState.RS_CHKSUM1 } h rfl hp hr hh]
  simp only
  rw [pyrebox_gdb_chr_receive, step_chksum2_ack E
    { s with line_buf := s.line_buf.set s.line_buf_index 0,
             line_csum := pyrebox_fromhex h <<< 4,
             state := RSState.RS_CHKSUM2 } l rfl hp hr hl (by rw [e]; exact heq)]
  simp only
  cases pyrebox_gdb_handle_packet E _ (s.line_buf.set s.line_buf_index 0) <;> rfl

set_option maxRecDepth 100000 in
theorem xor_0x20_byte : ∀ b < 256, (b ^^^ 0x20) % 256 = b ^^^ 0x20 := by decide

theorem receive_append (E : Env) (a : List Nat) : ∀ (s : GDBState) (b : List Nat),
    pyrebox_gdb_chr_receive E s (a ++ b) =
      (pyrebox_gdb_chr_receive E s a).bind (fun s1 => pyrebox_gdb_chr_receive E s1 b) := by
  induction a with
  | nil => intro s b; rfl
  | cons c cs ih =>
    intro s b
    simp only [List.cons_append, pyrebox_gdb_chr_receive]
    cases pyrebox_gdb_read_byte E s c with
    | none => rfl
    | some s1 => exact ih s1 b

theorem cstr_eq_self (p : List Nat) (hp : ∀ c ∈ p, c ≠ 0) : cstr p = p := by
  have := cstr_append_nul p [] hp
  induction p with
  | nil => rfl
  | cons c cs ih =>
    have hc : c ≠ 0 := hp c (List.mem_cons_self _ _)
    have h2 := ih (fun x hx => hp x (List.mem_cons_of_mem _ hx))
      (cstr_append_nul cs [] (fun x hx => hp x (List.mem_cons_of_mem _ hx)))
    simp only [cstr] at h2 ⊢
    simp [List.takeWhile_cons, hc, h2]

theorem digitChar_ne_zero (d : Nat) : (Nat.digitChar d).toNat ≠ 0 := by
  by_cases h : d < 16
  · have key : ∀ d < 16, (Nat.digitChar d).toNat ≠ 0 := by decide
    exact key d h
  · have e : Nat.digitChar d = '*' := by
      unfold Nat.digitChar
      simp only [show d ≠ 0 by omega, show d ≠ 1 by omega, show d ≠ 2 by omega, show d ≠ 3 by omega, show d ≠ 4 by omega, show d ≠ 5 by omega, show d ≠ 6 by omega, show d ≠ 7 by omega, show d ≠ 8 by omega, show d ≠ 9 by omega, show d ≠ 10 by omega, show d ≠ 11 by omega, show d ≠ 12 by omega, show d ≠ 13 by omega, show d ≠ 14 by omega, show d ≠ 15 by omega, if_false]
    rw [e]; decide

theorem toDigitsCore_ne_zero (b : Nat) : ∀ (fuel n : Nat) (acc : List Char),
    (∀ c ∈ acc, c.toNat ≠ 0) → ∀ c ∈ Nat.toDigitsCore b fuel n acc, c.toNat ≠ 0 := by
  intro fuel
  induction fuel with
  | zero => intro n acc h; simpa [Nat.toDigitsCore] using h
  | succ f ih =>
    intro n acc h
    unfold Nat.toDigitsCore
    dsimp only
    split
    · intro c hc
      rcases List.mem_cons.1 hc with h1 | h1
      · rw [h1]; exact digitChar_ne_zero _
      · exact h c h1
    · apply ih
      intro c hc
      rcases List.mem_cons.1 hc with h1 | h1
      · rw [h1]; exact digitChar_ne_zero _
      · exact h c h1

theorem fmt_x_ne_zero (v : Nat) : ∀ c ∈ fmt_x v, c ≠ 0 := by
  intro c hc
  simp only [fmt_x, List.mem_map] at hc
  obtain ⟨d, hd, rfl⟩ := hc
  exact toDigitsCore_ne_zero 16 _ _ [] (by simp) d hd

theorem toDigitsCore_length_le : ∀ (fuel n k : Nat) (acc : List Char), 1 ≤ k → n < 16 ^ k →
    (Nat.toDigitsCore 16 fuel n acc).length ≤ k + acc.length := by
  intro fuel
  induction fuel with
  | zero => intro n k acc _ _; simp [Nat.toDigitsCore]
  | succ f ih =>
    intro n k acc hk hn
    unfold Nat.toDigitsCore
    dsimp only
    split
    · simp only [List.length_cons]; omega
    · rename_i hne
      have hk2 : 2 ≤ k := by
        by_contra hlt
        have hk1 : k = 1 := by omega
        subst hk1
        apply hne
        have : n < 16 := by simpa using hn
        omega
      have hdiv : n / 16 < 16 ^ (k - 1) := by
        have e : 16 ^ k = 16 ^ (k - 1) * 16 := by
          rw [← Nat.pow_succ]; congr 1; omega
        rw [e] at hn
        exact Nat.div_lt_of_lt_mul (by rw [Nat.mul_comm]; exact hn)
      have := ih (n / 16) (k - 1) (Nat.digitChar (n % 16) :: acc) (by omega) hdiv
      simp only [List.length_cons] at this
      omega

theorem fmt_x_length_le (v : Nat) (hv : v < 2 ^ 64) : (fmt_x v).length ≤ 16 := by
  simp only [fmt_x, List.length_map, Nat.toDigits]
  have := toDigitsCore_length_le (v + 1) v 16 [] (by omega) (by
    have e : (16 : Nat) ^ 16 = 2 ^ 64 := by norm_num
    rw [e]; exact hv)
  simpa using this


/-! ### Invariant of the sessions driven by inbound bytes -/

theorem parser_of_fields {s s1 : GDBState} (h : parser_of s1 = parser_of s) :
    s1.line_buf = s.line_buf ∧ s1.line_buf_index = s.line_buf_index ∧
    s1.line_sum = s.line_sum ∧ s1.line_csum = s.line_csum ∧ s1.state = s.state := by
  simp only [parser_of, Prod.mk.injEq] at h
  exact h

/-- One step of the `switch`: the buffer bound and size are kept, and either
the parser ends in `RS_IDLE` or the pending length and run state are untouched. -/
theorem switch_inv (E : Env) (s s1 : GDBState) (ch : Nat)
    (hi : s.line_buf_index ≤ MAX_PACKET_LENGTH - 1) (hl : s.line_buf.length = MAX_PACKET_LENGTH)
    (h : read_byte_switch E s ch = some s1) :
    s1.line_buf_index ≤ MAX_PACKET_LENGTH - 1 ∧ s1.line_buf.length = MAX_PACKET_LENGTH ∧
    (s1.state = RSState.RS_IDLE ∨
      (s1.last_packet_len = s.last_packet_len ∧ s1.runstate_running = s.runstate_running)) := by
  have hm : MAX_PACKET_LENGTH = 4096 := rfl
  unfold read_byte_switch at h
  split at h
  · -- RS_IDLE
    split at h <;> cases h
    · exact ⟨by simp only; omega, hl, Or.inr ⟨rfl, rfl⟩⟩
    · exact ⟨hi, hl, Or.inr ⟨rfl, rfl⟩⟩
  · -- RS_GETLINE
    split at h
    · cases h; exact ⟨hi, hl, Or.inr ⟨rfl, rfl⟩⟩
    · split at h
      · cases h; exact ⟨hi, hl, Or.inr ⟨rfl, rfl⟩⟩
      · split at h
        · cases h; exact ⟨hi, hl, Or.inr ⟨rfl, rfl⟩⟩
        · split at h
          · cases h; exact ⟨hi, hl, Or.inl rfl⟩
          · cases h
            refine ⟨?_, ?_, Or.inr ⟨rfl, rfl⟩⟩
            · simp only; omega
            · simp only [List.length_set]; exact hl
  · -- RS_GETLINE_ESC
    split at h
    · cases h; exact ⟨hi, hl, Or.inr ⟨rfl, rfl⟩⟩
    · split at h
      · cases h; exact ⟨hi, hl, Or.inl rfl⟩
      · cases h
        refine ⟨?_, ?_, Or.inr ⟨rfl, rfl⟩⟩
        · simp only; omega
        · simp only [List.length_set]; exact hl
  · -- RS_GETLINE_RLE
    split at h
    · cases h; exact ⟨hi, hl, Or.inr ⟨rfl, rfl⟩⟩
    · dsimp only at h
      split at h
      · cases h; exact ⟨hi, hl, Or.inl rfl⟩
      · split at h
        · cases h; exact ⟨hi, hl, Or.inr ⟨rfl, rfl⟩⟩
        · cases h
          refine ⟨?_, ?_, Or.inr ⟨rfl, rfl⟩⟩
          · simp only; omega
          · simp only [memcpy_length]; exact hl
  · -- RS_CHKSUM1
    split at h <;> cases h
    · exact ⟨hi, hl, Or.inr ⟨rfl, rfl⟩⟩
    · exact ⟨hi, by simp only [List.length_set]; exact hl, Or.inr ⟨rfl, rfl⟩⟩
  · -- RS_CHKSUM2
    split at h
    · cases h; exact ⟨hi, hl, Or.inr ⟨rfl, rfl⟩⟩
    · dsimp only at h
      split at h
      · cases h; exact ⟨hi, hl, Or.inl rfl⟩
      · split at h
        · rename_i r heq
          cases h
          obtain ⟨hpar, hidle⟩ := hp_ok_handle_packet E _ _ r heq
          obtain ⟨p1, p2, -, -, -⟩ := parser_of_fields hpar
          refine ⟨?_, ?_, Or.inl hidle⟩
          · show r.1.line_buf_index ≤ _
            rw [p2]; exact hi
          · show r.1.line_buf.length = _
            rw [p1]; exact hl
        · cases h
  · cases h

theorem read_byte_inv (E : Env) (s s1 : GDBState) (ch : Nat) (hinv : session_inv s)
    (h : pyrebox_gdb_read_byte E s ch = some s1) : session_inv s1 := by
  have key : ∀ s : GDBState, session_inv s → s.last_packet_len = 0 →
      pyrebox_gdb_read_byte E s ch = some s1 → session_inv s1 := by
    intro s hinv hp h
    obtain ⟨hi, hl, hidle⟩ := hinv
    by_cases hr : s.runstate_running = true
    · have hst := hidle (Or.inr hr)
      rw [read_byte_running E s ch hp hr] at h
      cases h
      have hpar : parser_of (stop_and_report E s) = parser_of s := by
        unfold stop_and_report
        rw [parser_of_signal_trap, parser_of_first_cpu, parser_of_vm_stop]
      obtain ⟨p1, p2, -, -, p5⟩ := parser_of_fields hpar
      exact ⟨by rw [p2]; exact hi, by rw [p1]; exact hl, fun _ => by rw [p5]; exact hst⟩
    · have hr1 : s.runstate_running = false := by simpa using hr
      rw [read_byte_stopped E s ch hp hr1] at h
      obtain ⟨q1, q2, q3⟩ := switch_inv E s s1 ch hi hl h
      refine ⟨q1, q2, fun hor => ?_⟩
      rcases q3 with q3 | ⟨q3, q4⟩
      · exact q3
      · rw [q3, q4] at hor
        rcases hor with hor | hor
        · exact absurd hp hor
        · rw [hr1] at hor; cases hor
  by_cases hp : s.last_packet_len = 0
  · exact key s hinv hp h
  · obtain ⟨hi, hl, hidle⟩ := hinv
    have hst := hidle (Or.inl hp)
    by_cases h3 : ch = 36
    · subst h3
      rw [read_byte_pending_dollar E s hp] at h
      exact key { s with last_packet_len := 0 } ⟨hi, hl, fun _ => hst⟩ rfl h
    · by_cases h1 : ch = 45
      · subst h1
        rw [read_byte_pending_nak E s hp] at h
        cases h
        exact ⟨hi, hl, fun _ => hst⟩
      · by_cases h2 : ch = 43
        · subst h2
          rw [read_byte_pending_ack E s hp] at h
          cases h
          exact ⟨hi, hl, fun _ => hst⟩
        · rw [read_byte_pending_other E s ch hp h1 h2 h3] at h
          cases h
          exact ⟨hi, hl, hidle⟩

theorem reachable_inv (n : Int) (s : GDBState) (h : Reachable n s) : session_inv s := by
  induction h with
  | start running => exact ⟨Nat.zero_le _, List.length_replicate _ _, fun _ => rfl⟩
  | byte E s s1 ch _ _ hstep ih => exact read_byte_inv E s s1 ch ih hstep


theorem reachable_receive (n : Int) (E : Env) (l : List Nat) : ∀ (s s1 : GDBState),
    Reachable n s → (∀ c ∈ l, c < 256) → pyrebox_gdb_chr_receive E s l = some s1 →
    Reachable n s1 := by
  induction l with
  | nil =>
    intro s s1 hs _ h
    simp only [pyrebox_gdb_chr_receive, Option.some.injEq] at h
    rw [← h]; exact hs
  | cons c cs ih =>
    intro s s1 hs hc h
    rw [pyrebox_gdb_chr_receive] at h
    cases hstep : pyrebox_gdb_read_byte E s c with
    | none => rw [hstep] at h; cases h
    | some s2 =>
      rw [hstep] at h
      exact ih s2 s1 (Reachable.byte E s s2 c hs (hc c (List.mem_cons_self _ _)) hstep)
        (fun x hx => hc x (List.mem_cons_of_mem _ hx)) h

theorem full_buffer_reachable : Reachable 0 full_buffer_session := by
  apply reachable_receive 0 demo_env (36 :: List.replicate 4095 97 ++ []) (fresh_session 0 false)
    _ (Reachable.start false)
  · intro c hc
    simp only [List.append_nil, List.mem_cons, List.mem_replicate] at hc
    rcases hc with h | ⟨-, h⟩ <;> rw [h] <;> decide
  · have h1 : pyrebox_gdb_read_byte demo_env (fresh_session 0 false) 36 = some
        { fresh_session 0 false with
          line_buf_index := 0, line_sum := 0, state := RSState.RS_GETLINE } := by
      rw [read_byte_stopped demo_env _ 36 rfl rfl]
      rfl
    rw [List.cons_append, pyrebox_gdb_chr_receive, h1]
    simp only
    refine (receive_payload demo_env (List.replicate 4095 97) _ [] rfl rfl rfl ?_ ?_).trans ?_
    · intro c hc
      rw [List.mem_replicate] at hc
      rw [hc.2]; decide
    · simp only [List.length_replicate]; decide
    · simp only [pyrebox_gdb_chr_receive, List.length_replicate, Nat.zero_add]
      rfl

/-! ### The interrupt of a running target -/

theorem put_packet_sends (s : GDBState) (buf : List Nat) (hnul : ∀ c ∈ buf, c ≠ 0)
    (hmax : buf.length ≤ MAX_PACKET_LENGTH)
    (hlp : s.last_packet.length = MAX_PACKET_LENGTH + 4) :
    pyrebox_put_packet s buf =
      { s with last_packet := frame_of buf ++ s.last_packet.drop (buf.length + 4),
               last_packet_len := buf.length + 4,
               trace := s.trace ++ [Event.put_buffer (frame_of buf)] } := by
  unfold pyrebox_put_packet
  rw [cstr_eq_self buf hnul]
  exact (put_packet_binary_sends s buf buf.length rfl hmax hlp).1

theorem stop_packet_text (t : Nat) :
    bytes "T" ++ fmt_02x GDB_SIGNAL_TRAP ++ bytes "thread:" ++ fmt_x t ++ bytes ";"
      = bytes "T05thread:" ++ fmt_x t ++ bytes ";" := by
  have e : bytes "T" ++ fmt_02x GDB_SIGNAL_TRAP ++ bytes "thread:" = bytes "T05thread:" := by
    decide
  rw [e]

theorem stop_packet_ok (t : Nat) (ht : t < 2 ^ 64) :
    (∀ c ∈ bytes "T05thread:" ++ fmt_x t ++ bytes ";", c ≠ 0) ∧
    (bytes "T05thread:" ++ fmt_x t ++ bytes ";").length ≤ MAX_PACKET_LENGTH := by
  constructor
  · intro c hc
    simp only [List.mem_append] at hc
    rcases hc with (hc | hc) | hc
    · have key : ∀ c ∈ bytes "T05thread:", c ≠ 0 := by decide
      exact key c hc
    · exact fmt_x_ne_zero t c hc
    · have key : ∀ c ∈ bytes ";", c ≠ 0 := by decide
      exact key c hc
  · have h1 := fmt_x_length_le t ht
    have h2 : (bytes "T05thread:").length = 10 := by decide
    have h3 : (bytes ";").length = 1 := by decide
    have hm : MAX_PACKET_LENGTH = 4096 := rfl
    simp only [List.length_append, h2, h3]
    omega

theorem reported_lt (E : Env) (s : GDBState) : reported_first_core_thread E s < 2 ^ 64 := by
  unfold reported_first_core_thread
  dsimp only
  split_ifs <;> first | exact Nat.mod_lt _ (by norm_num) | norm_num

theorem signal_trap_eq (s : GDBState) (t : Nat) (ht : t < 2 ^ 64)
    (hlp : s.last_packet.length = MAX_PACKET_LENGTH + 4) :
    pyrebox_gdb_signal_trap s t =
      { s with currently_running_thread := t,
               last_packet := frame_of (bytes "T05thread:" ++ fmt_x t ++ bytes ";") ++
                 s.last_packet.drop ((bytes "T05thread:" ++ fmt_x t ++ bytes ";").length + 4),
               last_packet_len := (bytes "T05thread:" ++ fmt_x t ++ bytes ";").length + 4,
               trace := s.trace ++
                 [Event.put_buffer (frame_of (bytes "T05thread:" ++ fmt_x t ++ bytes ";"))] } := by
  have hok := stop_packet_ok t ht
  unfold pyrebox_gdb_signal_trap
  simp only [stop_packet_text]
  rw [put_packet_sends { s with currently_running_thread := t } _ hok.1 hok.2 hlp]

theorem vm_stop_first_cpu_eq (E : Env) (s : GDBState) (hr : s.runstate_running = true) :
    ∃ (threads : Option (List Nat)) (count : Nat),
    pyrebox_get_running_thread_first_cpu E (pyrebox_vm_stop E s) =
      ({ s with runstate_running := false, vm_is_running := 0,
                current_threads := threads, number_of_current_threads := count,
                trace := s.trace ++ Event.vm_stop :: stop_provider_calls E s },
        reported_first_core_thread E s) := by
  cases hc : s.current_threads with
  | some t =>
    refine ⟨some t, s.number_of_current_threads, ?_⟩
    cases hg : E.get_running_thread_first_cpu (some t) <;>
      simp [pyrebox_vm_stop, pyrebox_update_threads, hr, hc,
        pyrebox_get_running_thread_first_cpu, hg, GDBState.log, reported_first_core_thread,
        stop_provider_calls]
  | none =>
    cases ht : E.get_threads with
    | none =>
      refine ⟨none, s.number_of_current_threads, ?_⟩
      simp [pyrebox_vm_stop, pyrebox_update_threads, hr, hc, ht,
        pyrebox_get_running_thread_first_cpu, GDBState.log, reported_first_core_thread,
        stop_provider_calls]
    | some t =>
      refine ⟨some t, t.length % 2 ^ 32, ?_⟩
      cases hg : E.get_running_thread_first_cpu (some t) <;>
        simp [pyrebox_vm_stop, pyrebox_update_threads, hr, hc, ht,
          pyrebox_get_running_thread_first_cpu, hg, GDBState.log, reported_first_core_thread,
          stop_provider_calls]

/-- The session after the interrupt of a running target. -/
theorem stop_and_report_eq (E : Env) (s : GDBState) (hr : s.runstate_running = true)
    (hlp : s.last_packet.length = MAX_PACKET_LENGTH + 4) :
    ∃ (threads : Option (List Nat)) (count : Nat),
    stop_and_report E s =
      { s with runstate_running := false, vm_is_running := 0,
               current_threads := threads, number_of_current_threads := count,
               currently_running_thread := reported_first_core_thread E s,
               last_packet := frame_of (bytes "T05thread:" ++
                   fmt_x (reported_first_core_thread E s) ++ bytes ";") ++
                 s.last_packet.drop ((bytes "T05thread:" ++
                   fmt_x (reported_first_core_thread E s) ++ bytes ";").length + 4),
               last_packet_len := (bytes "T05thread:" ++
                   fmt_x (reported_first_core_thread E s) ++ bytes ";").length + 4,
               trace := s.trace ++ Event.vm_stop :: stop_provider_calls E s ++
                 [Event.put_buffer (frame_of (bytes "T05thread:" ++
                   fmt_x (reported_first_core_thread E s) ++ bytes ";"))] } := by
  obtain ⟨threads, count, h⟩ := vm_stop_first_cpu_eq E s hr
  refine ⟨threads, count, ?_⟩
  unfold stop_and_report
  rw [h]
  simp only
  refine (signal_trap_eq _ _ (reported_lt E s) ?_).trans ?_
  · exact hlp
  · simp

/-! ### Numeric fields of a command line -/

theorem isxdigit_not_space (c : Nat) (h : isxdigit c = true) : isspace c = false := by
  simp only [isxdigit, isspace, Bool.or_eq_true, Bool.and_eq_true, decide_eq_true_eq,
    Bool.or_eq_false_iff, Bool.and_eq_false_iff, beq_eq_false_iff_ne, ne_eq,
    decide_eq_false_iff_not] at *
  omega

theorem isxdigit_ne (c : Nat) (h : isxdigit c = true) :
    c ≠ 0 ∧ c ≠ 45 ∧ c ≠ 43 ∧ c ≠ 120 ∧ c ≠ 88 := by
  simp only [isxdigit, Bool.or_eq_true, Bool.and_eq_true, decide_eq_true_eq] at h
  omega

theorem takeWhile_field (d rest : List Nat) (hd : ∀ c ∈ d, isxdigit c = true)
    (hr : isxdigit (peek rest) = false) : (d ++ rest).takeWhile isxdigit = d := by
  induction d with
  | nil =>
    cases rest with
    | nil => rfl
    | cons x t =>
      simp only [peek, List.headD_cons] at hr
      simp [List.takeWhile, hr]
  | cons c cs ih =>
    have hc := hd c (List.mem_cons_self _ _)
    have h2 := ih (fun x hx => hd x (List.mem_cons_of_mem _ hx))
    show List.takeWhile isxdigit (c :: (cs ++ rest)) = c :: cs
    rw [List.takeWhile_cons, hc, if_pos rfl, h2]

theorem strtoull_core (q d rest : List Nat) (h1 : q.dropWhile isspace = q)
    (h45 : peek q ≠ 45) (h43 : peek q ≠ 43)
    (hx : ∀ x h t, q = 48 :: x :: h :: t → x ≠ 120 ∧ x ≠ 88)
    (htw : q.takeWhile isxdigit = d) (hne : d.isEmpty = false) (hdrop : q.drop d.length = rest) :
    strtoull q = (if 2 ^ 64 ≤ hex_value d then 2 ^ 64 - 1 else hex_value d, rest) := by
  have hb3 : (peek q == 43) = false := by simp [h43]
  have hb2 : (peek q == 45) = false := by simp [h45]
  have key : ∀ q2, q2 = q → (if (List.takeWhile isxdigit q2).isEmpty then (0, q)
      else
        (if 2 ^ 64 ≤ List.foldl (fun a d => a * 16 + xdigit_val d) 0 (List.takeWhile isxdigit q2)
          then 2 ^ 64 - 1
          else List.foldl (fun a d => a * 16 + xdigit_val d) 0 (List.takeWhile isxdigit q2),
        List.drop (List.takeWhile isxdigit q2).length q2)) =
      (if 2 ^ 64 ≤ hex_value d then 2 ^ 64 - 1 else hex_value d, rest) := by
    intro q2 h2
    subst h2
    simp only [htw, hne, Bool.false_eq_true, if_false, hdrop, hex_value]
  simp only [strtoull, h1, hb3, hb2, Bool.or_self, Bool.false_eq_true, if_false]
  apply key
  split
  · rename_i x h t
    have := hx x h t rfl
    simp [this.1, this.2]
  · rfl

theorem strtoull_field (d rest : List Nat) (hd : is_hex_field d)
    (hr : isxdigit (peek rest) = false) (hx : peek rest ≠ 120 ∧ peek rest ≠ 88) :
    strtoull (d ++ rest) = (if 2 ^ 64 ≤ hex_value d then 2 ^ 64 - 1 else hex_value d, rest) := by
  obtain ⟨hne, hall⟩ := hd
  cases d with
  | nil => exact absurd rfl hne
  | cons c cs =>
    have hc := hall c (List.mem_cons_self _ _)
    have hsp := isxdigit_not_space c hc
    obtain ⟨_, h45, h43, _, _⟩ := isxdigit_ne c hc
    refine strtoull_core _ _ _ ?_ h45 h43 ?_ (takeWhile_field (c :: cs) rest hall hr) rfl
      (List.drop_left _ _)
    · show List.dropWhile isspace (c :: (cs ++ rest)) = _
      rw [List.dropWhile_cons, hsp]; rfl
    · intro x h t heq
      have heq2 : c :: (cs ++ rest) = 48 :: x :: h :: t := heq
      simp only [List.cons.injEq] at heq2
      cases cs with
      | nil =>
        simp only [List.nil_append] at heq2
        have h3 : peek rest = x := by rw [heq2.2]; rfl
        rw [h3] at hx
        exact hx
      | cons y ys =>
        simp only [List.cons_append, List.cons.injEq] at heq2
        have := isxdigit_ne y (hall y (by simp))
        rw [← heq2.2.1]
        exact ⟨this.2.2.2.1, this.2.2.2.2⟩

/-! ### Replies of the dispatcher -/

theorem field_ne_zero (d : List Nat) (hd : is_hex_field d) : ∀ c ∈ d, c ≠ 0 :=
  fun c hc => (isxdigit_ne c (hd.2 c hc)).1

theorem strtoull_field_end (d : List Nat) (hd : is_hex_field d) :
    strtoull d = (if 2 ^ 64 ≤ hex_value d then 2 ^ 64 - 1 else hex_value d, []) := by
  have := strtoull_field d [] hd rfl (by decide)
  rwa [List.append_nil] at this

theorem skip_char_cons (c : Nat) (t : List Nat) : skip_char (c :: t) c = t := by
  simp [skip_char, peek]

theorem handle_packet_m (E : Env) (s : GDBState) (p : List Nat) (hp : ∀ c ∈ p, c ≠ 0) :
    pyrebox_gdb_handle_packet E s (109 :: p) =
      (let s := s.log (Event.handle_packet (109 :: p))
       let r := strtoull p
       let addr := to_int r.1
       let p := skip_char r.2 44
       let len := to_int (strtoull p).1
       if len > (MAX_PACKET_LENGTH : Int) / 2 then
         some (pyrebox_put_packet s (bytes "E22"), RSState.RS_IDLE)
       else
         match target_memory_rw_debug E s s.g_thread_id (to_unsigned E.target_long_bits addr)
             E.uninit_mem_buf len false with
         | none => none
         | some (s, mem, res) =>
           if res = 0 then some (pyrebox_put_packet s (bytes "E14"), RSState.RS_IDLE)
           else some (pyrebox_put_packet s (pyrebox_memtohex mem len.toNat), RSState.RS_IDLE)) := by
  have hc : cstr (109 :: p) = 109 :: p :=
    cstr_eq_self _ (by
      intro c hc
      rcases List.mem_cons.1 hc with h | h
      · rw [h]; decide
      · exact hp c h)
  unfold pyrebox_gdb_handle_packet
  rw [hc]
  rfl

theorem m_line_ne_zero (addr len : List Nat) (ha : is_hex_field addr) (hl : is_hex_field len) :
    ∀ c ∈ addr ++ 44 :: len, c ≠ 0 := by
  intro c hc
  rcases List.mem_append.1 hc with h | h
  · exact field_ne_zero addr ha c h
  · rcases List.mem_cons.1 h with h | h
    · rw [h]; decide
    · exact field_ne_zero len hl c h

theorem to_int_small (v : Nat) (h : v % 2 ^ 32 < 2 ^ 31) : to_int v = ((v % 2 ^ 32 : Nat) : Int) := by
  simp only [to_int, h, if_true]

theorem reply_sends (s : GDBState) (line buf : List Nat) (hnul : ∀ c ∈ buf, c ≠ 0)
    (hmax : buf.length ≤ MAX_PACKET_LENGTH)
    (hlp : s.last_packet.length = MAX_PACKET_LENGTH + 4) :
    pyrebox_put_packet (s.log (Event.handle_packet line)) buf =
      { s with last_packet := frame_of buf ++ s.last_packet.drop (buf.length + 4),
               last_packet_len := buf.length + 4,
               trace := s.trace ++ [Event.handle_packet line, Event.put_buffer (frame_of buf)] } := by
  rw [put_packet_sends (s.log (Event.handle_packet line)) buf hnul hmax hlp]
  simp [GDBState.log]

set_option maxRecDepth 100000 in
theorem tohex_byte : ∀ c < 256, pyrebox_tohex (c >>> 4) = hex_digit (c / 16) ∧
    pyrebox_tohex (c &&& 0xf) = hex_digit (c % 16) := by
  decide

theorem memtohex_encode (rest : List Nat) : ∀ b : List Nat, (∀ x ∈ b, x < 256) →
    pyrebox_memtohex (b ++ rest) b.length = hex_encode b ++ [0] := by
  intro b
  induction b with
  | nil => intro _; rfl
  | cons c cs ih =>
    intro hb
    have hc := tohex_byte c (hb c (List.mem_cons_self _ _))
    show pyrebox_tohex (c >>> 4) :: pyrebox_tohex (c &&& 0xf) ::
      pyrebox_memtohex (cs ++ rest) cs.length = _
    rw [hc.1, hc.2, ih (fun x hx => hb x (List.mem_cons_of_mem _ hx))]
    rfl

theorem hex_digit_ne_zero : ∀ v < 16, hex_digit v ≠ 0 := by decide

theorem hex_encode_ne_zero : ∀ b : List Nat, (∀ x ∈ b, x < 256) → ∀ c ∈ hex_encode b, c ≠ 0 := by
  intro b
  induction b with
  | nil => intro _ c hc; cases hc
  | cons x xs ih =>
    intro hb c hc
    have hx := hb x (List.mem_cons_self _ _)
    simp only [hex_encode, List.mem_cons] at hc
    rcases hc with h | h | h
    · rw [h]; exact hex_digit_ne_zero _ (by omega)
    · rw [h]; exact hex_digit_ne_zero _ (by omega)
    · exact ih (fun y hy => hb y (List.mem_cons_of_mem _ hy)) c h

theorem hex_encode_length (b : List Nat) : (hex_encode b).length = 2 * b.length := by
  induction b with
  | nil => rfl
  | cons x xs ih => simp only [hex_encode, List.length_cons, ih]; omega

theorem put_packet_nul (s : GDBState) (p rest : List Nat) (hp : ∀ c ∈ p, c ≠ 0) :
    pyrebox_put_packet s (p ++ 0 :: rest) = pyrebox_put_packet s p := by
  unfold pyrebox_put_packet
  rw [cstr_append_nul p rest hp, cstr_eq_self p hp]
  simp only [pyrebox_put_packet_binary, packet_csum, List.take_left, List.take_length]

theorem reply_nul_sends (s : GDBState) (line p rest : List Nat) (hnul : ∀ c ∈ p, c ≠ 0)
    (hmax : p.length ≤ MAX_PACKET_LENGTH)
    (hlp : s.last_packet.length = MAX_PACKET_LENGTH + 4) :
    pyrebox_put_packet (s.log (Event.handle_packet line)) (p ++ 0 :: rest) =
      { s with last_packet := frame_of p ++ s.last_packet.drop (p.length + 4),
               last_packet_len := p.length + 4,
               trace := s.trace ++ [Event.handle_packet line, Event.put_buffer (frame_of p)] } := by
  rw [put_packet_nul _ _ _ hnul, reply_sends s line p hnul hmax hlp]

theorem put_packet_after (s : GDBState) (evs : List Event) (buf : List Nat)
    (hnul : ∀ c ∈ buf, c ≠ 0) (hmax : buf.length ≤ MAX_PACKET_LENGTH)
    (hlp : s.last_packet.length = MAX_PACKET_LENGTH + 4) :
    pyrebox_put_packet { s with trace := s.trace ++ evs } buf =
      { s with last_packet := frame_of buf ++ s.last_packet.drop (buf.length + 4),
               last_packet_len := buf.length + 4,
               trace := s.trace ++ evs ++ [Event.put_buffer (frame_of buf)] } := by
  rw [put_packet_sends { s with trace := s.trace ++ evs } buf hnul hmax hlp]

theorem log_log (s : GDBState) (a b : Event) :
    (s.log a).log b = { s with trace := s.trace ++ [a, b] } := by
  simp [GDBState.log]

theorem to_int_of_lt (v : Nat) (h : v < 2 ^ 31) : to_int v = (v : Int) := by
  have h1 : v % 2 ^ 32 = v := Nat.mod_eq_of_lt (by omega)
  simp only [to_int, h1, h, if_true]

theorem hextomem_length (buf : List Nat) (n : Nat) : (pyrebox_hextomem buf n).length = n := by
  induction n generalizing buf with
  | zero => rfl
  | succ k ih => simp only [pyrebox_hextomem, List.length_cons, ih]

theorem hextomem_take (n : Nat) : ∀ buf : List Nat,
    pyrebox_hextomem buf n = pyrebox_hextomem (buf.take (2 * n)) n := by
  induction n with
  | zero => intro buf; rfl
  | succ k ih =>
    intro buf
    have e : 2 * (k + 1) = 2 * k + 1 + 1 := by omega
    match buf with
    | [] => simp [pyrebox_hextomem]
    | [a] => simp [pyrebox_hextomem, e]
    | a :: b :: t =>
      rw [e]
      simp only [pyrebox_hextomem, List.take_succ_cons, List.headD_cons, List.tail_cons]
      rw [ih t]

theorem handle_packet_M (E : Env) (s : GDBState) (p : List Nat) (hp : ∀ c ∈ p, c ≠ 0) :
    pyrebox_gdb_handle_packet E s (77 :: p) =
      (let s := s.log (Event.handle_packet (77 :: p))
       let r := strtoull p
       let addr := to_int r.1
       let p := skip_char r.2 44
       let r := strtoull p
       let len := to_int r.1
       let p := skip_char r.2 58
       if p.length / 2 < to_unsigned 64 len then
         some (pyrebox_put_packet s (bytes "E22"), RSState.RS_IDLE)
       else
         let mem := memcpy E.uninit_mem_buf 0 (pyrebox_hextomem p len.toNat)
         match target_memory_rw_debug E s s.g_thread_id (to_unsigned E.target_long_bits addr)
             mem len true with
         | none => none
         | some (s, _, res) =>
           if res = 0 then some (pyrebox_put_packet s (bytes "E14"), RSState.RS_IDLE)
           else some (pyrebox_put_packet s (bytes "OK"), RSState.RS_IDLE)) := by
  have hc : cstr (77 :: p) = 77 :: p :=
    cstr_eq_self _ (by
      intro c hc
      rcases List.mem_cons.1 hc with h | h
      · rw [h]; decide
      · exact hp c h)
  unfold pyrebox_gdb_handle_packet
  rw [hc]
  rfl

theorem to_unsigned_nat (k : Nat) (h : k < 2 ^ 64) : to_unsigned 64 (k : Int) = k := by
  simp only [to_unsigned]
  omega

theorem isNone_of_ne_none {α : Type} (o : Option α) (h : o ≠ none) : o.isNone = false := by
  cases o with
  | none => exact absurd rfl h
  | some _ => rfl

theorem read_register_some (E : Env) (s : GDBState) (t : Nat) (i : Int) (mem : List Nat)
    (off : Nat) (r : List Nat)
    (hc : E.callable VmiFunction.gdb_read_thread_register = true)
    (hth : s.current_threads ≠ none)
    (h : E.gdb_read_thread_register t s.current_threads (to_unsigned 64 i) = some r)
    (hfit : off + r.length ≤ mem.length) :
    gdb_read_thread_register E s t i mem off =
      some (s.log (Event.py_gdb_read_thread_register t s.current_threads (to_unsigned 64 i)),
        memcpy mem off r, r.length) := by
  have hnf : ¬ (mem.length < off + r.length) := by omega
  simp [gdb_read_thread_register, hc, isNone_of_ne_none _ hth, h, hnf]

theorem read_all_eq (E : Env) (hc : E.callable VmiFunction.gdb_read_thread_register = true) :
    ∀ (regs : List (List Nat)) (s : GDBState) (k : Nat) (mem : List Nat) (off : Nat),
    s.current_threads ≠ none →
    s.gdb_num_regs = ((k + regs.length : Nat) : Int) → k + regs.length < 2 ^ 64 →
    (∀ i, i < regs.length →
      E.gdb_read_thread_register s.g_thread_id s.current_threads (k + i) = regs[i]?) →
    off + regs.flatten.length ≤ mem.length →
    read_all_registers E regs.length s (k : Int) mem off =
      some ({ s with trace := s.trace ++
          register_reads s.g_thread_id s.current_threads k regs.length },
        memcpy mem off regs.flatten, off + regs.flatten.length) := by
  intro regs
  induction regs with
  | nil =>
    intro s k mem off _ _ _ _ _
    simp [read_all_registers, register_reads, memcpy]
  | cons r rs ih =>
    intro s k mem off hth hn hk hE hfit
    have hfl : (r :: rs).flatten.length = r.length + rs.flatten.length := by
      simp only [List.flatten, List.length_append]
    rw [hfl] at hfit
    have hlt : (k : Int) < s.gdb_num_regs := by
      rw [hn]; simp only [List.length_cons]; omega
    have h0 := hE 0 (by simp)
    simp only [Nat.add_zero, List.getElem?_cons_zero] at h0
    have hstep : gdb_read_thread_register E s s.g_thread_id (k : Int) mem off =
        some (s.log (Event.py_gdb_read_thread_register s.g_thread_id s.current_threads k),
          memcpy mem off r, r.length) := by
      have := read_register_some E s s.g_thread_id (k : Int) mem off r hc hth
        (by rw [to_unsigned_nat k (by omega)]; exact h0) (by omega)
      rw [to_unsigned_nat k (by omega)] at this
      exact this
    show (if (k : Int) < s.gdb_num_regs then
        match gdb_read_thread_register E s s.g_thread_id (k : Int) mem off with
        | none => none
        | some r => read_all_registers E rs.length r.1 ((k : Int) + 1) r.2.1 (off + r.2.2)
      else some (s, mem, off)) = _
    rw [if_pos hlt, hstep]
    have hcast : ((k : Int) + 1) = ((k + 1 : Nat) : Int) := by omega
    show read_all_registers E rs.length
      (s.log (Event.py_gdb_read_thread_register s.g_thread_id s.current_threads k))
      ((k : Int) + 1) (memcpy mem off r) (off + r.length) = _
    rw [hcast, ih (s.log (Event.py_gdb_read_thread_register s.g_thread_id s.current_threads k))
      (k + 1) (memcpy mem off r) (off + r.length) hth
      (by
        show s.gdb_num_regs = _
        rw [hn]; simp only [List.length_cons]; congr 1; omega)
      (by simp only [List.length_cons] at hk; omega)
      (by
        intro i hi
        have := hE (i + 1) (by simp only [List.length_cons]; omega)
        simp only [List.getElem?_cons_succ] at this
        rw [← this]
        show E.gdb_read_thread_register s.g_thread_id s.current_threads (k + 1 + i) = _
        congr 1; omega)
      (by rw [memcpy_length]; omega)]
    simp only [GDBState.log, register_reads, List.flatten, List.length_append, memcpy_append,
      List.append_assoc, List.cons_append, List.nil_append, Nat.add_assoc, List.length_cons]

theorem handle_packet_g (E : Env) (s : GDBState) :
    pyrebox_gdb_handle_packet E s (bytes "g") =
      match read_all_registers E s.gdb_num_regs.toNat (s.log (Event.handle_packet (bytes "g"))) 0
          E.uninit_mem_buf 0 with
      | none => none
      | some r =>
        if MAX_PACKET_LENGTH + 1 < 2 * r.2.2 + 1 then none
        else some (pyrebox_put_packet r.1 (pyrebox_memtohex r.2.1 r.2.2),
          RSState.RS_IDLE) := rfl

theorem cons_ne_zero (c : Nat) (p : List Nat) (hc : c ≠ 0) (hp : ∀ x ∈ p, x ≠ 0) :
    ∀ x ∈ c :: p, x ≠ 0 := by
  intro x hx
  rcases List.mem_cons.1 hx with h | h
  · rw [h]; exact hc
  · exact hp x h

theorem empty_reply_sends (s : GDBState) (line : List Nat)
    (hlp : s.last_packet.length = MAX_PACKET_LENGTH + 4) :
    unknown_command (s.log (Event.handle_packet line)) =
      some ({ s with
          last_packet := frame_of [] ++ s.last_packet.drop 4,
          last_packet_len := 4,
          trace := s.trace ++ [Event.handle_packet line, Event.put_buffer (frame_of [])] },
        RSState.RS_IDLE) := by
  have h := reply_nul_sends s line [] [] (fun _ h => absurd h (List.not_mem_nil _))
    (Nat.zero_le _) hlp
  simp only [List.nil_append] at h
  unfold unknown_command
  rw [h]
  rfl

theorem handle_packet_H (E : Env) (s : GDBState) (p : List Nat) (hp : ∀ c ∈ p, c ≠ 0) :
    pyrebox_gdb_handle_packet E s (72 :: p) =
      if peek p = 99 then
        some (pyrebox_put_packet
          { s.log (Event.handle_packet (72 :: p)) with c_thread_id := selected_thread s p.tail }
          (bytes "OK"), RSState.RS_IDLE)
      else if peek p = 103 then
        some (pyrebox_put_packet
          { s.log (Event.handle_packet (72 :: p)) with g_thread_id := selected_thread s p.tail }
          (bytes "OK"), RSState.RS_IDLE)
      else some (pyrebox_put_packet (s.log (Event.handle_packet (72 :: p))) (bytes "E22"),
        RSState.RS_IDLE) := by
  unfold pyrebox_gdb_handle_packet
  rw [cstr_eq_self _ (cons_ne_zero 72 p (by decide) hp)]
  rfl

theorem thread_info_reply_ok (E : Env) (threads : Option (List Nat)) (n i : Nat) :
    (∀ c ∈ thread_info_reply E threads n i, c ≠ 0) ∧
    (thread_info_reply E threads n i).length ≤ MAX_PACKET_LENGTH := by
  unfold thread_info_reply
  split
  · constructor
    · intro c hc
      rcases List.mem_append.1 hc with h | h
      · have : c = 109 := by simpa [bytes] using h
        rw [this]; decide
      · exact fmt_x_ne_zero _ c h
    · have := fmt_x_length_le ((E.get_thread_id i threads).getD 0 % 2 ^ 64)
        (Nat.mod_lt _ (by decide))
      have h1 : (bytes "m").length = 1 := rfl
      rw [List.length_append, h1]
      simp only [MAX_PACKET_LENGTH]
      omega
  · exact ⟨by decide, by decide⟩

theorem thread_gdb_index_eq (E : Env) (s : GDBState) (i : Nat) :
    pyrebox_thread_gdb_index E s i =
      (s.log (Event.py_get_thread_id i s.current_threads),
        (E.get_thread_id i s.current_threads).getD 0 % 2 ^ 64) := by
  unfold pyrebox_thread_gdb_index
  cases E.get_thread_id i s.current_threads <;> rfl

theorem thread_info_step_s (E : Env) (t : GDBState)
    (hN : t.number_of_current_threads < 2 ^ 32)
    (hlp : t.last_packet.length = MAX_PACKET_LENGTH + 4) :
    pyrebox_gdb_handle_packet E t (bytes "qsThreadInfo") =
      some ({ t with
          query_thread := if t.query_thread < t.number_of_current_threads
            then t.query_thread + 1 else t.query_thread,
          last_packet := frame_of (thread_info_reply E t.current_threads
              t.number_of_current_threads t.query_thread) ++
            t.last_packet.drop ((thread_info_reply E t.current_threads
              t.number_of_current_threads t.query_thread).length + 4),
          last_packet_len := (thread_info_reply E t.current_threads
              t.number_of_current_threads t.query_thread).length + 4,
          trace := t.trace ++ thread_info_events E t.current_threads
            t.number_of_current_threads (bytes "qsThreadInfo") t.query_thread },
        RSState.RS_IDLE) := by
  have h0 : pyrebox_gdb_handle_packet E t (bytes "qsThreadInfo") =
      handle_query E (t.log (Event.handle_packet (bytes "qsThreadInfo")))
        (bytes "sThreadInfo") := by
    unfold pyrebox_gdb_handle_packet
    rw [show cstr (bytes "qsThreadInfo") = bytes "qsThreadInfo" by decide]
    rfl
  have h1 : strcmp_eq (bytes "sThreadInfo") (bytes "qemu.sstepbits") = false := by decide
  have h2 : is_query_packet (bytes "sThreadInfo") (bytes "qemu.sstep") 61 = false := by decide
  have h3 : strcmp_eq (bytes "sThreadInfo") (bytes "C") = false := by decide
  have h4 : strcmp_eq (bytes "sThreadInfo") (bytes "fThreadInfo") = false := by decide
  have h5 : strcmp_eq (bytes "sThreadInfo") (bytes "sThreadInfo") = true := by decide
  have hok := thread_info_reply_ok E t.current_threads t.number_of_current_threads t.query_thread
  rw [h0]
  unfold handle_query
  simp only [h1, h2, h3, h4, h5, Bool.false_eq_true, if_false, Bool.or_true, if_true,
    Bool.false_or, get_number_of_threads, thread_gdb_index_eq, log_log]
  by_cases hc : t.query_thread < t.number_of_current_threads
  · have hr : thread_info_reply E t.current_threads t.number_of_current_threads t.query_thread =
        bytes "m" ++ fmt_x ((E.get_thread_id t.query_thread t.current_threads).getD 0 % 2 ^ 64) := by
      simp only [thread_info_reply, hc, if_true]
    have hm : (t.query_thread + 1) % 2 ^ 32 = t.query_thread + 1 := Nat.mod_eq_of_lt (by omega)
    rw [hr] at hok
    simp only [GDBState.log, hc, if_true, hr, thread_info_events]
    rw [put_packet_after t _ _ hok.1 hok.2 hlp]
    simp only [hm, List.append_assoc, List.cons_append, List.nil_append]
  · have hr : thread_info_reply E t.current_threads t.number_of_current_threads t.query_thread =
        bytes "l" := by
      simp only [thread_info_reply, hc, if_false]
    simp only [GDBState.log, hc, if_false, hr, thread_info_events]
    rw [put_packet_after t _ _ (by decide) (by decide) hlp]
    simp only [List.append_assoc, List.cons_append, List.nil_append]

theorem thread_info_step_f (E : Env) (t : GDBState)
    (hlp : t.last_packet.length = MAX_PACKET_LENGTH + 4) :
    pyrebox_gdb_handle_packet E t (bytes "qfThreadInfo") =
      some ({ t with
          query_thread := if 0 < t.number_of_current_threads then 1 else 0,
          last_packet := frame_of (thread_info_reply E t.current_threads
              t.number_of_current_threads 0) ++
            t.last_packet.drop ((thread_info_reply E t.current_threads
              t.number_of_current_threads 0).length + 4),
          last_packet_len := (thread_info_reply E t.current_threads
              t.number_of_current_threads 0).length + 4,
          trace := t.trace ++ thread_info_events E t.current_threads
            t.number_of_current_threads (bytes "qfThreadInfo") 0 },
        RSState.RS_IDLE) := by
  have h0 : pyrebox_gdb_handle_packet E t (bytes "qfThreadInfo") =
      handle_query E (t.log (Event.handle_packet (bytes "qfThreadInfo")))
        (bytes "fThreadInfo") := by
    unfold pyrebox_gdb_handle_packet
    rw [show cstr (bytes "qfThreadInfo") = bytes "qfThreadInfo" by decide]
    rfl
  have h1 : strcmp_eq (bytes "fThreadInfo") (bytes "qemu.sstepbits") = false := by decide
  have h2 : is_query_packet (bytes "fThreadInfo") (bytes "qemu.sstep") 61 = false := by decide
  have h3 : strcmp_eq (bytes "fThreadInfo") (bytes "C") = false := by decide
  have h5 : strcmp_eq (bytes "fThreadInfo") (bytes "fThreadInfo") = true := by decide
  have hok := thread_info_reply_ok E t.current_threads t.number_of_current_threads 0
  rw [h0]
  unfold handle_query
  simp only [h1, h2, h3, h5, Bool.false_eq_true, if_false, Bool.true_or, if_true,
    get_number_of_threads, thread_gdb_index_eq, GDBState.log]
  by_cases hc : 0 < t.number_of_current_threads
  · have hr : thread_info_reply E t.current_threads t.number_of_current_threads 0 =
        bytes "m" ++ fmt_x ((E.get_thread_id 0 t.current_threads).getD 0 % 2 ^ 64) := by
      simp only [thread_info_reply, hc, if_true]
    rw [hr] at hok
    simp only [hc, if_true, hr, thread_info_events, List.append_assoc]
    rw [put_packet_after { t with query_thread := 0 } _ _ hok.1 hok.2 hlp]
    simp only [List.append_assoc, List.cons_append, List.nil_append]
    rfl
  · have hr : thread_info_reply E t.current_threads t.number_of_current_threads 0 =
        bytes "l" := by
      simp only [thread_info_reply, hc, if_false]
    simp only [hc, if_false, hr, thread_info_events]
    rw [put_packet_after { t with query_thread := 0 } _ _ (by decide) (by decide) hlp]
    simp only [List.append_assoc, List.cons_append, List.nil_append]

theorem thread_info_events_past (E : Env) (threads : Option (List Nat)) (n : Nat)
    (cmd : List Nat) (i j : Nat) (hi : n ≤ i) (hj : n ≤ j) :
    thread_info_events E threads n cmd i = thread_info_events E threads n cmd j := by
  have h1 : ¬ i < n := by omega
  have h2 : ¬ j < n := by omega
  simp only [thread_info_events, thread_info_reply, h1, h2, if_false]

theorem thread_info_trace_past (E : Env) (threads : Option (List Nat)) (n : Nat) :
    ∀ (k i j : Nat), n ≤ i → n ≤ j →
      thread_info_trace E threads n i k = thread_info_trace E threads n j k := by
  intro k
  induction k with
  | zero => intro i j _ _; rfl
  | succ k ih =>
    intro i j hi hj
    simp only [thread_info_trace]
    rw [thread_info_events_past E threads n _ i j hi hj, ih (i + 1) (j + 1) (by omega) (by omega)]

theorem frame_of_length (p : List Nat) : (frame_of p).length = p.length + 4 := by
  simp [frame_of]

theorem thread_info_run (E : Env) : ∀ (k : Nat) (t : GDBState),
    t.number_of_current_threads < 2 ^ 32 →
    t.last_packet.length = MAX_PACKET_LENGTH + 4 →
    t.query_thread ≤ t.number_of_current_threads →
    ∃ t1, dispatch_all E t (List.replicate k (bytes "qsThreadInfo")) = some t1 ∧
      t1.trace = t.trace ++ thread_info_trace E t.current_threads t.number_of_current_threads
        t.query_thread k ∧
      t1.query_thread = min (t.query_thread + k) t.number_of_current_threads ∧
      t1.current_threads = t.current_threads ∧
      t1.number_of_current_threads = t.number_of_current_threads ∧
      t1.c_thread_id = t.c_thread_id ∧ t1.g_thread_id = t.g_thread_id := by
  intro k
  induction k with
  | zero =>
    intro t _ _ hc
    exact ⟨t, rfl, by simp [thread_info_trace], by simp [Nat.min_eq_left hc], rfl, rfl, rfl, rfl⟩
  | succ k ih =>
    intro t hN hlp hc
    have hok := thread_info_reply_ok E t.current_threads t.number_of_current_threads
      t.query_thread
    have hstep := thread_info_step_s E t hN hlp
    obtain ⟨t1, h1, h2, h3, h4, h5, h6, h7⟩ := ih _
      (show ({ t with
          query_thread := if t.query_thread < t.number_of_current_threads
            then t.query_thread + 1 else t.query_thread,
          last_packet := frame_of (thread_info_reply E t.current_threads
              t.number_of_current_threads t.query_thread) ++
            t.last_packet.drop ((thread_info_reply E t.current_threads
              t.number_of_current_threads t.query_thread).length + 4),
          last_packet_len := (thread_info_reply E t.current_threads
              t.number_of_current_threads t.query_thread).length + 4,
          trace := t.trace ++ thread_info_events E t.current_threads
            t.number_of_current_threads (bytes "qsThreadInfo") t.query_thread } :
          GDBState).number_of_current_threads < 2 ^ 32 from hN)
      (by
        show (frame_of _ ++ List.drop _ t.last_packet).length = _
        rw [List.length_append, frame_of_length, List.length_drop, hlp]
        have := hok.2
        simp only [MAX_PACKET_LENGTH] at this ⊢
        omega)
      (by
        show (if t.query_thread < t.number_of_current_threads
            then t.query_thread + 1 else t.query_thread) ≤ t.number_of_current_threads
        split <;> omega)
    refine ⟨t1, ?_, ?_, ?_, h4, h5, h6, h7⟩
    · show (match pyrebox_gdb_handle_packet E t (bytes "qsThreadInfo") with
        | some r => dispatch_all E r.1 (List.replicate k (bytes "qsThreadInfo"))
        | none => none) = some t1
      rw [hstep]
      exact h1
    · rw [h2]
      show t.trace ++ _ ++ thread_info_trace E t.current_threads t.number_of_current_threads
        (if t.query_thread < t.number_of_current_threads
            then t.query_thread + 1 else t.query_thread) k = _
      rw [List.append_assoc]
      congr 1
      show _ = thread_info_events E t.current_threads t.number_of_current_threads
        (bytes "qsThreadInfo") t.query_thread ++ thread_info_trace E t.current_threads
          t.number_of_current_threads (t.query_thread + 1) k
      congr 1
      by_cases hlt : t.query_thread < t.number_of_current_threads
      · rw [if_pos hlt]
      · rw [if_neg hlt]
        exact thread_info_trace_past E _ _ k _ _ (by omega) (by omega)
    · rw [h3]
      show min ((if t.query_thread < t.number_of_current_threads
            then t.query_thread + 1 else t.query_thread) + k) t.number_of_current_threads = _
      split <;> omega

theorem sent_packets_append (a b : List Event) :
    sent_packets (a ++ b) = sent_packets a ++ sent_packets b := by
  induction a with
  | nil => rfl
  | cons e es ih => cases e <;> simp [sent_packets, ih]

theorem sent_thread_info_events (E : Env) (threads : Option (List Nat)) (n : Nat)
    (cmd : List Nat) (i : Nat) :
    sent_packets (thread_info_events E threads n cmd i) =
      [frame_of (thread_info_reply E threads n i)] := by
  unfold thread_info_events
  split <;> rfl

theorem sent_thread_info_trace (E : Env) (threads : Option (List Nat)) (n : Nat) :
    ∀ (k i : Nat), sent_packets (thread_info_trace E threads n i k) =
      (List.range' i k).map (fun j => frame_of (thread_info_reply E threads n j)) := by
  intro k
  induction k with
  | zero => intro i; rfl
  | succ k ih =>
    intro i
    rw [thread_info_trace, sent_packets_append, sent_thread_info_events, ih (i + 1)]
    rfl

theorem hex_digit_mem : ∀ v < 16, hex_digit v ∈ bytes "0123456789abcdef" := by decide

theorem hex_encode_get (b : List Nat) : ∀ (i : Nat) (h : i < b.length),
    (hex_encode b)[2 * i]? = some (hex_digit (b[i] / 16)) ∧
    (hex_encode b)[2 * i + 1]? = some (hex_digit (b[i] % 16)) := by
  induction b with
  | nil => intro i h; cases h
  | cons x xs ih =>
    intro i h
    cases i with
    | zero => exact ⟨by simp [hex_encode], by simp [hex_encode]⟩
    | succ j =>
      have hj : j < xs.length := by simpa using h
      have e1 : 2 * (j + 1) = 2 * j + 1 + 1 := by omega
      have e2 : 2 * (j + 1) + 1 = 2 * j + 1 + 1 + 1 := by omega
      have := ih j hj
      simp only [hex_encode, e1, e2, List.getElem?_cons_succ, List.getElem_cons_succ]
      exact this

/-! ### Queries -/

theorem cstr_cons (c : Nat) (t : List Nat) (hc : c ≠ 0) : cstr (c :: t) = c :: cstr t := by
  have h : (c != 0) = true := by simp [hc]
  simp only [cstr, List.takeWhile_cons, h, if_true]

theorem cstr_append (a b : List Nat) (ha : ∀ c ∈ a, c ≠ 0) : cstr (a ++ b) = a ++ cstr b := by
  induction a with
  | nil => rfl
  | cons c cs ih =>
    rw [List.cons_append, cstr_cons c _ (ha c (List.mem_cons_self _ _)),
      ih (fun x hx => ha x (List.mem_cons_of_mem _ hx))]
    rfl

theorem handle_packet_q (E : Env) (s : GDBState) (p : List Nat) (hp : ∀ c ∈ p, c ≠ 0) :
    pyrebox_gdb_handle_packet E s (113 :: p) =
      handle_query E (s.log (Event.handle_packet (113 :: p))) p := by
  unfold pyrebox_gdb_handle_packet
  rw [cstr_eq_self _ (cons_ne_zero 113 p (by decide) hp)]
  rfl

theorem handle_packet_Q (E : Env) (s : GDBState) (p : List Nat) (hp : ∀ c ∈ p, c ≠ 0) :
    pyrebox_gdb_handle_packet E s (81 :: p) =
      handle_query E (s.log (Event.handle_packet (81 :: p))) p := by
  unfold pyrebox_gdb_handle_packet
  rw [cstr_eq_self _ (cons_ne_zero 81 p (by decide) hp)]
  rfl

/-- Two C strings that differ within their first `n` characters. -/
theorem strcmp_ne_of_take (a b : List Nat) (n : Nat) (h : (cstr a).take n ≠ (cstr b).take n) :
    strcmp_eq a b = false := by
  simp only [strcmp_eq, beq_eq_false_iff_ne, ne_eq]
  intro he
  exact h (by rw [he])

theorem strncmp_ne_of_take (a b : List Nat) (n k : Nat) (hk : k ≤ n)
    (h : (cstr a).take k ≠ (cstr b).take k) : strncmp_eq a b n = false := by
  simp only [strncmp_eq, beq_eq_false_iff_ne, ne_eq]
  intro he
  apply h
  have := congrArg (List.take k) he
  simpa [List.take_take, Nat.min_eq_left hk] using this

theorem query_sstepbits (E : Env) (s : GDBState) :
    handle_query E s (bytes "qemu.sstepbits") =
      some (pyrebox_put_packet s (bytes "ENABLE=1,NOIRQ=2,NOTIMER=4"), RSState.RS_IDLE) := by
  unfold handle_query
  rw [if_pos (by decide)]
  rfl

theorem query_sstep_set (E : Env) (s : GDBState) (v : List Nat) (hv : is_hex_field v) :
    handle_query E s (bytes "qemu.sstep=" ++ v) =
      some (pyrebox_put_packet
        { s with
          sstep_flags := to_int (if 2 ^ 64 ≤ hex_value v then 2 ^ 64 - 1 else hex_value v) }
        (bytes "OK"), RSState.RS_IDLE) := by
  have hlit : ∀ c ∈ bytes "qemu.sstep=", c ≠ 0 := by decide
  have hc : cstr (bytes "qemu.sstep=" ++ v) = bytes "qemu.sstep=" ++ v := by
    rw [cstr_append _ _ hlit, cstr_eq_self v (field_ne_zero v hv)]
  have h1 : strcmp_eq (bytes "qemu.sstep=" ++ v) (bytes "qemu.sstepbits") = false := by
    apply strcmp_ne_of_take _ _ 11
    rw [hc, List.take_left' (by decide)]
    decide
  have h2 : is_query_packet (bytes "qemu.sstep=" ++ v) (bytes "qemu.sstep") 61 = true := by
    have e1 : (bytes "qemu.sstep=" ++ v).drop 10 = 61 :: v := rfl
    have e2 : (bytes "qemu.sstep=" ++ v).take 10 = bytes "qemu.sstep" := rfl
    simp only [is_query_packet, strncmp_eq, hc]
    rw [show (cstr (bytes "qemu.sstep")).length = 10 by decide, e1, e2]
    have e3 : (bytes "qemu.sstep" == List.take 10 (cstr (bytes "qemu.sstep"))) = true := by
      decide
    simp only [e3, peek, List.headD_cons, beq_self_eq_true, Bool.or_true, Bool.and_self]
  unfold handle_query
  rw [if_neg (by rw [h1]; decide), if_pos h2]
  have e1 : (bytes "qemu.sstep=" ++ v).drop 10 = 61 :: v := rfl
  simp only [e1, peek, List.headD_cons, bne_self_eq_false, Bool.false_eq_true, if_false,
    List.tail_cons, strtoull_field_end v hv]

theorem strcmp_head_ne (c d : Nat) (t u : List Nat) (hc : c ≠ 0) (hd : d ≠ 0) (h : c ≠ d) :
    strcmp_eq (c :: t) (d :: u) = false := by
  apply strcmp_ne_of_take _ _ 1
  rw [cstr_cons c t hc, cstr_cons d u hd]
  simp [h]

theorem strncmp_head_ne (c d : Nat) (t u : List Nat) (n : Nat) (hc : c ≠ 0) (hd : d ≠ 0)
    (h : c ≠ d) : strncmp_eq (c :: t) (d :: u) (n + 1) = false := by
  apply strncmp_ne_of_take _ _ _ 1 (by omega)
  rw [cstr_cons c t hc, cstr_cons d u hd]
  simp [h]

theorem is_query_head_ne (c d : Nat) (t u : List Nat) (sep : Nat) (hc : c ≠ 0) (hd : d ≠ 0)
    (h : c ≠ d) : is_query_packet (c :: t) (d :: u) sep = false := by
  unfold is_query_packet
  have hl : (cstr (d :: u)).length = (cstr u).length + 1 := by
    rw [cstr_cons d u hd]; rfl
  simp only [hl, strncmp_head_ne c d t u _ hc hd h, Bool.false_and]

theorem query_rcmd (E : Env) (s : GDBState) (hex : List Nat) (hh : ∀ c ∈ hex, c ≠ 0) :
    handle_query E s (bytes "Rcmd," ++ hex) =
      if hex.length % 2 != 0 then some (pyrebox_put_packet s (bytes "E01"), RSState.RS_IDLE)
      else
        some (pyrebox_put_packet
          (s.log (Event.mon_write (pyrebox_hextomem hex (hex.length / 2) ++ [0])))
          (bytes "OK"), RSState.RS_IDLE) := by
  have hp : bytes "Rcmd," ++ hex = 82 :: (bytes "cmd," ++ hex) := rfl
  have hlit : ∀ c ∈ bytes "Rcmd,", c ≠ 0 := by decide
  have hc : cstr (bytes "Rcmd," ++ hex) = bytes "Rcmd," ++ hex := by
    rw [cstr_append _ _ hlit, cstr_eq_self hex hh]
  have h1 : strcmp_eq (bytes "Rcmd," ++ hex) (bytes "qemu.sstepbits") = false :=
    strcmp_head_ne 82 113 _ _ (by decide) (by decide) (by decide)
  have h2 : is_query_packet (bytes "Rcmd," ++ hex) (bytes "qemu.sstep") 61 = false :=
    is_query_head_ne 82 113 _ _ _ (by decide) (by decide) (by decide)
  have h3 : strcmp_eq (bytes "Rcmd," ++ hex) (bytes "C") = false :=
    strcmp_head_ne 82 67 _ _ (by decide) (by decide) (by decide)
  have h4 : strcmp_eq (bytes "Rcmd," ++ hex) (bytes "fThreadInfo") = false :=
    strcmp_head_ne 82 102 _ _ (by decide) (by decide) (by decide)
  have h5 : strcmp_eq (bytes "Rcmd," ++ hex) (bytes "sThreadInfo") = false :=
    strcmp_head_ne 82 115 _ _ (by decide) (by decide) (by decide)
  have h6 : strncmp_eq (bytes "Rcmd," ++ hex) (bytes "ThreadExtraInfo,") 16 = false :=
    strncmp_head_ne 82 84 _ _ 15 (by decide) (by decide) (by decide)
  have h7 : strncmp_eq (bytes "Rcmd," ++ hex) (bytes "Rcmd,") 5 = true := by
    simp only [strncmp_eq, hc]
    rw [List.take_left' (by decide)]
    decide
  have e5 : (bytes "Rcmd," ++ hex).drop 5 = hex := List.drop_left' (by decide)
  unfold handle_query
  simp only [h1, h2, h3, h4, h5, h6, h7, Bool.false_eq_true, if_false, Bool.or_self, if_true, e5]

theorem query_unrecognised (E : Env) (s : GDBState) (p : List Nat)
    (h : recognised_query E p = false) : handle_query E s p = unknown_command s := by
  simp only [recognised_query, Bool.or_eq_false_iff, Bool.and_eq_false_iff] at h
  obtain ⟨⟨⟨⟨⟨⟨⟨⟨⟨h1, h2⟩, h3⟩, h4⟩, h5⟩, h6⟩, h7⟩, h8⟩, h9⟩, h10⟩ := h
  unfold handle_query
  simp only [h1, h2, h3, h4, h5, h6, h7, h8, h10, Bool.false_eq_true, if_false, Bool.or_self]
  rcases h9 with h9 | h9
  · simp only [h9, Bool.false_eq_true, if_false]
  · split
    · unfold handle_xfer_features
      have : E.gdb_core_xml_file.isNone = true := by
        cases hx : E.gdb_core_xml_file with
        | none => rfl
        | some x => rw [hx] at h9; cases h9
      rw [if_pos this]
    · rfl

theorem put_packet_empty (s : GDBState) (line : List Nat)
    (hlp : s.last_packet.length = MAX_PACKET_LENGTH + 4) :
    pyrebox_put_packet (s.log (Event.handle_packet line)) [] =
      { s with
          last_packet := frame_of [] ++ s.last_packet.drop 4,
          last_packet_len := 4,
          trace := s.trace ++ [Event.handle_packet line, Event.put_buffer (frame_of [])] } := by
  rw [reply_sends s line [] (fun _ h => absurd h (List.not_mem_nil _)) (Nat.zero_le _) hlp]
  rfl

theorem handle_packet_v (E : Env) (s : GDBState) (p : List Nat) (hp : ∀ c ∈ p, c ≠ 0) :
    pyrebox_gdb_handle_packet E s (118 :: p) =
      if strncmp_eq p (bytes "Cont") 4 then
        if peek (p.drop 4) == 63 then
          some (pyrebox_put_packet (s.log (Event.handle_packet (118 :: p))) (bytes ""),
            RSState.RS_IDLE)
        else unknown_command (s.log (Event.handle_packet (118 :: p)))
      else unknown_command (s.log (Event.handle_packet (118 :: p))) := by
  unfold pyrebox_gdb_handle_packet
  rw [cstr_eq_self _ (cons_ne_zero 118 p (by decide) hp)]
  rfl

theorem handle_packet_other (E : Env) (s : GDBState) (line : List Nat)
    (hl : ∀ c ∈ line, c ≠ 0) (hch : peek line ∉ command_letters) :
    pyrebox_gdb_handle_packet E s line = unknown_command (s.log (Event.handle_packet line)) := by
  have hmem : ∀ c ∈ command_letters, peek line ≠ c := fun c hc he => hch (he ▸ hc)
  have h63 := hmem 63 (by decide)
  have h99 := hmem 99 (by decide)
  have h67 := hmem 67 (by decide)
  have h118 := hmem 118 (by decide)
  have h107 := hmem 107 (by decide)
  have h68 := hmem 68 (by decide)
  have h115 := hmem 115 (by decide)
  have h103 := hmem 103 (by decide)
  have h71 := hmem 71 (by decide)
  have h109 := hmem 109 (by decide)
  have h77 := hmem 77 (by decide)
  have h112 := hmem 112 (by decide)
  have h80 := hmem 80 (by decide)
  have h90 := hmem 90 (by decide)
  have h122 := hmem 122 (by decide)
  have h72 := hmem 72 (by decide)
  have h84 := hmem 84 (by decide)
  have h113 := hmem 113 (by decide)
  have h81 := hmem 81 (by decide)
  unfold pyrebox_gdb_handle_packet
  rw [cstr_eq_self line hl]
  simp only [h63, h99, h67, h118, h107, h68, h115, h103, h71, h109, h77, h112, h80, h90, h122,
    h72, h84, h113, h81, if_false, or_self]

theorem first_core_thread_lt (E : Env) (s : GDBState) : first_core_thread E s < 2 ^ 64 := by
  unfold first_core_thread
  split
  · exact Nat.mod_lt _ (by decide)
  · decide

theorem first_cpu_eq (E : Env) (s : GDBState) :
    pyrebox_get_running_thread_first_cpu E s =
      ({ s with trace := s.trace ++
          (if s.current_threads.isSome then
            [Event.py_get_running_thread_first_cpu s.current_threads] else []) },
        first_core_thread E s) := by
  unfold pyrebox_get_running_thread_first_cpu first_core_thread
  by_cases h : s.current_threads.isSome = true
  · simp only [h, if_true, GDBState.log]
    cases E.get_running_thread_first_cpu s.current_threads <;> rfl
  · simp only [h, Bool.false_eq_true, if_false, List.append_nil]

theorem handle_packet_stop_reason (E : Env) (s : GDBState) :
    pyrebox_gdb_handle_packet E s (bytes "?") =
      some (pyrebox_gdb_breakpoint_remove_all (pyrebox_gdb_signal_trap
        (pyrebox_get_running_thread_first_cpu E (s.log (Event.handle_packet (bytes "?")))).1
        (pyrebox_get_running_thread_first_cpu E (s.log (Event.handle_packet (bytes "?")))).2),
        RSState.RS_IDLE) := rfl

theorem vm_stop_first_cpu_any (E : Env) (s : GDBState) :
    ∃ (threads : Option (List Nat)) (count : Nat),
    pyrebox_get_running_thread_first_cpu E (pyrebox_vm_stop E s) =
      ({ s with runstate_running := false, vm_is_running := 0,
                current_threads := threads, number_of_current_threads := count,
                trace := s.trace ++ (if s.runstate_running then [Event.vm_stop] else []) ++
                  stop_provider_calls E s },
        reported_first_core_thread E s) := by
  cases hr : s.runstate_running with
  | true =>
    obtain ⟨threads, count, h⟩ := vm_stop_first_cpu_eq E s hr
    refine ⟨threads, count, ?_⟩
    rw [h]
    simp
  | false =>
    have hs : { s with runstate_running := false } = s := by
      cases s; simp only at hr; subst hr; rfl
    cases hc : s.current_threads with
    | some t =>
      refine ⟨some t, s.number_of_current_threads, ?_⟩
      cases hg : E.get_running_thread_first_cpu (some t) <;>
        simp [pyrebox_vm_stop, pyrebox_update_threads, hr, hc,
          pyrebox_get_running_thread_first_cpu, hg, GDBState.log, reported_first_core_thread,
          stop_provider_calls]
    | none =>
      cases ht : E.get_threads with
      | none =>
        refine ⟨none, s.number_of_current_threads, ?_⟩
        simp [pyrebox_vm_stop, pyrebox_update_threads, hr, hc, ht,
          pyrebox_get_running_thread_first_cpu, GDBState.log, reported_first_core_thread,
          stop_provider_calls]
      | some t =>
        refine ⟨some t, t.length % 2 ^ 32, ?_⟩
        cases hg : E.get_running_thread_first_cpu (some t) <;>
          simp [pyrebox_vm_stop, pyrebox_update_threads, hr, hc, ht,
            pyrebox_get_running_thread_first_cpu, hg, GDBState.log, reported_first_core_thread,
            stop_provider_calls]

/-! ### Replies of the dispatcher -/

theorem unescaped_length (items : List WireItem) : (unescaped items).length = items.length := by
  induction items with
  | nil => rfl
  | cons i is ih => cases i <;> simp [unescaped, ih]

theorem cstr_append_zero (a rest : List Nat) : cstr (a ++ 0 :: rest) = cstr a := by
  induction a with
  | nil => simp [cstr]
  | cons c cs ih =>
    simp only [cstr] at ih ⊢
    by_cases hc : c = 0
    · subst hc; simp [List.takeWhile_cons]
    · simp [List.takeWhile_cons, hc, ih]

/-- Payload units are stored one after the other, un-escaped, and the bytes as
transmitted are added to the running sum. -/
theorem receive_items (E : Env) (items : List WireItem) : ∀ (s : GDBState) (rest : List Nat),
    s.state = RSState.RS_GETLINE → s.last_packet_len = 0 → s.runstate_running = false →
    (∀ i ∈ items, wire_item_ok i = true) →
    s.line_buf_index + items.length ≤ MAX_PACKET_LENGTH - 1 →
    pyrebox_gdb_chr_receive E s (wire_bytes items ++ rest) =
      pyrebox_gdb_chr_receive E
        { s with line_buf := memcpy s.line_buf s.line_buf_index (unescaped items),
                 line_buf_index := s.line_buf_index + items.length,
                 line_sum := s.line_sum + (wire_bytes items).sum } rest := by
  induction items with
  | nil => intro s rest _ _ _ _ _; rfl
  | cons i is ih =>
    intro s rest hst hp hr hc hlen
    have hi := hc i (List.mem_cons_self _ _)
    simp only [List.length_cons] at hlen
    have hidx : ¬ (s.line_buf_index ≥ MAX_PACKET_LENGTH - 1) := by omega
    cases i with
    | plain c =>
      simp only [wire_item_ok, decide_eq_true_eq] at hi
      obtain ⟨c1, c2, c3, c4⟩ := hi
      have hstep : pyrebox_gdb_read_byte E s c = some
          { s with line_buf := s.line_buf.set s.line_buf_index c,
                   line_buf_index := s.line_buf_index + 1,
                   line_sum := s.line_sum + c } := by
        rw [read_byte_stopped E s c hp hr]
        simp only [read_byte_switch, hst, if_neg c2, if_neg c3, if_neg c4, if_neg hidx,
          Nat.mod_eq_of_lt c1]
      rw [wire_bytes, List.cons_append, pyrebox_gdb_chr_receive, hstep]
      refine (ih { s with line_buf := s.line_buf.set s.line_buf_index c,
                          line_buf_index := s.line_buf_index + 1,
                          line_sum := s.line_sum + c } rest hst hp hr
        (fun x hx => hc x (List.mem_cons_of_mem _ hx))
        (by show s.line_buf_index + 1 + is.length ≤ _; omega)).trans ?_
      have e1 : s.line_buf_index + 1 + is.length = s.line_buf_index + (is.length + 1) := by omega
      have e2 : s.line_sum + c + (wire_bytes is).sum = s.line_sum + (c + (wire_bytes is).sum) := by
        omega
      simp only [unescaped, memcpy, List.length_cons, List.sum_cons, e1, e2]
    | escaped b =>
      simp only [wire_item_ok, decide_eq_true_eq] at hi
      obtain ⟨c1, c2⟩ := hi
      have hstep1 : pyrebox_gdb_read_byte E s 125 = some
          { s with state := RSState.RS_GETLINE_ESC, line_sum := s.line_sum + 125 } := by
        rw [read_byte_stopped E s 125 hp hr]
        simp [read_byte_switch, hst]
      have hstep2 : pyrebox_gdb_read_byte E
          { s with state := RSState.RS_GETLINE_ESC, line_sum := s.line_sum + 125 } b = some
          { s with line_buf := s.line_buf.set s.line_buf_index (b ^^^ 0x20),
                   line_buf_index := s.line_buf_index + 1,
                   line_sum := s.line_sum + 125 + b } := by
        rw [read_byte_stopped E
          { s with state := RSState.RS_GETLINE_ESC, line_sum := s.line_sum + 125 } b hp hr]
        simp only [read_byte_switch, if_neg c2, if_neg hidx, xor_0x20_byte b c1]
        cases s; simp only at hst; subst hst; rfl
      rw [wire_bytes, List.cons_append, List.cons_append, pyrebox_gdb_chr_receive, hstep1]
      simp only
      rw [pyrebox_gdb_chr_receive, hstep2]
      refine (ih { s with line_buf := s.line_buf.set s.line_buf_index (b ^^^ 0x20),
                          line_buf_index := s.line_buf_index + 1,
                          line_sum := s.line_sum + 125 + b } rest hst hp hr
        (fun x hx => hc x (List.mem_cons_of_mem _ hx))
        (by show s.line_buf_index + 1 + is.length ≤ _; omega)).trans ?_
      have e1 : s.line_buf_index + 1 + is.length = s.line_buf_index + (is.length + 1) := by omega
      have e2 : s.line_sum + 125 + b + (wire_bytes is).sum =
          s.line_sum + (125 + (b + (wire_bytes is).sum)) := by omega
      simp only [unescaped, memcpy, List.length_cons, List.sum_cons, e1, e2]

/-! ### Chunks of the target description -/

theorem takeWhile_name (name rest : List Nat) (h : ∀ c ∈ name, c ≠ 58) :
    (name ++ 58 :: rest).takeWhile (fun c => c != 58) = name := by
  induction name with
  | nil => simp [List.takeWhile]
  | cons c cs ih =>
    have hc : (c != 58) = true := by simp [h c (List.mem_cons_self _ _)]
    rw [List.cons_append, List.takeWhile_cons, hc, if_pos rfl,
      ih (fun x hx => h x (List.mem_cons_of_mem _ hx))]

theorem builtin_lookup_eq (name p : List Nat) (hp : (cstr p).take name.length = name) :
    ∀ tbl, xml_builtin_lookup p name.length tbl = builtin_document name tbl := by
  intro tbl
  induction tbl with
  | nil => rfl
  | cons e es ih =>
    obtain ⟨n, doc⟩ := e
    unfold xml_builtin_lookup builtin_document
    rw [ih]
    by_cases hn : cstr n = name
    · have h1 : (strncmp_eq n p name.length && (cstr n).length == name.length) = true := by
        simp only [strncmp_eq, hp, hn, List.take_length, beq_self_eq_true, Bool.and_self]
      rw [if_pos h1, if_pos hn]
    · have h1 : ¬ ((strncmp_eq n p name.length && (cstr n).length == name.length) = true) := by
        simp only [strncmp_eq, hp, Bool.and_eq_true, beq_iff_eq, not_and]
        intro h hl
        apply hn
        rw [← h, ← hl, List.take_length]
      rw [if_neg h1, if_neg hn]

theorem get_feature_xml_eq (E : Env) (name rest : List Nat)
    (hname : ∀ c ∈ name, c ≠ 0 ∧ c ≠ 58)
    (hpre : name = bytes "target.xml" ∨ name ≠ (bytes "target.xml").take name.length) :
    pyrebox_get_feature_xml E (name ++ 58 :: rest) = (known_document E name, 58 :: rest) := by
  have htw := takeWhile_name name rest (fun c hc => (hname c hc).2)
  have hc : (cstr (name ++ 58 :: rest)).take name.length = name := by
    rw [cstr_append _ _ (fun c hc => (hname c hc).1), List.take_left]
  unfold pyrebox_get_feature_xml known_document
  simp only [htw, List.drop_left]
  rcases hpre with h | h
  · have h1 : strncmp_eq (name ++ 58 :: rest) (bytes "target.xml") name.length = true := by
      simp only [strncmp_eq, hc]
      subst h
      decide
    rw [if_pos h1, if_pos h]
  · have h1 : ¬ (strncmp_eq (name ++ 58 :: rest) (bytes "target.xml") name.length = true) := by
      simp only [strncmp_eq, hc, beq_iff_eq]
      intro he
      exact h (he.trans (by rw [show cstr (bytes "target.xml") = bytes "target.xml" from by decide]))
    have h2 : name ≠ bytes "target.xml" := by
      intro he
      apply h
      rw [he]
      decide
    rw [if_neg h1, if_neg h2, builtin_lookup_eq name _ hc]

theorem query_xfer (E : Env) (s : GDBState) (rest : List Nat) :
    handle_query E s (bytes "Xfer:features:read:" ++ rest) = handle_xfer_features E s rest := by
  have hlit : ∀ c ∈ bytes "Xfer:features:read:", c ≠ 0 := by decide
  have hc : cstr (bytes "Xfer:features:read:" ++ rest) = bytes "Xfer:features:read:" ++ cstr rest :=
    cstr_append _ _ hlit
  have h1 : strcmp_eq (bytes "Xfer:features:read:" ++ rest) (bytes "qemu.sstepbits") = false :=
    strcmp_head_ne 88 113 _ _ (by decide) (by decide) (by decide)
  have h2 : is_query_packet (bytes "Xfer:features:read:" ++ rest) (bytes "qemu.sstep") 61 = false :=
    is_query_head_ne 88 113 _ _ _ (by decide) (by decide) (by decide)
  have h3 : strcmp_eq (bytes "Xfer:features:read:" ++ rest) (bytes "C") = false :=
    strcmp_head_ne 88 67 _ _ (by decide) (by decide) (by decide)
  have h4 : strcmp_eq (bytes "Xfer:features:read:" ++ rest) (bytes "fThreadInfo") = false :=
    strcmp_head_ne 88 102 _ _ (by decide) (by decide) (by decide)
  have h5 : strcmp_eq (bytes "Xfer:features:read:" ++ rest) (bytes "sThreadInfo") = false :=
    strcmp_head_ne 88 115 _ _ (by decide) (by decide) (by decide)
  have h6 : strncmp_eq (bytes "Xfer:features:read:" ++ rest) (bytes "ThreadExtraInfo,") 16 = false :=
    strncmp_head_ne 88 84 _ _ 15 (by decide) (by decide) (by decide)
  have h7 : strncmp_eq (bytes "Xfer:features:read:" ++ rest) (bytes "Rcmd,") 5 = false :=
    strncmp_head_ne 88 82 _ _ 4 (by decide) (by decide) (by decide)
  have h8 : is_query_packet (bytes "Xfer:features:read:" ++ rest) (bytes "Supported") 58 = false :=
    is_query_head_ne 88 83 _ _ _ (by decide) (by decide) (by decide)
  have h9 : strncmp_eq (bytes "Xfer:features:read:" ++ rest) (bytes "Xfer:features:read:") 19
      = true := by
    simp only [strncmp_eq, hc]
    rw [List.take_left' (by decide)]
    decide
  have e19 : (bytes "Xfer:features:read:" ++ rest).drop 19 = rest := List.drop_left' (by decide)
  unfold handle_query
  simp only [h1, h2, h3, h4, h5, h6, h7, h8, h9, Bool.false_eq_true, if_false, Bool.or_self,
    if_true, e19]

theorem memtox_loop_take : ∀ (n : Nat) (mem out : List Nat), n ≤ mem.length →
    pyrebox_memtox_loop mem out n = out ++ escape_binary (mem.take n) := by
  intro n
  induction n with
  | zero => intro mem out _; simp [pyrebox_memtox_loop, escape_binary]
  | succ k ih =>
    intro mem out h
    cases mem with
    | nil => simp at h
    | cons c cs =>
      simp only [List.length_cons, Nat.add_le_add_iff_right] at h
      by_cases hc : c = 35 ∨ c = 36 ∨ c = 42 ∨ c = 125
      · have hx : (c ^^^ 0x20) % 256 = c ^^^ 0x20 := by
          rcases hc with h | h | h | h <;> subst h <;> decide
        simp [pyrebox_memtox_loop, escape_binary, hc, ih cs _ h, hx]
      · simp [pyrebox_memtox_loop, escape_binary, hc, ih cs _ h]

theorem to_unsigned_small (w n : Nat) (hw : w = 32 ∨ w = 64) (h : n < 2 ^ 31) :
    to_unsigned w (n : Int) = n := by
  rcases hw with hw | hw <;> subst hw <;> simp only [to_unsigned] <;> omega

theorem to_unsigned_offset (w v : Nat) (hw : w = 32 ∨ w = 64) :
    (v % 2 ^ 32 < 2 ^ 31 → to_unsigned w (to_int v) = v % 2 ^ 32) ∧
    (2 ^ 31 ≤ v % 2 ^ 32 → 2 ^ 31 ≤ to_unsigned w (to_int v)) := by
  constructor
  · intro h
    rw [to_int_small v h]
    exact to_unsigned_small w _ hw h
  · intro h
    have h2 : ¬ (v % 2 ^ 32 < 2 ^ 31) := by omega
    simp only [to_int, if_neg h2]
    rcases hw with hw | hw <;> subst hw <;> simp only [to_unsigned] <;> omega

theorem clamp_len (v : Nat) (h : v % 2 ^ 32 < 2 ^ 31) :
    (if to_int v > ((MAX_PACKET_LENGTH : Int) - 5) / 2 then ((MAX_PACKET_LENGTH : Int) - 5) / 2
      else to_int v) = ((min (v % 2 ^ 32) 2045 : Nat) : Int) := by
  rw [to_int_small v h]
  have e : ((MAX_PACKET_LENGTH : Int) - 5) / 2 = 2045 := by decide
  rw [e]
  split <;> omega

theorem xfer_features_eq (E : Env) (s : GDBState) (name offset len : List Nat)
    (hxml : E.gdb_core_xml_file.isSome = true)
    (hbits : E.target_long_bits = 32 ∨ E.target_long_bits = 64)
    (hname : ∀ c ∈ name, c ≠ 0 ∧ c ≠ 58)
    (hpre : name = bytes "target.xml" ∨ name ≠ (bytes "target.xml").take name.length)
    (ho : is_hex_field offset) (hl : is_hex_field len)
    (ho64 : hex_value offset < 2 ^ 64) (hl64 : hex_value len < 2 ^ 64)
    (hl31 : hex_value len % 2 ^ 32 < 2 ^ 31)
    (hdoc : ((known_document E name).getD []).length < 2 ^ 31) :
    handle_xfer_features E s (name ++ 58 :: (offset ++ 44 :: len)) =
      some (pyrebox_put_packet_binary { s with pyrebox_gdb_has_xml := true }
        (xfer_reply (known_document E name) (hex_value offset % 2 ^ 32)
          (hex_value len % 2 ^ 32))
        (xfer_reply (known_document E name) (hex_value offset % 2 ^ 32)
          (hex_value len % 2 ^ 32)).length, RSState.RS_IDLE) := by
  have hnone : ¬ (E.gdb_core_xml_file.isNone = true) := by
    cases h : E.gdb_core_xml_file with
    | none => rw [h] at hxml; cases hxml
    | some x => simp
  unfold handle_xfer_features
  rw [if_neg hnone]
  dsimp only
  rw [get_feature_xml_eq E name _ hname hpre]
  cases hk : known_document E name with
  | none => rfl
  | some xml =>
    rw [hk] at hdoc
    simp only [Option.getD_some] at hdoc
    have e1 := strtoull_field offset (44 :: len) ho (show isxdigit 44 = false by decide)
      (show (44 : Nat) ≠ 120 ∧ (44 : Nat) ≠ 88 by decide)
    rw [if_neg (by omega)] at e1
    have e2 := strtoull_field_end len hl
    rw [if_neg (by omega)] at e2
    simp only [skip_char_cons, e1, e2]
    have hT : xml.length % 2 ^ E.target_long_bits = xml.length := by
      rcases hbits with hb | hb <;> rw [hb] <;> omega
    have hn : min (hex_value len % 2 ^ 32) 2045 < 2 ^ 31 := by omega
    rw [hT, clamp_len _ hl31, to_unsigned_small _ _ hbits hn, Int.toNat_ofNat]
    by_cases hoT : xml.length < hex_value offset % 2 ^ 32
    · have h1 : xml.length < to_unsigned E.target_long_bits (to_int (hex_value offset)) := by
        by_cases h31 : hex_value offset % 2 ^ 32 < 2 ^ 31
        · rw [(to_unsigned_offset _ _ hbits).1 h31]; exact hoT
        · have := (to_unsigned_offset _ (hex_value offset) hbits).2 (by omega)
          omega
      rw [if_pos h1]
      simp only [xfer_reply, if_pos hoT]
      rfl
    · have h31 : hex_value offset % 2 ^ 32 < 2 ^ 31 := by omega
      have hsub : (xml.length - hex_value offset % 2 ^ 32) % 2 ^ E.target_long_bits =
          xml.length - hex_value offset % 2 ^ 32 := by
        rcases hbits with hb | hb <;> rw [hb] <;> omega
      rw [(to_unsigned_offset _ _ hbits).1 h31, if_neg hoT, to_int_small _ h31, Int.toNat_ofNat,
        hsub, to_int_of_lt _ (by omega), Int.toNat_ofNat]
      have hdl : (xml.drop (hex_value offset % 2 ^ 32)).length =
          xml.length - hex_value offset % 2 ^ 32 := List.length_drop _ _
      by_cases hm : min (hex_value len % 2 ^ 32) 2045 < xml.length - hex_value offset % 2 ^ 32
      · rw [if_pos hm]
        simp only [xfer_reply, if_neg hoT, if_pos hm, pyrebox_memtox]
        rw [memtox_loop_take _ _ _ (by omega)]
        rfl
      · rw [if_neg hm]
        simp only [xfer_reply, if_neg hoT, if_neg hm, pyrebox_memtox]
        rw [← hdl, memtox_loop_eq]
        rfl

theorem xfer_reply_length (doc : Option (List Nat)) (o l : Nat) :
    (xfer_reply doc o l).length ≤ 4091 := by
  have key : ∀ mem : List Nat, mem.length ≤ 2045 → (escape_binary mem).length + 1 ≤ 4091 := by
    intro mem h
    have := escape_binary_length mem
    have := List.countP_le_length is_special (l := mem)
    omega
  cases doc with
  | none => exact (by decide : (bytes "E00").length ≤ 4091)
  | some xml =>
    unfold xfer_reply
    dsimp only
    split
    · exact (by decide : (bytes "E00").length ≤ 4091)
    · split
      · rw [List.length_cons]
        apply key
        rw [List.length_take]
        omega
      · rw [List.length_cons]
        apply key
        rw [List.length_drop]
        omega

/-! ### Single steps of the run-length and checksum states -/

theorem step_rle_idle (E : Env) (s : GDBState) (ch : Nat)
    (hst : s.state = RSState.RS_GETLINE_RLE) (hp : s.last_packet_len = 0)
    (hr : s.runstate_running = false) (hch : ch < 256) (h32 : 0x20 ≤ ch)
    (hfull : MAX_PACKET_LENGTH - 1 ≤ s.line_buf_index + (ch - 0x20 + 3)) :
    pyrebox_gdb_read_byte E s ch = some { s with state := RSState.RS_IDLE } := by
  rw [read_byte_stopped E s ch hp hr]
  have hmod : ch % 256 = ch := Nat.mod_eq_of_lt hch
  have h1 : ¬ ch < 32 := by omega
  have h2 : s.line_buf_index + (ch - 32 + 3) ≥ MAX_PACKET_LENGTH - 1 := hfull
  simp only [read_byte_switch, hst, hmod, h1, h2, if_false, if_true]

theorem step_getline_store (E : Env) (s : GDBState) (c : Nat)
    (hst : s.state = RSState.RS_GETLINE) (hp : s.last_packet_len = 0)
    (hr : s.runstate_running = false)
    (hc : c < 256 ∧ c ≠ 35 ∧ c ≠ 125 ∧ c ≠ 42)
    (hidx : s.line_buf_index < MAX_PACKET_LENGTH - 1) :
    pyrebox_gdb_read_byte E s c = some
      { s with line_buf := s.line_buf.set s.line_buf_index c,
               line_buf_index := s.line_buf_index + 1,
               line_sum := s.line_sum + c } := by
  obtain ⟨c1, c2, c3, c4⟩ := hc
  have hidx1 : ¬ (s.line_buf_index ≥ MAX_PACKET_LENGTH - 1) := by omega
  rw [read_byte_stopped E s c hp hr]
  simp only [read_byte_switch, hst, if_neg c2, if_neg c3, if_neg c4, if_neg hidx1,
    Nat.mod_eq_of_lt c1]

theorem step_rle_empty (E : Env) (s : GDBState) (ch : Nat)
    (hst : s.state = RSState.RS_GETLINE_RLE) (hp : s.last_packet_len = 0)
    (hr : s.runstate_running = false) (hidx : s.line_buf_index = 0) (hch : ch < 256) :
    pyrebox_gdb_read_byte E s ch = some { s with state := RSState.RS_GETLINE } := by
  rw [read_byte_stopped E s ch hp hr]
  have hmod : ch % 256 = ch := Nat.mod_eq_of_lt hch
  by_cases h : ch < 32
  · simp [read_byte_switch, hst, h]
  · have h2 : ¬ (s.line_buf_index + (ch - 32 + 3) ≥ MAX_PACKET_LENGTH - 1) := by
      simp only [MAX_PACKET_LENGTH, hidx]; omega
    have h3 : s.line_buf_index < 1 := by omega
    simp only [read_byte_switch, hst, hmod, h, h2, h3, if_false, if_true]

theorem step_chksum_non_hex (E : Env) (s : GDBState) (ch : Nat)
    (hst : s.state = RSState.RS_CHKSUM1 ∨ s.state = RSState.RS_CHKSUM2)
    (hp : s.last_packet_len = 0) (hr : s.runstate_running = false)
    (hx : isxdigit ch = false) :
    pyrebox_gdb_read_byte E s ch = some { s with state := RSState.RS_GETLINE } := by
  rw [read_byte_stopped E s ch hp hr]
  rcases hst with hst | hst <;> simp [read_byte_switch, hst, hx]

/-! ### Breakpoint commands -/

theorem breakpoint_insert_enosys (addr len : Nat) (type : Int) :
    pyrebox_gdb_breakpoint_insert addr len type = -ENOSYS := by
  unfold pyrebox_gdb_breakpoint_insert; split <;> rfl

theorem breakpoint_remove_enosys (addr len : Nat) (type : Int) :
    pyrebox_gdb_breakpoint_remove addr len type = -ENOSYS := by
  unfold pyrebox_gdb_breakpoint_remove; split <;> rfl

theorem handle_packet_Z (E : Env) (s : GDBState) (c : Nat) (p : List Nat)
    (hc : c = 90 ∨ c = 122) (hp : ∀ x ∈ p, x ≠ 0) :
    pyrebox_gdb_handle_packet E s (c :: p) =
      some (pyrebox_put_packet (s.log (Event.handle_packet (c :: p))) (bytes ""),
        RSState.RS_IDLE) := by
  have hc0 : c ≠ 0 := by rcases hc with h | h <;> rw [h] <;> decide
  unfold pyrebox_gdb_handle_packet
  rw [cstr_eq_self _ (cons_ne_zero c p hc0 hp)]
  have hpk : peek (c :: p) = c := rfl
  simp only [hpk, breakpoint_insert_enosys, breakpoint_remove_enosys, ite_self]
  have hneg : ¬ (-ENOSYS ≥ 0) := by decide
  rcases hc with h | h <;> subst h <;> simp [hneg]

theorem read_byte_dollar_running (E : Env) (s : GDBState) (hr : s.runstate_running = true) :
    pyrebox_gdb_read_byte E s 36 = some (stop_and_report E { s with last_packet_len := 0 }) ∧
    parser_of (stop_and_report E { s with last_packet_len := 0 }) = parser_of s := by
  have hpar : parser_of (stop_and_report E { s with last_packet_len := 0 }) = parser_of s := by
    unfold stop_and_report
    rw [parser_of_signal_trap, parser_of_first_cpu, parser_of_vm_stop]
    rfl
  refine ⟨?_, hpar⟩
  by_cases hp : s.last_packet_len = 0
  · have e : ({ s with last_packet_len := 0 } : GDBState) = s := by
      cases s; simp only at hp; subst hp; rfl
    rw [e]
    exact read_byte_running E s 36 hp hr
  · exact (read_byte_pending_dollar E s hp).trans
      (read_byte_running E { s with last_packet_len := 0 } 36 rfl hr)

/-! ### The encoder read back by the parser -/

theorem hex_digit_fromhex : ∀ v < 16,
    isxdigit (hex_digit v) = true ∧ pyrebox_fromhex (hex_digit v) = v := by decide

theorem escape_items_wire (b : List Nat) : wire_bytes (escape_items b) = escape_binary b := by
  induction b with
  | nil => rfl
  | cons c cs ih =>
    by_cases hc : c = 35 ∨ c = 36 ∨ c = 42 ∨ c = 125
    · simp only [escape_items, escape_binary, if_pos hc, wire_bytes, ih]
    · simp only [escape_items, escape_binary, if_neg hc, wire_bytes, ih]

theorem escape_items_unescaped (b : List Nat) : unescaped (escape_items b) = b := by
  induction b with
  | nil => rfl
  | cons c cs ih =>
    by_cases hc : c = 35 ∨ c = 36 ∨ c = 42 ∨ c = 125
    · have hx : (c ^^^ 0x20) ^^^ 0x20 = c := by
        rcases hc with h | h | h | h <;> subst h <;> decide
      simp only [escape_items, if_pos hc, unescaped, ih, hx]
    · simp only [escape_items, if_neg hc, unescaped, ih]

theorem escape_items_length (b : List Nat) : (escape_items b).length = b.length := by
  rw [← unescaped_length, escape_items_unescaped]

theorem escape_items_ok (b : List Nat) (hb : ∀ c ∈ b, c < 256) :
    ∀ i ∈ escape_items b, wire_item_ok i = true := by
  induction b with
  | nil => intro i hi; cases hi
  | cons c cs ih =>
    have hc256 := hb c (List.mem_cons_self _ _)
    have ih1 := ih (fun x hx => hb x (List.mem_cons_of_mem _ hx))
    intro i hi
    by_cases hc : c = 35 ∨ c = 36 ∨ c = 42 ∨ c = 125
    · simp only [escape_items, if_pos hc, List.mem_cons] at hi
      rcases hi with h | h
      · rw [h]
        rcases hc with h | h | h | h <;> subst h <;> decide
      · exact ih1 i h
    · simp only [escape_items, if_neg hc, List.mem_cons] at hi
      rcases hi with h | h
      · rw [h]
        simp only [not_or] at hc
        simp only [wire_item_ok, decide_eq_true_eq]
        exact ⟨hc256, hc.1, hc.2.2.2, hc.2.2.1⟩
      · exact ih1 i h

/-! ### Monitor output -/

theorem monitor_max_sz_eq : monitor_max_sz = 2049 := by decide

theorem monitor_output_sends (s : GDBState) (msg : List Nat) (n : Nat)
    (hb : ∀ x ∈ msg, x < 256) (hn : n ≤ msg.length)
    (hlp : s.last_packet.length = MAX_PACKET_LENGTH + 4) :
    pyrebox_gdb_monitor_output s msg (n : Int) = after_output s (msg.take (min n 2047)) := by
  have hm : MAX_PACKET_LENGTH = 4096 := rfl
  have hk : (if (n : Int) > (MAX_PACKET_LENGTH : Int) / 2 - 1 then
      (MAX_PACKET_LENGTH : Int) / 2 - 1 else (n : Int)).toNat = min n 2047 := by
    have e : (MAX_PACKET_LENGTH : Int) / 2 - 1 = 2047 := by decide
    rw [e]
    split <;> omega
  unfold pyrebox_gdb_monitor_output
  simp only [hk]
  have htake : ∀ x ∈ msg.take (min n 2047), x < 256 :=
    fun x hx => hb x (List.mem_of_mem_take hx)
  have hlen : (msg.take (min n 2047)).length = min n 2047 := by
    rw [List.length_take]; omega
  have hmem : pyrebox_memtohex msg (min n 2047) =
      hex_encode (msg.take (min n 2047)) ++ [0] := by
    have := memtohex_encode (msg.drop (min n 2047)) (msg.take (min n 2047)) htake
    rwa [List.take_append_drop, hlen] at this
  have hnul : ∀ c ∈ 79 :: hex_encode (msg.take (min n 2047)), c ≠ 0 :=
    cons_ne_zero 79 _ (by decide) (hex_encode_ne_zero _ htake)
  rw [hmem]
  have hput := put_packet_nul s (79 :: hex_encode (msg.take (min n 2047))) [] hnul
  rw [List.cons_append] at hput
  rw [hput, put_packet_sends s _ hnul (by
    rw [List.length_cons, hex_encode_length, hlen]; omega) hlp]
  rfl

/-! ## Packet codec: properties of the specification -/

/-- C5: hex round trip.  For every sequence `b` of bytes, `pyrebox_hextomem`
applied to the characters written by `pyrebox_memtohex` for `b`, with length
`len(b)`, gives back exactly `b`. -/
theorem hextomem_memtohex_roundtrip (b : List Nat) (hb : ∀ x ∈ b, x < 256) :
    pyrebox_hextomem (pyrebox_memtohex b b.length) b.length = b := by
  induction b with
  | nil => rfl
  | cons c cs ih =>
    have hc : c < 256 := hb c (List.mem_cons_self _ _)
    have ih1 := ih (fun x hx => hb x (List.mem_cons_of_mem _ hx))
    simp only [List.length_cons, pyrebox_memtohex, pyrebox_hextomem, List.headD_cons,
      List.tail_cons, hex_byte_roundtrip c hc, ih1]

theorem hextomem_memtohex_roundtrip_witness :
    (∀ x ∈ [0xde, 0xad, 0xbe, 0xef], x < 256) ∧
    pyrebox_hextomem (pyrebox_memtohex [0xde, 0xad, 0xbe, 0xef] 4) 4 = [0xde, 0xad, 0xbe, 0xef] :=
  ⟨by decide, hextomem_memtohex_roundtrip [0xde, 0xad, 0xbe, 0xef] (by decide)⟩

/-- C6: binary escaping.  For every byte sequence `mem`, `pyrebox_memtox` writes
the concatenation, in order, of `}` and the byte XOR `0x20` for each byte that
is `#`, `$`, `*` or `}` and of the byte itself for every other byte, and
returns the input length plus the number of such special bytes. -/
theorem memtox_escapes (mem : List Nat) :
    pyrebox_memtox mem mem.length
      = (escape_binary mem, mem.length + mem.countP is_special) := by
  simp only [pyrebox_memtox, memtox_loop_eq, List.nil_append, escape_binary_length]

/-- C4: reply frame.  For every payload of `len` bytes (`len` at most 4096) and a
session whose `last_packet` array has its declared size, `pyrebox_put_packet_binary`
writes to the transport exactly `$`, the payload unchanged, `#`, and the two
lowercase hex digits (high nybble first) of the sum of the payload bytes, taken
as unsigned values, modulo 256 (the code adds them as signed `char`s); the same
`len + 4` bytes are the first `last_packet_len = len + 4` bytes of `last_packet`,
and nothing else in the session changes. -/
theorem put_packet_binary_frame (s : GDBState) (buf : List Nat) (len : Nat)
    (hlen : buf.length = len) (hmax : len ≤ MAX_PACKET_LENGTH)
    (hlp : s.last_packet.length = MAX_PACKET_LENGTH + 4) :
    pyrebox_put_packet_binary s buf len =
      { s with last_packet := frame_of buf ++ s.last_packet.drop (len + 4),
               last_packet_len := len + 4,
               trace := s.trace ++ [Event.put_buffer (frame_of buf)] } ∧
    (pyrebox_put_packet_binary s buf len).last_packet.take
      (pyrebox_put_packet_binary s buf len).last_packet_len = frame_of buf ∧
    (frame_of buf).length = len + 4 :=
  put_packet_binary_sends s buf len hlen hmax hlp

theorem put_packet_binary_frame_witness :
    ([0x80, 0xff, 0x41] : List Nat).length = 3 ∧ 3 ≤ MAX_PACKET_LENGTH ∧
    (fresh_session 0 false).last_packet.length = MAX_PACKET_LENGTH + 4 ∧
    (pyrebox_put_packet_binary (fresh_session 0 false) [0x80, 0xff, 0x41] 3).last_packet.take
      (pyrebox_put_packet_binary (fresh_session 0 false) [0x80, 0xff, 0x41] 3).last_packet_len
      = frame_of [0x80, 0xff, 0x41] :=
  ⟨rfl, by decide, List.length_replicate _ _,
    (put_packet_binary_frame (fresh_session 0 false) [0x80, 0xff, 0x41] 3 rfl (by decide)
      (List.length_replicate _ _)).2.1⟩

/-! ## Frame parser: properties of the specification -/

/-- C1: corrupted checksum.  From the Idle state with no reply pending and the
target stopped, for every payload of at most 4095 bytes none of which is `#`,
`}` or `*`, and hex digits `h`, `l` whose value differs from the sum of the payload
bytes modulo 256, feeding `$`, the payload, `#`, `h`, `l` ends in the Idle state
with exactly one new effect, the single byte `-` given to the transport: the
dispatcher is not entered (no `handle_packet` event) and the thread selections
and every field outside the parser are unchanged. -/
theorem bad_checksum_nak (E : Env) (s : GDBState) (payload : List Nat) (h l : Nat)
    (hst : s.state = RSState.RS_IDLE) (hp : s.last_packet_len = 0)
    (hr : s.runstate_running = false)
    (hlen : payload.length ≤ MAX_PACKET_LENGTH - 1)
    (hpay : ∀ c ∈ payload, c < 256 ∧ c ≠ 35 ∧ c ≠ 125 ∧ c ≠ 42)
    (hh : isxdigit h = true) (hl : isxdigit l = true)
    (hne : 16 * pyrebox_fromhex h + pyrebox_fromhex l ≠ payload.sum % 256) :
    pyrebox_gdb_chr_receive E s (36 :: payload ++ [35, h, l]) =
      some { s with state := RSState.RS_IDLE,
                    line_buf := (memcpy s.line_buf 0 payload).set payload.length 0,
                    line_buf_index := payload.length,
                    line_sum := payload.sum,
                    line_csum := 16 * pyrebox_fromhex h + pyrebox_fromhex l,
                    trace := s.trace ++ [Event.put_buffer [45]] } := by
  have h1 : pyrebox_gdb_read_byte E s 36 = some
      { s with line_buf_index := 0, line_sum := 0, state := RSState.RS_GETLINE } := by
    rw [read_byte_stopped E s 36 hp hr]
    simp only [read_byte_switch, hst, if_true]
  rw [List.cons_append, pyrebox_gdb_chr_receive, h1]
  simp only
  rw [receive_payload E payload
    { s with line_buf_index := 0, line_sum := 0, state := RSState.RS_GETLINE } [35, h, l]
    rfl hp hr hpay (by simp only; omega)]
  simp only [Nat.zero_add]
  rw [receive_trailer_nak E
    { s with line_buf := memcpy s.line_buf 0 payload, line_buf_index := payload.length,
             line_sum := payload.sum, state := RSState.RS_GETLINE }
    h l rfl hp hr hh hl hne]

theorem bad_checksum_nak_witness :
    (fresh_session 0 false).state = RSState.RS_IDLE ∧
    (fresh_session 0 false).last_packet_len = 0 ∧
    (fresh_session 0 false).runstate_running = false ∧
    (bytes "g").length ≤ MAX_PACKET_LENGTH - 1 ∧
    (∀ c ∈ bytes "g", c < 256 ∧ c ≠ 35 ∧ c ≠ 125 ∧ c ≠ 42) ∧
    isxdigit 54 = true ∧ isxdigit 56 = true ∧
    16 * pyrebox_fromhex 54 + pyrebox_fromhex 56 ≠ (bytes "g").sum % 256 ∧
    pyrebox_gdb_chr_receive demo_env (fresh_session 0 false) (36 :: bytes "g" ++ [35, 54, 56]) =
      some { fresh_session 0 false with
        state := RSState.RS_IDLE,
        line_buf := (memcpy (fresh_session 0 false).line_buf 0 (bytes "g")).set (bytes "g").length 0,
        line_buf_index := (bytes "g").length,
        line_sum := (bytes "g").sum,
        line_csum := 16 * pyrebox_fromhex 54 + pyrebox_fromhex 56,
        trace := (fresh_session 0 false).trace ++ [Event.put_buffer [45]] } :=
  ⟨rfl, rfl, rfl, by decide, by decide, by decide, by decide, by decide,
    bad_checksum_nak demo_env (fresh_session 0 false) (bytes "g") 54 56 rfl rfl rfl
      (by decide) (by decide) (by decide) (by decide) (by decide)⟩

/-- C2: valid frame.  From the Idle state with no reply pending and the target
stopped (and `line_buf` of its declared size), for every payload of at most 4095
non-NUL bytes none of which is `#`, `}` or `*`, feeding `$`, the payload, `#` and
two hex digits (either case) of the sum of the payload bytes modulo 256 gives
exactly what one call of the dispatcher gives on the line `payload`, entered in
the session in which `+` has already been given to the transport, the parser
taking the state the dispatcher returns.  (The process ends, `none`, exactly when
that call of the dispatcher ends it.) -/
theorem good_checksum_dispatch (E : Env) (s : GDBState) (payload : List Nat) (h l : Nat)
    (hst : s.state = RSState.RS_IDLE) (hp : s.last_packet_len = 0)
    (hr : s.runstate_running = false)
    (hbuf : s.line_buf.length = MAX_PACKET_LENGTH)
    (hlen : payload.length ≤ MAX_PACKET_LENGTH - 1)
    (hpay : ∀ c ∈ payload, c < 256 ∧ c ≠ 0 ∧ c ≠ 35 ∧ c ≠ 125 ∧ c ≠ 42)
    (hh : isxdigit h = true) (hl : isxdigit l = true)
    (hhv : pyrebox_fromhex h = payload.sum % 256 / 16)
    (hlv : pyrebox_fromhex l = payload.sum % 16) :
    pyrebox_gdb_chr_receive E s (36 :: payload ++ [35, h, l]) =
      (pyrebox_gdb_handle_packet E
        { s with state := RSState.RS_CHKSUM2,
                 line_buf := payload ++ 0 :: s.line_buf.drop (payload.length + 1),
                 line_buf_index := payload.length,
                 line_sum := payload.sum,
                 line_csum := payload.sum % 256,
                 trace := s.trace ++ [Event.put_buffer [43]] } payload).map
        (fun r => { r.1 with state := r.2 }) := by
  have h1 : pyrebox_gdb_read_byte E s 36 = some
      { s with line_buf_index := 0, line_sum := 0, state := RSState.RS_GETLINE } := by
    rw [read_byte_stopped E s 36 hp hr]
    simp only [read_byte_switch, hst, if_true]
  have hpay1 : ∀ c ∈ payload, c < 256 ∧ c ≠ 35 ∧ c ≠ 125 ∧ c ≠ 42 :=
    fun c hc => ⟨(hpay c hc).1, (hpay c hc).2.2⟩
  have hbuf1 : (memcpy s.line_buf 0 payload).set payload.length 0
      = payload ++ 0 :: s.line_buf.drop (payload.length + 1) := by
    have hm : MAX_PACKET_LENGTH = 4096 := rfl
    rw [memcpy_eq payload s.line_buf 0 (by omega), List.set_eq_take_append_cons_drop]
    simp only [List.take_zero, List.nil_append, List.length_append, List.length_drop,
      Nat.zero_add]
    rw [if_pos (by omega), List.take_left, List.drop_append_eq_append_drop, List.drop_drop]
    have e3 : List.drop (payload.length + 1) payload = [] :=
      List.drop_eq_nil_of_le (by omega)
    have e4 : payload.length + (payload.length + 1 - payload.length) = payload.length + 1 := by
      omega
    rw [e3, e4, List.nil_append]
  have e : 16 * pyrebox_fromhex h + pyrebox_fromhex l = payload.sum % 256 := by
    rw [hhv, hlv]; omega
  rw [List.cons_append, pyrebox_gdb_chr_receive, h1]
  simp only
  rw [receive_payload E payload
    { s with line_buf_index := 0, line_sum := 0, state := RSState.RS_GETLINE } [35, h, l]
    rfl hp hr hpay1 (by simp only; omega)]
  simp only [Nat.zero_add]
  rw [receive_trailer_ack E
    { s with line_buf := memcpy s.line_buf 0 payload, line_buf_index := payload.length,
             line_sum := payload.sum, state := RSState.RS_GETLINE }
    h l rfl hp hr hh hl e]
  simp only [hbuf1]
  rw [← handle_packet_cstr, cstr_append_nul payload _ (fun c hc => (hpay c hc).2.1)]

theorem good_checksum_dispatch_witness :
    (fresh_session 0 false).state = RSState.RS_IDLE ∧
    (fresh_session 0 false).last_packet_len = 0 ∧
    (fresh_session 0 false).runstate_running = false ∧
    (fresh_session 0 false).line_buf.length = MAX_PACKET_LENGTH ∧
    (bytes "?").length ≤ MAX_PACKET_LENGTH - 1 ∧
    (∀ c ∈ bytes "?", c < 256 ∧ c ≠ 0 ∧ c ≠ 35 ∧ c ≠ 125 ∧ c ≠ 42) ∧
    isxdigit 51 = true ∧ isxdigit 70 = true ∧
    pyrebox_fromhex 51 = (bytes "?").sum % 256 / 16 ∧
    pyrebox_fromhex 70 = (bytes "?").sum % 16 ∧
    pyrebox_gdb_chr_receive demo_env (fresh_session 0 false) (36 :: bytes "?" ++ [35, 51, 70]) =
      (pyrebox_gdb_handle_packet demo_env
        { fresh_session 0 false with
          state := RSState.RS_CHKSUM2,
          line_buf := bytes "?" ++ 0 :: (fresh_session 0 false).line_buf.drop ((bytes "?").length + 1),
          line_buf_index := (bytes "?").length,
          line_sum := (bytes "?").sum,
          line_csum := (bytes "?").sum % 256,
          trace := (fresh_session 0 false).trace ++ [Event.put_buffer [43]] } (bytes "?")).map
        (fun r => { r.1 with state := r.2 }) :=
  ⟨rfl, rfl, rfl, List.length_replicate _ _, by decide, by decide, by decide, by decide,
    by decide, by decide,
    good_checksum_dispatch demo_env (fresh_session 0 false) (bytes "?") 51 70 rfl rfl rfl
      (List.length_replicate _ _) (by decide) (by decide) (by decide) (by decide) (by decide)
      (by decide)⟩

/-- C3: line buffer bound.  In every session reachable from a freshly started one
by inbound bytes, `line_buf_index` is at most 4095 (`MAX_PACKET_LENGTH - 1`) and
`line_buf` keeps its 4096 cells, so the NUL that ChecksumHigh stores at
`line_buf[line_buf_index]` is inside the array; and with the index at 4095 (target
stopped, no reply pending) an ordinary byte in Accumulating (not `}`, `*`, `#`) and
an escaped byte in EscapeNext (not `#`) send the parser to Idle and store nothing. -/
theorem line_buf_index_bounded (n : Int) (s : GDBState) (h : Reachable n s) :
    s.line_buf_index ≤ MAX_PACKET_LENGTH - 1 ∧
    s.line_buf.length = MAX_PACKET_LENGTH ∧
    s.line_buf_index < s.line_buf.length ∧
    ∀ (E : Env) (ch : Nat), s.last_packet_len = 0 → s.runstate_running = false →
      s.line_buf_index = MAX_PACKET_LENGTH - 1 →
      (s.state = RSState.RS_GETLINE ∧ ch ≠ 125 ∧ ch ≠ 42 ∧ ch ≠ 35 ∨
        s.state = RSState.RS_GETLINE_ESC ∧ ch ≠ 35) →
      pyrebox_gdb_read_byte E s ch = some { s with state := RSState.RS_IDLE } := by
  obtain ⟨hi, hl, -⟩ := reachable_inv n s h
  have hm : MAX_PACKET_LENGTH = 4096 := rfl
  refine ⟨hi, hl, by omega, ?_⟩
  intro E ch hp hr hfull hcase
  rw [read_byte_stopped E s ch hp hr]
  have hge : s.line_buf_index ≥ MAX_PACKET_LENGTH - 1 := by omega
  rcases hcase with ⟨hst, h1, h2, h3⟩ | ⟨hst, h3⟩
  · simp only [read_byte_switch, hst, if_neg h1, if_neg h2, if_neg h3, if_pos hge]
  · simp only [read_byte_switch, hst, if_neg h3, if_pos hge]

theorem line_buf_index_bounded_witness :
    Reachable 0 full_buffer_session ∧
    full_buffer_session.line_buf_index ≤ MAX_PACKET_LENGTH - 1 ∧
    pyrebox_gdb_read_byte demo_env full_buffer_session 97 =
      some { full_buffer_session with state := RSState.RS_IDLE } :=
  ⟨full_buffer_reachable,
    (line_buf_index_bounded 0 full_buffer_session full_buffer_reachable).1,
    (line_buf_index_bounded 0 full_buffer_session full_buffer_reachable).2.2.2 demo_env 97
      rfl rfl rfl (Or.inl ⟨rfl, by decide, by decide, by decide⟩)⟩

/-- C7: retransmission.  When a reply is pending (`last_packet_len` not 0), each
received `-` gives the transport the first `last_packet_len` bytes of `last_packet`
and changes nothing else in the session, so `n` consecutive NAKs send the same
bytes `n` times; and when the pending reply was produced by
`pyrebox_put_packet_binary`, those bytes are exactly the ones it sent. -/
theorem nak_retransmits (E : Env) (s : GDBState) (n : Nat) (hp : s.last_packet_len ≠ 0) :
    pyrebox_gdb_chr_receive E s (List.replicate n 45) =
      some { s with trace := s.trace ++
        List.replicate n (Event.put_buffer (s.last_packet.take s.last_packet_len)) } ∧
    ∀ (s0 : GDBState) (buf : List Nat) (len : Nat), s = pyrebox_put_packet_binary s0 buf len →
      s.trace = s0.trace ++ [Event.put_buffer (s.last_packet.take s.last_packet_len)] := by
  constructor
  · induction n generalizing s with
    | zero => simp [pyrebox_gdb_chr_receive]
    | succ n ih =>
      rw [List.replicate_succ, pyrebox_gdb_chr_receive, read_byte_pending_nak E s hp]
      simp only
      rw [ih { s with trace := s.trace ++
        [Event.put_buffer (s.last_packet.take s.last_packet_len)] } hp]
      simp [List.replicate_succ]
  · intro s0 buf len hs
    subst hs
    rfl

theorem nak_retransmits_witness :
    (pyrebox_put_packet (fresh_session 0 false) (bytes "OK")).last_packet_len ≠ 0 ∧
    pyrebox_gdb_chr_receive demo_env (pyrebox_put_packet (fresh_session 0 false) (bytes "OK"))
        (List.replicate 2 45) =
      some { pyrebox_put_packet (fresh_session 0 false) (bytes "OK") with
        trace := (pyrebox_put_packet (fresh_session 0 false) (bytes "OK")).trace ++
          List.replicate 2 (Event.put_buffer
            ((pyrebox_put_packet (fresh_session 0 false) (bytes "OK")).last_packet.take
              (pyrebox_put_packet (fresh_session 0 false) (bytes "OK")).last_packet_len)) } :=
  ⟨by decide,
    (nak_retransmits demo_env (pyrebox_put_packet (fresh_session 0 false) (bytes "OK")) 2
      (by decide)).1⟩

/-- C8: pending reply.  In every session reachable by inbound bytes, while a reply
is pending and the target is stopped: `+` clears the pending reply and changes
nothing else; `$` clears the pending reply and begins a new frame (index and
running sum reset, parser state Accumulating); every byte other than `-`, `+`, `$`
sends nothing and leaves the whole session unchanged.  (In such a session a pending
reply implies an Idle parser, which is what makes `$` start a frame.) -/
theorem pending_reply_rules (n : Int) (E : Env) (s : GDBState) (h : Reachable n s)
    (hp : s.last_packet_len ≠ 0) (hr : s.runstate_running = false) :
    pyrebox_gdb_read_byte E s 43 = some { s with last_packet_len := 0 } ∧
    pyrebox_gdb_read_byte E s 36 =
      some { s with last_packet_len := 0, line_buf_index := 0, line_sum := 0,
                    state := RSState.RS_GETLINE } ∧
    ∀ ch, ch ≠ 45 → ch ≠ 43 → ch ≠ 36 → pyrebox_gdb_read_byte E s ch = some s := by
  obtain ⟨-, -, hidle⟩ := reachable_inv n s h
  have hst := hidle (Or.inl hp)
  refine ⟨read_byte_pending_ack E s hp, ?_, fun ch h1 h2 h3 =>
    read_byte_pending_other E s ch hp h1 h2 h3⟩
  rw [read_byte_pending_dollar E s hp,
    read_byte_stopped E { s with last_packet_len := 0 } 36 rfl hr]
  simp only [read_byte_switch, hst, if_true]

theorem pending_reply_rules_witness :
    Reachable 0 (stop_and_report demo_env (fresh_session 0 true)) ∧
    (stop_and_report demo_env (fresh_session 0 true)).last_packet_len ≠ 0 ∧
    (stop_and_report demo_env (fresh_session 0 true)).runstate_running = false ∧
    pyrebox_gdb_read_byte demo_env (stop_and_report demo_env (fresh_session 0 true)) 36 =
      some { stop_and_report demo_env (fresh_session 0 true) with
        last_packet_len := 0, line_buf_index := 0, line_sum := 0,
        state := RSState.RS_GETLINE } :=
  ⟨Reachable.byte demo_env _ _ 120 (Reachable.start true) (by decide)
      (read_byte_running demo_env (fresh_session 0 true) 120 rfl rfl),
    by decide, by decide,
    (pending_reply_rules 0 demo_env (stop_and_report demo_env (fresh_session 0 true))
      (Reachable.byte demo_env _ _ 120 (Reachable.start true) (by decide)
        (read_byte_running demo_env (fresh_session 0 true) 120 rfl rfl))
      (by decide) (by decide)).2.1⟩

/-- C9, amended: interrupt of a running target.  If the target is executing and
either no reply is pending or the byte is `$`, then whatever the parser state
`pyrebox_gdb_read_byte` requests a stop (`vm_stop`), asks the Provider for the
thread list (when the session has none) and for the thread running on the first
core, and sends the packet `$T05thread:<id>;#cc` naming that thread (0 when no
thread list or no answer is available); the target is then stopped and the parser
state, line buffer, index and running sum are unchanged. -/
theorem interrupt_stops_target (E : Env) (s : GDBState) (ch : Nat)
    (hr : s.runstate_running = true) (hpd : s.last_packet_len = 0 ∨ ch = 36)
    (hlp : s.last_packet.length = MAX_PACKET_LENGTH + 4) :
    ∃ s1, pyrebox_gdb_read_byte E s ch = some s1 ∧
      s1.trace = s.trace ++ Event.vm_stop :: stop_provider_calls E s ++
        [Event.put_buffer (frame_of (bytes "T05thread:" ++
          fmt_x (reported_first_core_thread E s) ++ bytes ";"))] ∧
      s1.runstate_running = false ∧
      s1.currently_running_thread = reported_first_core_thread E s ∧
      s1.state = s.state ∧ s1.line_buf = s.line_buf ∧
      s1.line_buf_index = s.line_buf_index ∧ s1.line_sum = s.line_sum := by
  by_cases hp : s.last_packet_len = 0
  · obtain ⟨threads, count, h⟩ := stop_and_report_eq E s hr hlp
    refine ⟨_, read_byte_running E s ch hp hr, ?_⟩
    rw [h]
    exact ⟨rfl, rfl, rfl, rfl, rfl, rfl, rfl⟩
  · have h36 : ch = 36 := by
      rcases hpd with h | h
      · exact absurd h hp
      · exact h
    subst h36
    obtain ⟨threads, count, h⟩ := stop_and_report_eq E { s with last_packet_len := 0 } hr hlp
    refine ⟨_, (read_byte_pending_dollar E s hp).trans
      (read_byte_running E { s with last_packet_len := 0 } 36 rfl hr), ?_⟩
    rw [h]
    exact ⟨rfl, rfl, rfl, rfl, rfl, rfl, rfl⟩

theorem interrupt_stops_target_witness :
    (fresh_session 0 true).runstate_running = true ∧
    ((fresh_session 0 true).last_packet_len = 0 ∨ (3 : Nat) = 36) ∧
    (fresh_session 0 true).last_packet.length = MAX_PACKET_LENGTH + 4 ∧
    ∃ s1, pyrebox_gdb_read_byte demo_env (fresh_session 0 true) 3 = some s1 ∧
      s1.trace = (fresh_session 0 true).trace ++
        Event.vm_stop :: stop_provider_calls demo_env (fresh_session 0 true) ++
        [Event.put_buffer (frame_of (bytes "T05thread:" ++
          fmt_x (reported_first_core_thread demo_env (fresh_session 0 true)) ++ bytes ";"))] ∧
      s1.runstate_running = false ∧
      s1.currently_running_thread = reported_first_core_thread demo_env (fresh_session 0 true) ∧
      s1.state = (fresh_session 0 true).state ∧ s1.line_buf = (fresh_session 0 true).line_buf ∧
      s1.line_buf_index = (fresh_session 0 true).line_buf_index ∧
      s1.line_sum = (fresh_session 0 true).line_sum :=
  ⟨rfl, Or.inl rfl, List.length_replicate _ _,
    interrupt_stops_target demo_env (fresh_session 0 true) 3 rfl (Or.inl rfl)
      (List.length_replicate _ _)⟩

/-- C9, counterexample: a byte received while the target runs and a reply is
pending.  After the bytes `x`, `+`, `$D#44` (interrupt, acknowledgement, detach) the
target is executing and the reply `OK` is pending; the byte `0x03` received then
leaves the session exactly as it was: no stop is requested and nothing is sent. -/
theorem interrupt_ignored_while_reply_pending :
    (pyrebox_gdb_chr_receive demo_env (fresh_session 0 true) (bytes "x+$D#44")).map
        (fun s => (s.runstate_running, s.last_packet_len, s.trace.length)) = some (true, 6, 8) ∧
    pyrebox_gdb_chr_receive demo_env (fresh_session 0 true) (bytes "x+$D#44" ++ [3]) =
      pyrebox_gdb_chr_receive demo_env (fresh_session 0 true) (bytes "x+$D#44") := by
  have h1 : (pyrebox_gdb_chr_receive demo_env (fresh_session 0 true) (bytes "x+$D#44")).map
      (fun s => (s.runstate_running, s.last_packet_len, s.trace.length)) = some (true, 6, 8) := by
    decide
  refine ⟨h1, ?_⟩
  rw [receive_append]
  cases hS : pyrebox_gdb_chr_receive demo_env (fresh_session 0 true) (bytes "x+$D#44") with
  | none => rfl
  | some S =>
    rw [hS] at h1
    simp only [Option.map_some', Option.some.injEq, Prod.mk.injEq] at h1
    have hp : S.last_packet_len ≠ 0 := by rw [h1.2.1]; decide
    simp only [Option.some_bind, pyrebox_gdb_chr_receive,
      read_byte_pending_other demo_env S 3 hp (by decide) (by decide) (by decide)]

/-- C10: escape rule.  With the target stopped and no reply pending, in the
Accumulating state the byte `}` adds `0x7d` to the running sum and enters EscapeNext.
For the next byte `b`: if `b` is `#` the parser goes to ChecksumHigh with nothing
appended; otherwise, if the buffer is full (index at `MAX_PACKET_LENGTH - 1` = 4095)
it goes to Idle; otherwise `b XOR 0x20` is stored at the index, the index advances,
the raw `b` is added to the running sum and the parser is back in Accumulating. -/
theorem escape_next_rule (E : Env) (s : GDBState) (b : Nat)
    (hst : s.state = RSState.RS_GETLINE) (hp : s.last_packet_len = 0)
    (hr : s.runstate_running = false) (hb : b < 256) :
    pyrebox_gdb_read_byte E s 125 =
      some { s with state := RSState.RS_GETLINE_ESC, line_sum := s.line_sum + 0x7d } ∧
    pyrebox_gdb_chr_receive E s [125, b] =
      some (if b = 35 then
          { s with state := RSState.RS_CHKSUM1, line_sum := s.line_sum + 0x7d }
        else if MAX_PACKET_LENGTH - 1 ≤ s.line_buf_index then
          { s with state := RSState.RS_IDLE, line_sum := s.line_sum + 0x7d }
        else
          { s with line_buf := s.line_buf.set s.line_buf_index (b ^^^ 0x20),
                   line_buf_index := s.line_buf_index + 1,
                   line_sum := s.line_sum + 0x7d + b,
                   state := RSState.RS_GETLINE }) := by
  have h1 : pyrebox_gdb_read_byte E s 125 =
      some { s with state := RSState.RS_GETLINE_ESC, line_sum := s.line_sum + 0x7d } := by
    rw [read_byte_stopped E s 125 hp hr]
    simp [read_byte_switch, hst]
  refine ⟨h1, ?_⟩
  rw [pyrebox_gdb_chr_receive, h1]
  simp only
  rw [pyrebox_gdb_chr_receive, read_byte_stopped E
    { s with state := RSState.RS_GETLINE_ESC, line_sum := s.line_sum + 0x7d } b hp hr]
  simp only [read_byte_switch, xor_0x20_byte b hb, pyrebox_gdb_chr_receive]
  by_cases h35 : b = 35
  · simp [h35]
  · by_cases hfull : MAX_PACKET_LENGTH - 1 ≤ s.line_buf_index
    · simp [h35, hfull]
    · simp [h35, hfull]

theorem escape_next_rule_witness :
    ({ fresh_session 0 false with state := RSState.RS_GETLINE } : GDBState).state
      = RSState.RS_GETLINE ∧
    ({ fresh_session 0 false with state := RSState.RS_GETLINE } : GDBState).last_packet_len = 0 ∧
    ({ fresh_session 0 false with state := RSState.RS_GETLINE } : GDBState).runstate_running
      = false ∧
    (3 : Nat) < 256 ∧
    pyrebox_gdb_read_byte demo_env { fresh_session 0 false with state := RSState.RS_GETLINE } 125
      = some { fresh_session 0 false with
          state := RSState.RS_GETLINE_ESC, line_sum := 0x7d } ∧
    pyrebox_gdb_chr_receive demo_env
        { fresh_session 0 false with state := RSState.RS_GETLINE } [125, 3]
      = some { fresh_session 0 false with
          line_buf := (fresh_session 0 false).line_buf.set 0 35,
          line_buf_index := 1, line_sum := 0x7d + 3, state := RSState.RS_GETLINE } :=
  ⟨rfl, rfl, rfl, by decide,
    (escape_next_rule demo_env { fresh_session 0 false with state := RSState.RS_GETLINE } 3
      rfl rfl rfl (by decide)).1,
    (escape_next_rule demo_env { fresh_session 0 false with state := RSState.RS_GETLINE } 3
      rfl rfl rfl (by decide)).2⟩

/-- C11: run-length rule.  With the target stopped and no reply pending, in the
RLENext state with `i ≥ 1` buffered bytes: a byte `ch < 0x20` appends nothing,
leaves the running sum unchanged and returns the parser to Accumulating; a byte
`ch ≥ 0x20` with `n = ch - 0x20 + 3` and `i + n < 4095` stores exactly `n` copies of
the last buffered byte after the `i` buffered ones (3 copies for `ch = 0x20`, never
fewer), adds `ch` to the running sum and returns the parser to Accumulating. -/
theorem rle_next_rule (E : Env) (s : GDBState) (ch : Nat)
    (hst : s.state = RSState.RS_GETLINE_RLE) (hp : s.last_packet_len = 0)
    (hr : s.runstate_running = false) (hch : ch < 256)
    (hi : 1 ≤ s.line_buf_index) (hlen : s.line_buf.length = MAX_PACKET_LENGTH) :
    (ch < 0x20 → pyrebox_gdb_read_byte E s ch = some { s with state := RSState.RS_GETLINE }) ∧
    (0x20 ≤ ch → s.line_buf_index + (ch - 0x20 + 3) < 4095 →
      3 ≤ ch - 0x20 + 3 ∧
      pyrebox_gdb_read_byte E s ch = some { s with
        line_buf := s.line_buf.take s.line_buf_index ++
          List.replicate (ch - 0x20 + 3) (s.line_buf.getD (s.line_buf_index - 1) 0) ++
          s.line_buf.drop (s.line_buf_index + (ch - 0x20 + 3)),
        line_buf_index := s.line_buf_index + (ch - 0x20 + 3),
        line_sum := s.line_sum + ch,
        state := RSState.RS_GETLINE }) := by
  rw [read_byte_stopped E s ch hp hr]
  constructor
  · intro h
    simp [read_byte_switch, hst, h]
  · intro h hfit
    refine ⟨Nat.le_add_left _ _, ?_⟩
    have hmod : ch % 256 = ch := Nat.mod_eq_of_lt hch
    have h1 : ¬ ch < 32 := by omega
    have h2 : ¬ (s.line_buf_index + (ch - 32 + 3) ≥ MAX_PACKET_LENGTH - 1) := by
      simp only [MAX_PACKET_LENGTH]; omega
    have h3 : ¬ s.line_buf_index < 1 := by omega
    have hm := memcpy_eq (List.replicate (ch - 32 + 3) (s.line_buf.getD (s.line_buf_index - 1) 0))
      s.line_buf s.line_buf_index (by
        rw [List.length_replicate, hlen]; simp only [MAX_PACKET_LENGTH]; omega)
    rw [List.length_replicate] at hm
    simp only [read_byte_switch, hst, hmod, h1, h2, h3, if_false, hm]

theorem rle_next_rule_witness :
    rle_sample_session.state = RSState.RS_GETLINE_RLE ∧
    rle_sample_session.last_packet_len = 0 ∧
    rle_sample_session.runstate_running = false ∧
    1 ≤ rle_sample_session.line_buf_index ∧
    rle_sample_session.line_buf.length = MAX_PACKET_LENGTH ∧
    pyrebox_gdb_read_byte demo_env rle_sample_session 0x1f =
      some { rle_sample_session with state := RSState.RS_GETLINE } ∧
    pyrebox_gdb_read_byte demo_env rle_sample_session 0x20 =
      some { rle_sample_session with
        line_buf := bytes "aaaa" ++ List.replicate 4092 0,
        line_buf_index := 4,
        line_sum := 97 + 42 + 0x20,
        state := RSState.RS_GETLINE } :=
  ⟨rfl, rfl, rfl, by decide, by
      show (97 :: List.replicate 4095 0).length = 4096
      rw [List.length_cons, List.length_replicate],
    (rle_next_rule demo_env rle_sample_session 0x1f rfl rfl rfl (by decide) (by decide) (by
      show (97 :: List.replicate 4095 0).length = 4096
      rw [List.length_cons, List.length_replicate])).1 (by decide),
    ((rle_next_rule demo_env rle_sample_session 0x20 rfl rfl rfl (by decide) (by decide) (by
      show (97 :: List.replicate 4095 0).length = 4096
      rw [List.length_cons, List.length_replicate])).2 (by decide) (by decide)).2⟩

/-! ## Dispatcher: properties of the specification -/

/-- C12 (amended): size guard of `m`.  For every command line `m<addr>,<len>` whose
declared hexadecimal length `L` is below `2^64` and, truncated to the 32 bits of the
variable `len`, lies above 2048 (half of `MAX_PACKET_LENGTH`) and below `2^31` (in
particular every `L` with `2048 < L < 2^31`), the dispatcher replies `E22` and makes
no Provider call: the reply is the only effect after the entry of the dispatcher. -/
theorem read_memory_length_guard (E : Env) (s : GDBState) (addr len : List Nat)
    (ha : is_hex_field addr) (hl : is_hex_field len)
    (h64 : hex_value len < 2 ^ 64)
    (hbig : 2048 < hex_value len % 2 ^ 32) (hsmall : hex_value len % 2 ^ 32 < 2 ^ 31)
    (hlp : s.last_packet.length = MAX_PACKET_LENGTH + 4) :
    pyrebox_gdb_handle_packet E s (bytes "m" ++ addr ++ bytes "," ++ len) =
      some ({ s with
          last_packet := frame_of (bytes "E22") ++ s.last_packet.drop 7,
          last_packet_len := 7,
          trace := s.trace ++
            [Event.handle_packet (bytes "m" ++ addr ++ bytes "," ++ len),
             Event.put_buffer (frame_of (bytes "E22"))] }, RSState.RS_IDLE) := by
  have hline : bytes "m" ++ addr ++ bytes "," ++ len = 109 :: (addr ++ 44 :: len) := by
    show ([109] ++ addr) ++ [44] ++ len = _
    simp
  rw [hline, handle_packet_m E s _ (m_line_ne_zero addr len ha hl)]
  have h1 := strtoull_field addr (44 :: len) ha rfl (by simp [peek])
  have h2 := strtoull_field_end len hl
  have h3 : ¬ (2 ^ 64 ≤ hex_value len) := by omega
  have h4 : to_int (hex_value len) > (MAX_PACKET_LENGTH : Int) / 2 := by
    rw [to_int_small _ hsmall]
    simp only [MAX_PACKET_LENGTH]
    omega
  simp only [h1, skip_char_cons, h2, h3, if_false, h4, if_true]
  rw [reply_sends s _ _ (by decide) (by decide) hlp]
  rfl

theorem read_memory_length_guard_witness :
    is_hex_field (bytes "10ab") ∧ is_hex_field (bytes "801") ∧
    hex_value (bytes "801") = 2049 ∧
    (fresh_session 0 false).last_packet.length = MAX_PACKET_LENGTH + 4 ∧
    pyrebox_gdb_handle_packet demo_env (fresh_session 0 false) (bytes "m10ab,801") =
      some ({ fresh_session 0 false with
          last_packet := bytes "$E22#a9" ++ List.replicate 4093 0,
          last_packet_len := 7,
          trace := [Event.handle_packet (bytes "m10ab,801"),
                    Event.put_buffer (bytes "$E22#a9")] }, RSState.RS_IDLE) :=
  ⟨⟨by decide, by decide⟩, ⟨by decide, by decide⟩, by decide, by
      show (List.replicate 4100 0).length = 4100
      rw [List.length_replicate],
    read_memory_length_guard demo_env (fresh_session 0 false) (bytes "10ab") (bytes "801")
      ⟨by decide, by decide⟩ ⟨by decide, by decide⟩ (by decide) (by decide) (by decide) (by
        show (List.replicate 4100 0).length = 4100
        rw [List.length_replicate])⟩

/-- C12, counterexample: the declared length `0x100000004` is greater than 2048, yet
in a stopped session that holds a thread list `m10ab,100000004` calls the Provider's
memory read (for 4 bytes) and replies the data. -/
theorem read_memory_length_wraps :
    is_hex_field (bytes "10ab") ∧ is_hex_field (bytes "100000004") ∧
    2048 < hex_value (bytes "100000004") ∧
    threads_session.current_threads = some [7, 8, 9] ∧
    (pyrebox_gdb_handle_packet demo_env threads_session
        (bytes "m10ab,100000004")).map (fun r => r.1.trace) =
      some [Event.handle_packet (bytes "m10ab,100000004"),
            Event.py_gdb_memory_rw_debug 0 (some [7, 8, 9]) 0x10ab 4 none false,
            Event.put_buffer (bytes "$abababab#0c")] :=
  ⟨⟨by decide, by decide⟩, ⟨by decide, by decide⟩, by decide, rfl, by decide⟩

/-- C13 (amended): reply of `m`.  Take a command line `m<addr>,<len>` with declared
length `L ≤ 2048`.  When the Provider has no callable `gdb_memory_rw_debug`, the reply
is `E14` and nothing is called.  Otherwise, in a session that holds a thread list, the
Provider's memory read is called once, for the other-selected thread (`g_thread_id`),
the thread list, the address of the field and `L` bytes: if the call produces nothing,
or an empty byte string, the reply is `E14`; if it returns `L` bytes `B` and `L ≥ 1`,
the reply payload is the `2 * L`-character lowercase hex text of `B`.  In a session
without a thread list the call faults in the glue and there is no reply. -/
theorem read_memory_reply (E : Env) (s : GDBState) (addr len : List Nat)
    (ha : is_hex_field addr) (hl : is_hex_field len)
    (hmax : hex_value len ≤ 2048)
    (hmem : E.uninit_mem_buf.length = MAX_PACKET_LENGTH)
    (hlp : s.last_packet.length = MAX_PACKET_LENGTH + 4) :
    (E.callable VmiFunction.gdb_memory_rw_debug = false →
      pyrebox_gdb_handle_packet E s (bytes "m" ++ addr ++ bytes "," ++ len) =
        some ({ s with
            last_packet := frame_of (bytes "E14") ++ s.last_packet.drop 7,
            last_packet_len := 7,
            trace := s.trace ++
              [Event.handle_packet (bytes "m" ++ addr ++ bytes "," ++ len),
               Event.put_buffer (frame_of (bytes "E14"))] }, RSState.RS_IDLE)) ∧
    (E.callable VmiFunction.gdb_memory_rw_debug = true → s.current_threads ≠ none →
      (E.gdb_memory_rw_debug s.g_thread_id s.current_threads (memory_address E addr)
            (hex_value len) none false = none ∨
          E.gdb_memory_rw_debug s.g_thread_id s.current_threads (memory_address E addr)
            (hex_value len) none false = some [] →
        pyrebox_gdb_handle_packet E s (bytes "m" ++ addr ++ bytes "," ++ len) =
          some ({ s with
              last_packet := frame_of (bytes "E14") ++ s.last_packet.drop 7,
              last_packet_len := 7,
              trace := s.trace ++
                [Event.handle_packet (bytes "m" ++ addr ++ bytes "," ++ len),
                 Event.py_gdb_memory_rw_debug s.g_thread_id s.current_threads
                   (memory_address E addr) (hex_value len) none false,
                 Event.put_buffer (frame_of (bytes "E14"))] }, RSState.RS_IDLE)) ∧
      (∀ B, E.gdb_memory_rw_debug s.g_thread_id s.current_threads (memory_address E addr)
            (hex_value len) none false = some B →
        B.length = hex_value len → 1 ≤ hex_value len → (∀ x ∈ B, x < 256) →
        (hex_encode B).length = 2 * hex_value len ∧
        pyrebox_gdb_handle_packet E s (bytes "m" ++ addr ++ bytes "," ++ len) =
          some ({ s with
              last_packet := frame_of (hex_encode B) ++
                s.last_packet.drop (2 * hex_value len + 4),
              last_packet_len := 2 * hex_value len + 4,
              trace := s.trace ++
                [Event.handle_packet (bytes "m" ++ addr ++ bytes "," ++ len),
                 Event.py_gdb_memory_rw_debug s.g_thread_id s.current_threads
                   (memory_address E addr) (hex_value len) none false,
                 Event.put_buffer (frame_of (hex_encode B))] }, RSState.RS_IDLE))) ∧
    (E.callable VmiFunction.gdb_memory_rw_debug = true → s.current_threads = none →
      pyrebox_gdb_handle_packet E s (bytes "m" ++ addr ++ bytes "," ++ len) = none) := by
  have hline : bytes "m" ++ addr ++ bytes "," ++ len = 109 :: (addr ++ 44 :: len) := by
    show ([109] ++ addr) ++ [44] ++ len = _
    simp
  have h1 := strtoull_field addr (44 :: len) ha rfl (by simp [peek])
  have h1e := strtoull_field_end addr ha
  have h2 := strtoull_field_end len hl
  have h3 : ¬ (2 ^ 64 ≤ hex_value len) := by omega
  have h4 : to_int (hex_value len) = (hex_value len : Int) := to_int_of_lt _ (by omega)
  have h5 : ¬ ((hex_value len : Int) > (MAX_PACKET_LENGTH : Int) / 2) := by
    simp only [MAX_PACKET_LENGTH]; omega
  have h6 : ¬ ((hex_value len : Int) < 0) := by omega
  have hbase : pyrebox_gdb_handle_packet E s (bytes "m" ++ addr ++ bytes "," ++ len) =
      match target_memory_rw_debug E (s.log (Event.handle_packet (109 :: (addr ++ 44 :: len))))
          s.g_thread_id (memory_address E addr) E.uninit_mem_buf (hex_value len) false with
      | none => none
      | some (s, mem, res) =>
        if res = 0 then some (pyrebox_put_packet s (bytes "E14"), RSState.RS_IDLE)
        else some (pyrebox_put_packet s (pyrebox_memtohex mem (hex_value len)), RSState.RS_IDLE) := by
    rw [hline, handle_packet_m E s _ (m_line_ne_zero addr len ha hl)]
    simp only [h1, skip_char_cons, h2, h3, if_false, h4, h5, memory_address, h1e, Int.toNat_ofNat]
    rfl
  refine ⟨?_, ?_, ?_⟩
  · intro hc
    rw [hbase]
    simp only [target_memory_rw_debug, hc, Bool.not_false, if_true]
    rw [← hline, reply_sends s _ (bytes "E14") (by decide) (by decide) hlp]
    rfl
  · intro hc hth
    have hnone : s.current_threads.isNone = false := isNone_of_ne_none _ hth
    constructor
    · intro hB
      rw [hbase]
      rcases hB with hn | hs
      · simp only [target_memory_rw_debug, hc, hnone, hn, GDBState.log, Bool.not_true,
          Bool.false_eq_true, if_false, if_true]
        rw [← hline, List.append_assoc s.trace,
          put_packet_after s _ (bytes "E14") (by decide) (by decide) hlp]
        simp only [List.append_assoc, List.cons_append, List.nil_append]
        rfl
      · simp only [target_memory_rw_debug, hc, hnone, hs, GDBState.log, Bool.not_true,
          Bool.false_eq_true, if_false, h6, List.length_nil, if_true]
        have : to_int 0 = 0 := rfl
        simp only [this, if_true]
        rw [← hline, List.append_assoc s.trace,
          put_packet_after s _ (bytes "E14") (by decide) (by decide) hlp]
        simp only [List.append_assoc, List.cons_append, List.nil_append]
        rfl
    · intro B hs hlen hpos hB
      have hel := hex_encode_length B
      rw [hlen] at hel
      refine ⟨hel, ?_⟩
      rw [hbase]
      have hret : ¬ (to_int (hex_value len) = 0) := by
        rw [h4]; omega
      have hmc : memcpy E.uninit_mem_buf 0 B = B ++ E.uninit_mem_buf.drop B.length := by
        have := memcpy_eq B E.uninit_mem_buf 0 (by
          rw [hmem, hlen]; simp only [MAX_PACKET_LENGTH]; omega)
        simpa using this
      simp only [target_memory_rw_debug, hc, hnone, hs, GDBState.log, Bool.not_true,
        Bool.false_eq_true, if_false, h6,
        Int.toNat_ofNat, hlen, Nat.min_self, hret, if_false]
      rw [← hlen, List.take_length, hmc, memtohex_encode _ B hB, ← hline,
        List.append_assoc s.trace,
        put_packet_nul _ _ _ (hex_encode_ne_zero B hB),
        put_packet_after s _ (hex_encode B) (hex_encode_ne_zero B hB) (by
          rw [hex_encode_length, hlen]; simp only [MAX_PACKET_LENGTH]; omega) hlp]
      rw [hex_encode_length, hlen]
      simp only [List.append_assoc, List.cons_append, List.nil_append]
  · intro hc hth
    rw [hbase]
    simp only [target_memory_rw_debug, hc, GDBState.log, hth, Option.isNone_none, Bool.not_true,
      Bool.false_eq_true, if_false, if_true]

theorem read_memory_reply_witness :
    is_hex_field (bytes "1000") ∧ is_hex_field (bytes "4") ∧ hex_value (bytes "4") ≤ 2048 ∧
    deadbeef_env.uninit_mem_buf.length = MAX_PACKET_LENGTH ∧
    threads_session.last_packet.length = MAX_PACKET_LENGTH + 4 ∧
    deadbeef_env.callable VmiFunction.gdb_memory_rw_debug = true ∧
    threads_session.current_threads = some [7, 8, 9] ∧
    deadbeef_env.gdb_memory_rw_debug 0 (some [7, 8, 9]) 0x1000 4 none false =
      some [0xde, 0xad, 0xbe, 0xef] ∧
    pyrebox_gdb_handle_packet deadbeef_env threads_session (bytes "m1000,4") =
      some ({ threads_session with
          last_packet := bytes "$deadbeef#20" ++ List.replicate 4088 0,
          last_packet_len := 12,
          trace := [Event.handle_packet (bytes "m1000,4"),
                    Event.py_gdb_memory_rw_debug 0 (some [7, 8, 9]) 0x1000 4 none false,
                    Event.put_buffer (bytes "$deadbeef#20")] }, RSState.RS_IDLE) :=
  ⟨⟨by decide, by decide⟩, ⟨by decide, by decide⟩, by decide, by
      show (List.replicate 4096 0).length = 4096
      rw [List.length_replicate], by
      show (List.replicate 4100 0).length = 4100
      rw [List.length_replicate], rfl, rfl, rfl,
    (((read_memory_reply deadbeef_env threads_session (bytes "1000") (bytes "4")
      ⟨by decide, by decide⟩ ⟨by decide, by decide⟩ (by decide) (by
        show (List.replicate 4096 0).length = 4096
        rw [List.length_replicate]) (by
        show (List.replicate 4100 0).length = 4100
        rw [List.length_replicate])).2.1 rfl (by decide)).2 [0xde, 0xad, 0xbe, 0xef] rfl rfl
        (by decide) (by decide)).2⟩

/-- C13, counterexample: in a stopped session that holds a thread list, the Provider's
read for `m10ab,0` succeeds and returns the 0 requested bytes, yet the reply is `E14`
and not the empty (0-character) hex text. -/
theorem read_memory_zero_length :
    is_hex_field (bytes "10ab") ∧ is_hex_field (bytes "0") ∧ hex_value (bytes "0") ≤ 2048 ∧
    threads_session.current_threads = some [7, 8, 9] ∧
    demo_env.gdb_memory_rw_debug 0 (some [7, 8, 9]) 0x10ab 0 none false = some [] ∧
    (pyrebox_gdb_handle_packet demo_env threads_session
        (bytes "m10ab,0")).map (fun r => r.1.trace) =
      some [Event.handle_packet (bytes "m10ab,0"),
            Event.py_gdb_memory_rw_debug 0 (some [7, 8, 9]) 0x10ab 0 none false,
            Event.put_buffer (bytes "$E14#aa")] :=
  ⟨⟨by decide, by decide⟩, ⟨by decide, by decide⟩, by decide, rfl, rfl, by decide⟩

/-- C14 (amended): reply of `M`.  Take a command line `M<addr>,<len>:<hex>` that fits
the line buffer and whose declared length `L` is below `2^32`.  If fewer than `2 * L`
characters follow the `:`, the reply is `E22` and no Provider call is made.  Otherwise,
when the Provider has no callable `gdb_memory_rw_debug`, the reply is `E14` and nothing
is called; else, in a session that holds a thread list, the Provider's memory write is
called once, for the other-selected thread, the thread list, the address of the field
and exactly the `L` bytes decoded from the first `2 * L` characters, and the reply is
`E14` if the write fails (the call produces nothing, or a result of length 0) and `OK`
if it succeeds.  In a session without a thread list the call faults in the glue and
there is no reply. -/
theorem write_memory_reply (E : Env) (s : GDBState) (addr len hex : List Nat)
    (ha : is_hex_field addr) (hl : is_hex_field len) (hhex : ∀ c ∈ hex, c ≠ 0)
    (h32 : hex_value len < 2 ^ 32)
    (hfit : (bytes "M" ++ addr ++ bytes "," ++ len ++ bytes ":" ++ hex).length < MAX_PACKET_LENGTH)
    (hmem : E.uninit_mem_buf.length = MAX_PACKET_LENGTH)
    (hlp : s.last_packet.length = MAX_PACKET_LENGTH + 4) :
    (hex.length < 2 * hex_value len →
      pyrebox_gdb_handle_packet E s (bytes "M" ++ addr ++ bytes "," ++ len ++ bytes ":" ++ hex) =
        some ({ s with
            last_packet := frame_of (bytes "E22") ++ s.last_packet.drop 7,
            last_packet_len := 7,
            trace := s.trace ++
              [Event.handle_packet (bytes "M" ++ addr ++ bytes "," ++ len ++ bytes ":" ++ hex),
               Event.put_buffer (frame_of (bytes "E22"))] }, RSState.RS_IDLE)) ∧
    (2 * hex_value len ≤ hex.length →
      E.callable VmiFunction.gdb_memory_rw_debug = false →
      pyrebox_gdb_handle_packet E s (bytes "M" ++ addr ++ bytes "," ++ len ++ bytes ":" ++ hex) =
        some ({ s with
            last_packet := frame_of (bytes "E14") ++ s.last_packet.drop 7,
            last_packet_len := 7,
            trace := s.trace ++
              [Event.handle_packet (bytes "M" ++ addr ++ bytes "," ++ len ++ bytes ":" ++ hex),
               Event.put_buffer (frame_of (bytes "E14"))] }, RSState.RS_IDLE)) ∧
    (2 * hex_value len ≤ hex.length →
      E.callable VmiFunction.gdb_memory_rw_debug = true → s.current_threads ≠ none →
      ∀ reply, reply = (if rw_result (E.gdb_memory_rw_debug s.g_thread_id s.current_threads
          (memory_address E addr) (hex_value len)
          (some (pyrebox_hextomem (hex.take (2 * hex_value len)) (hex_value len))) true) = 0
        then bytes "E14" else bytes "OK") →
      pyrebox_gdb_handle_packet E s (bytes "M" ++ addr ++ bytes "," ++ len ++ bytes ":" ++ hex) =
        some ({ s with
            last_packet := frame_of reply ++ s.last_packet.drop (reply.length + 4),
            last_packet_len := reply.length + 4,
            trace := s.trace ++
              [Event.handle_packet (bytes "M" ++ addr ++ bytes "," ++ len ++ bytes ":" ++ hex),
               Event.py_gdb_memory_rw_debug s.g_thread_id s.current_threads
                 (memory_address E addr) (hex_value len)
                 (some (pyrebox_hextomem (hex.take (2 * hex_value len)) (hex_value len))) true,
               Event.put_buffer (frame_of reply)] }, RSState.RS_IDLE)) ∧
    (2 * hex_value len ≤ hex.length →
      E.callable VmiFunction.gdb_memory_rw_debug = true → s.current_threads = none →
      pyrebox_gdb_handle_packet E s
        (bytes "M" ++ addr ++ bytes "," ++ len ++ bytes ":" ++ hex) = none) := by
  have hline : bytes "M" ++ addr ++ bytes "," ++ len ++ bytes ":" ++ hex =
      77 :: (addr ++ 44 :: (len ++ 58 :: hex)) := by
    show ((([77] ++ addr) ++ [44]) ++ len) ++ [58] ++ hex = _
    simp
  have hnz : ∀ c ∈ addr ++ 44 :: (len ++ 58 :: hex), c ≠ 0 := by
    intro c hc
    simp only [List.mem_append, List.mem_cons] at hc
    rcases hc with h | h | h | h | h
    · exact field_ne_zero addr ha c h
    · rw [h]; decide
    · exact field_ne_zero len hl c h
    · rw [h]; decide
    · exact hhex c h
  have hhl : hex.length < 4096 := by
    rw [hline] at hfit
    simp only [List.length_cons, List.length_append, MAX_PACKET_LENGTH] at hfit
    omega
  have h1 := strtoull_field addr (44 :: (len ++ 58 :: hex)) ha rfl (by simp [peek])
  have h1e := strtoull_field_end addr ha
  have h2 := strtoull_field len (58 :: hex) hl rfl (by simp [peek])
  have h3 : ¬ (2 ^ 64 ≤ hex_value len) := by omega
  have hbase : pyrebox_gdb_handle_packet E s
        (bytes "M" ++ addr ++ bytes "," ++ len ++ bytes ":" ++ hex) =
      if hex.length / 2 < to_unsigned 64 (to_int (hex_value len)) then
        some (pyrebox_put_packet (s.log (Event.handle_packet
          (bytes "M" ++ addr ++ bytes "," ++ len ++ bytes ":" ++ hex))) (bytes "E22"),
          RSState.RS_IDLE)
      else
        match target_memory_rw_debug E (s.log (Event.handle_packet
            (bytes "M" ++ addr ++ bytes "," ++ len ++ bytes ":" ++ hex)))
            s.g_thread_id (memory_address E addr)
            (memcpy E.uninit_mem_buf 0 (pyrebox_hextomem hex (to_int (hex_value len)).toNat))
            (to_int (hex_value len)) true with
        | none => none
        | some (s, _, res) =>
          if res = 0 then some (pyrebox_put_packet s (bytes "E14"), RSState.RS_IDLE)
          else some (pyrebox_put_packet s (bytes "OK"), RSState.RS_IDLE) := by
    rw [hline, handle_packet_M E s _ hnz]
    simp only [h1, skip_char_cons, h2, h3, if_false, memory_address, h1e]
    rfl
  have hlong_ge : 2 * hex_value len ≤ hex.length →
      to_int (hex_value len) = (hex_value len : Int) ∧
      ¬ (hex.length / 2 < to_unsigned 64 ((hex_value len : Nat) : Int)) := by
    intro hlong
    have hsmall : hex_value len < 2 ^ 31 := by omega
    refine ⟨to_int_of_lt _ hsmall, ?_⟩
    simp only [to_unsigned]
    omega
  refine ⟨?_, ?_, ?_, ?_⟩
  · intro hshort
    have hlt : hex.length / 2 < to_unsigned 64 (to_int (hex_value len)) := by
      simp only [to_unsigned, to_int]
      have hm : hex_value len % 2 ^ 32 = hex_value len := Nat.mod_eq_of_lt h32
      rw [hm]
      split <;> omega
    rw [hbase, if_pos hlt, reply_sends s _ _ (by decide) (by decide) hlp]
    rfl
  · intro hlong hc
    obtain ⟨h4, hge⟩ := hlong_ge hlong
    rw [hbase, h4, if_neg hge]
    simp only [target_memory_rw_debug, hc, Bool.not_false, if_true]
    rw [reply_sends s _ (bytes "E14") (by decide) (by decide) hlp]
    rfl
  · intro hlong hc hth reply hreply
    have hnone : s.current_threads.isNone = false := isNone_of_ne_none _ hth
    obtain ⟨h4, hge⟩ := hlong_ge hlong
    have hmc : (memcpy E.uninit_mem_buf 0 (pyrebox_hextomem hex (hex_value len))).take
        (hex_value len) = pyrebox_hextomem (hex.take (2 * hex_value len)) (hex_value len) := by
      have := memcpy_eq (pyrebox_hextomem hex (hex_value len)) E.uninit_mem_buf 0 (by
        rw [hmem, hextomem_length]; simp only [MAX_PACKET_LENGTH]; omega)
      rw [this, ← hextomem_take]
      simp [hextomem_length]
    rw [hbase, h4, if_neg hge]
    simp only [target_memory_rw_debug, hc, hnone, Bool.not_true, Bool.false_eq_true, if_false,
      Int.toNat_ofNat, hmc, if_true, GDBState.log]
    have hrn : ∀ c ∈ reply, c ≠ 0 := by
      rw [hreply]; split <;> decide
    have hrl : reply.length ≤ MAX_PACKET_LENGTH := by
      rw [hreply]; split <;> decide
    cases hr : E.gdb_memory_rw_debug s.g_thread_id s.current_threads (memory_address E addr)
        (hex_value len)
        (some (pyrebox_hextomem (hex.take (2 * hex_value len)) (hex_value len))) true with
    | none =>
      rw [hr] at hreply
      simp only [rw_result, if_true] at hreply
      simp only [if_true]
      rw [List.append_assoc s.trace, ← hreply, put_packet_after s _ reply hrn hrl hlp]
      simp only [List.append_assoc, List.cons_append, List.nil_append]
    | some ret =>
      rw [hr] at hreply
      simp only [rw_result] at hreply
      simp only []
      by_cases h0 : to_int ret.length = 0
      · rw [if_pos h0] at hreply
        rw [if_pos h0, List.append_assoc s.trace, ← hreply,
          put_packet_after s _ reply hrn hrl hlp]
        simp only [List.append_assoc, List.cons_append, List.nil_append]
      · rw [if_neg h0] at hreply
        rw [if_neg h0, List.append_assoc s.trace, ← hreply,
          put_packet_after s _ reply hrn hrl hlp]
        simp only [List.append_assoc, List.cons_append, List.nil_append]
  · intro hlong hc hth
    obtain ⟨h4, hge⟩ := hlong_ge hlong
    rw [hbase, h4, if_neg hge]
    simp only [target_memory_rw_debug, hc, GDBState.log, hth, Option.isNone_none, Bool.not_true,
      Bool.false_eq_true, if_false, if_true]

theorem write_memory_reply_witness :
    is_hex_field (bytes "10ab") ∧ is_hex_field (bytes "2") ∧ hex_value (bytes "2") < 2 ^ 32 ∧
    (bytes "cde").length < 2 * hex_value (bytes "2") ∧
    2 * hex_value (bytes "2") ≤ (bytes "cdef").length ∧
    demo_env.callable VmiFunction.gdb_memory_rw_debug = true ∧
    threads_session.current_threads = some [7, 8, 9] ∧
    pyrebox_gdb_handle_packet demo_env threads_session (bytes "M10ab,2:cde") =
      some ({ threads_session with
          last_packet := bytes "$E22#a9" ++ List.replicate 4093 0,
          last_packet_len := 7,
          trace := [Event.handle_packet (bytes "M10ab,2:cde"),
                    Event.put_buffer (bytes "$E22#a9")] }, RSState.RS_IDLE) ∧
    pyrebox_gdb_handle_packet demo_env threads_session (bytes "M10ab,2:cdef") =
      some ({ threads_session with
          last_packet := bytes "$OK#9a" ++ List.replicate 4094 0,
          last_packet_len := 6,
          trace := [Event.handle_packet (bytes "M10ab,2:cdef"),
                    Event.py_gdb_memory_rw_debug 0 (some [7, 8, 9]) 0x10ab 2
                      (some [0xcd, 0xef]) true,
                    Event.put_buffer (bytes "$OK#9a")] }, RSState.RS_IDLE) :=
  ⟨⟨by decide, by decide⟩, ⟨by decide, by decide⟩, by decide, by decide, by decide, rfl, rfl,
    (write_memory_reply demo_env threads_session (bytes "10ab") (bytes "2") (bytes "cde")
      ⟨by decide, by decide⟩ ⟨by decide, by decide⟩ (by decide) (by decide) (by decide) (by
        show (List.replicate 4096 0).length = 4096
        rw [List.length_replicate]) (by
        show (List.replicate 4100 0).length = 4100
        rw [List.length_replicate])).1 (by decide),
    (write_memory_reply demo_env threads_session (bytes "10ab") (bytes "2") (bytes "cdef")
      ⟨by decide, by decide⟩ ⟨by decide, by decide⟩ (by decide) (by decide) (by decide) (by
        show (List.replicate 4096 0).length = 4096
        rw [List.length_replicate]) (by
        show (List.replicate 4100 0).length = 4100
        rw [List.length_replicate])).2.2.1 (by decide) rfl (by decide) (bytes "OK")
        (by decide)⟩

/-- C14, counterexample: in `M10ab,100000001:cd` the 2 characters after `:` are fewer
than twice the declared length `0x100000001`, yet in a stopped session that holds a
thread list the Provider's memory write is called (for 1 byte) and the reply is
`OK`. -/
theorem write_memory_length_wraps :
    is_hex_field (bytes "10ab") ∧ is_hex_field (bytes "100000001") ∧
    (bytes "cd").length < 2 * hex_value (bytes "100000001") ∧
    threads_session.current_threads = some [7, 8, 9] ∧
    (pyrebox_gdb_handle_packet demo_env threads_session
        (bytes "M10ab,100000001:cd")).map (fun r => r.1.trace) =
      some [Event.handle_packet (bytes "M10ab,100000001:cd"),
            Event.py_gdb_memory_rw_debug 0 (some [7, 8, 9]) 0x10ab 1 (some [0xcd]) true,
            Event.put_buffer (bytes "$OK#9a")] :=
  ⟨⟨by decide, by decide⟩, ⟨by decide, by decide⟩, by decide, rfl, by decide⟩

/-- C15: reply of `g`.  Take a session that holds a thread list, a Provider with a
callable register read, and `N` core registers whose reads for the other-selected
thread return the byte strings `r_0 .. r_{N-1}` (of any widths) with a total that fits
the array `mem_buf` (`MAX_PACKET_LENGTH` = 4096 bytes).  `g` reads the registers in
index order.  When the total is at most 2048 bytes the reply payload is the lowercase
hex text of `r_0 ++ r_1 ++ ... ++ r_{N-1}`.  When the total is above 2048 bytes, the
`2 * total + 1` characters that `pyrebox_memtohex` writes do not fit the array `buf`
(`MAX_PACKET_LENGTH + 1` characters): the write runs past its end and there is no
reply.  The arrays `mem_buf` and `last_packet` have their declared sizes and `N` is an
`int`. -/
theorem read_registers_reply (E : Env) (s : GDBState) (regs : List (List Nat))
    (hc : E.callable VmiFunction.gdb_read_thread_register = true)
    (hth : s.current_threads ≠ none)
    (hn : s.gdb_num_regs = (regs.length : Int)) (hN : regs.length < 2 ^ 31)
    (hE : ∀ i, i < regs.length →
      E.gdb_read_thread_register s.g_thread_id s.current_threads i = regs[i]?)
    (hb : ∀ x ∈ regs.flatten, x < 256)
    (hfit : regs.flatten.length ≤ MAX_PACKET_LENGTH)
    (hmem : E.uninit_mem_buf.length = MAX_PACKET_LENGTH)
    (hlp : s.last_packet.length = MAX_PACKET_LENGTH + 4) :
    (regs.flatten.length ≤ MAX_PACKET_LENGTH / 2 →
      pyrebox_gdb_handle_packet E s (bytes "g") =
        some ({ s with
            last_packet := frame_of (hex_encode regs.flatten) ++
              s.last_packet.drop (2 * regs.flatten.length + 4),
            last_packet_len := 2 * regs.flatten.length + 4,
            trace := s.trace ++ [Event.handle_packet (bytes "g")] ++
              register_reads s.g_thread_id s.current_threads 0 regs.length ++
              [Event.put_buffer (frame_of (hex_encode regs.flatten))] }, RSState.RS_IDLE)) ∧
    (MAX_PACKET_LENGTH / 2 < regs.flatten.length →
      pyrebox_gdb_handle_packet E s (bytes "g") = none) := by
  have hloop := read_all_eq E hc regs (s.log (Event.handle_packet (bytes "g"))) 0
    E.uninit_mem_buf 0 hth
    (by show s.gdb_num_regs = _; rw [hn, Nat.zero_add])
    (by omega)
    (by intro i hi; rw [Nat.zero_add]; exact hE i hi)
    (by rw [hmem, Nat.zero_add]; exact hfit)
  have htn : s.gdb_num_regs.toNat = regs.length := by rw [hn]; rfl
  have hmc : memcpy E.uninit_mem_buf 0 regs.flatten =
      regs.flatten ++ E.uninit_mem_buf.drop regs.flatten.length := by
    have := memcpy_eq regs.flatten E.uninit_mem_buf 0 (by
      rw [hmem]; omega)
    simpa using this
  constructor
  · intro htot
    have hnof : ¬ (MAX_PACKET_LENGTH + 1 < 2 * regs.flatten.length + 1) := by
      simp only [MAX_PACKET_LENGTH] at htot ⊢; omega
    rw [handle_packet_g, htn]
    rw [show ((0 : Int)) = ((0 : Nat) : Int) from rfl, hloop]
    simp only [hnof, if_false, Nat.zero_add, hmc]
    rw [memtohex_encode _ _ hb, put_packet_nul _ _ _ (hex_encode_ne_zero _ hb)]
    have hl : (hex_encode regs.flatten).length ≤ MAX_PACKET_LENGTH := by
      rw [hex_encode_length]; simp only [MAX_PACKET_LENGTH] at htot ⊢; omega
    have := put_packet_after s
      ([Event.handle_packet (bytes "g")] ++
        register_reads s.g_thread_id s.current_threads 0 regs.length)
      (hex_encode regs.flatten) (hex_encode_ne_zero _ hb) hl hlp
    rw [hex_encode_length] at this
    simp only [GDBState.log, List.append_assoc] at this ⊢
    rw [this]
  · intro htot
    have hof : MAX_PACKET_LENGTH + 1 < 2 * regs.flatten.length + 1 := by
      simp only [MAX_PACKET_LENGTH] at htot ⊢; omega
    rw [handle_packet_g, htn]
    rw [show ((0 : Int)) = ((0 : Nat) : Int) from rfl, hloop]
    simp only [Nat.zero_add, hof, if_true]

/-- C15, instances: the four registers of widths 4, 4, 8 and 4 of the example, and
the failing input, one register of 2049 bytes, for which `g` has no reply. -/
theorem read_registers_reply_witness :
    four_regs_env.callable VmiFunction.gdb_read_thread_register = true ∧
    regs_session.current_threads = some [7, 8, 9] ∧
    regs_session.gdb_num_regs = 4 ∧
    (∀ i, i < 4 → four_regs_env.gdb_read_thread_register 0 (some [7, 8, 9]) i =
      [[1, 2, 3, 4], [5, 6, 7, 8], [9, 10, 11, 12, 13, 14, 15, 16], [17, 18, 19, 20]][i]?) ∧
    pyrebox_gdb_handle_packet four_regs_env regs_session (bytes "g") =
      some ({ regs_session with
          last_packet := bytes "$0102030405060708090a0b0c0d0e0f1011121314#f1" ++
            List.replicate 4056 0,
          last_packet_len := 44,
          trace := [Event.handle_packet (bytes "g"),
            Event.py_gdb_read_thread_register 0 (some [7, 8, 9]) 0,
            Event.py_gdb_read_thread_register 0 (some [7, 8, 9]) 1,
            Event.py_gdb_read_thread_register 0 (some [7, 8, 9]) 2,
            Event.py_gdb_read_thread_register 0 (some [7, 8, 9]) 3,
            Event.put_buffer (bytes "$0102030405060708090a0b0c0d0e0f1011121314#f1")] },
        RSState.RS_IDLE) ∧
    one_reg_session.gdb_num_regs = 1 ∧
    wide_register_env.gdb_read_thread_register 0 (some [7, 8, 9]) 0 =
      some (List.replicate 2049 0) ∧
    pyrebox_gdb_handle_packet wide_register_env one_reg_session (bytes "g") = none :=
  ⟨rfl, rfl, rfl, fun _ _ => rfl,
    (read_registers_reply four_regs_env regs_session
      [[1, 2, 3, 4], [5, 6, 7, 8], [9, 10, 11, 12, 13, 14, 15, 16], [17, 18, 19, 20]]
      rfl (by decide) rfl (by decide) (fun _ _ => rfl) (by decide) (by decide) (by
        show (List.replicate 4096 0).length = 4096
        rw [List.length_replicate]) (by
        show (List.replicate 4100 0).length = 4100
        rw [List.length_replicate])).1 (by decide),
    rfl, rfl,
    (read_registers_reply wide_register_env one_reg_session [List.replicate 2049 0]
      rfl (by decide) rfl (by decide) (fun _ _ => rfl)
      (by
        intro x hx
        simp only [List.flatten, List.append_nil] at hx
        rw [List.eq_of_mem_replicate hx]
        decide)
      (by
        show ([List.replicate 2049 0].flatten).length ≤ 4096
        simp only [List.flatten, List.append_nil, List.length_replicate]
        decide)
      (by
        show (List.replicate 4096 0).length = 4096
        rw [List.length_replicate]) (by
        show (List.replicate 4100 0).length = 4100
        rw [List.length_replicate])).2 (by
        show 4096 / 2 < ([List.replicate 2049 0].flatten).length
        simp only [List.flatten, List.append_nil, List.length_replicate]
        decide)⟩

/-- C17, at the failing input: the Provider reports the thread `0x100000007` as running
on the first core; the interrupt records it, `Hc-1` sets `c_thread_id` to 0, but `Hg0`
sets `g_thread_id` to 7, the low 32 bits of the recorded identifier, and replies
`OK`. -/
theorem select_running_thread_truncated :
    (pyrebox_gdb_chr_receive wide_env (fresh_session 0 true) (3 :: bytes "+$Hc-1#09")).map
      (fun s => (s.currently_running_thread, s.c_thread_id)) = some (0x100000007, 0) ∧
    (pyrebox_gdb_chr_receive wide_env (fresh_session 0 true) (3 :: bytes "+$Hg0#df")).map
      (fun s => (s.currently_running_thread, s.g_thread_id, s.trace)) =
      some (0x100000007, 7,
        [Event.vm_stop, Event.py_get_threads,
          Event.py_get_running_thread_first_cpu (some [0x100000007, 8, 9]),
          Event.put_buffer (bytes "$T05thread:100000007;#5e"),
          Event.put_buffer (bytes "+"),
          Event.handle_packet (bytes "Hg0"),
          Event.put_buffer (bytes "$OK#9a")]) := by
  decide


/-- C18, at the failing input: for the thread identifier `0x100000001`, `Hg100000001`
sets `g_thread_id` to 1 and `Hc100000001` sets `c_thread_id` to 1 (both reply `OK`): the
upper 32 bits are lost in the `uint32_t` variable `thread`. -/
theorem select_thread_truncated :
    (pyrebox_gdb_handle_packet demo_env (fresh_session 0 false) (bytes "Hg100000001")).map
      (fun r => (r.1.g_thread_id, r.1.trace)) =
      some (1, [Event.handle_packet (bytes "Hg100000001"), Event.put_buffer (bytes "$OK#9a")]) ∧
    (pyrebox_gdb_handle_packet demo_env (fresh_session 0 false) (bytes "Hc100000001")).map
      (fun r => (r.1.c_thread_id, r.1.trace)) =
      some (1, [Event.handle_packet (bytes "Hc100000001"), Event.put_buffer (bytes "$OK#9a")]) := by
  decide

/-- C19: the two thread selections are independent.  `Hc<thread>` changes `c_thread_id`
and the reply fields only, so `g_thread_id` is unchanged; `Hg<thread>` changes
`g_thread_id` and the reply fields only, so `c_thread_id` is unchanged; `H<x><thread>`
with a selector `x` other than `c` and `g` replies `E22` and changes neither. -/
theorem thread_selections_independent (E : Env) (s : GDBState) (x : Nat) (thread : List Nat)
    (hx : x ≠ 0) (ht : ∀ c ∈ thread, c ≠ 0)
    (hlp : s.last_packet.length = MAX_PACKET_LENGTH + 4) :
    pyrebox_gdb_handle_packet E s (bytes "Hc" ++ thread) =
      some ({ s with
          c_thread_id := selected_thread s thread,
          last_packet := frame_of (bytes "OK") ++ s.last_packet.drop 6,
          last_packet_len := 6,
          trace := s.trace ++ [Event.handle_packet (bytes "Hc" ++ thread),
            Event.put_buffer (frame_of (bytes "OK"))] }, RSState.RS_IDLE) ∧
    pyrebox_gdb_handle_packet E s (bytes "Hg" ++ thread) =
      some ({ s with
          g_thread_id := selected_thread s thread,
          last_packet := frame_of (bytes "OK") ++ s.last_packet.drop 6,
          last_packet_len := 6,
          trace := s.trace ++ [Event.handle_packet (bytes "Hg" ++ thread),
            Event.put_buffer (frame_of (bytes "OK"))] }, RSState.RS_IDLE) ∧
    (x ≠ 99 → x ≠ 103 →
      pyrebox_gdb_handle_packet E s (bytes "H" ++ x :: thread) =
        some ({ s with
            last_packet := frame_of (bytes "E22") ++ s.last_packet.drop 7,
            last_packet_len := 7,
            trace := s.trace ++ [Event.handle_packet (bytes "H" ++ x :: thread),
              Event.put_buffer (frame_of (bytes "E22"))] }, RSState.RS_IDLE)) := by
  refine ⟨?_, ?_, ?_⟩
  · show pyrebox_gdb_handle_packet E s (72 :: 99 :: thread) = _
    rw [handle_packet_H E s _ (cons_ne_zero 99 thread (by decide) ht)]
    have := put_packet_after { s with c_thread_id := selected_thread s thread }
      [Event.handle_packet (72 :: 99 :: thread)] (bytes "OK") (by decide) (by decide) hlp
    simp only [peek, List.headD_cons, if_true, List.tail_cons, GDBState.log] at this ⊢
    rw [this]
    simp only [List.append_assoc, List.cons_append, List.nil_append]
    rfl
  · show pyrebox_gdb_handle_packet E s (72 :: 103 :: thread) = _
    rw [handle_packet_H E s _ (cons_ne_zero 103 thread (by decide) ht)]
    have := put_packet_after { s with g_thread_id := selected_thread s thread }
      [Event.handle_packet (72 :: 103 :: thread)] (bytes "OK") (by decide) (by decide) hlp
    have h1 : ¬ ((103 : Nat) = 99) := by decide
    simp only [peek, List.headD_cons, h1, if_false, if_true, List.tail_cons, GDBState.log]
      at this ⊢
    rw [this]
    simp only [List.append_assoc, List.cons_append, List.nil_append]
    rfl
  · intro h99 h103
    show pyrebox_gdb_handle_packet E s (72 :: x :: thread) = _
    rw [handle_packet_H E s _ (cons_ne_zero x thread hx ht)]
    simp only [peek, List.headD_cons, h99, h103, if_false]
    rw [reply_sends s _ _ (by decide) (by decide) hlp]
    rfl

theorem thread_selections_independent_witness :
    (120 : Nat) ≠ 0 ∧ (120 : Nat) ≠ 99 ∧ (120 : Nat) ≠ 103 ∧
    pyrebox_gdb_handle_packet demo_env { fresh_session 0 false with g_thread_id := 8 }
        (bytes "Hc7") =
      some ({ fresh_session 0 false with
          c_thread_id := 7, g_thread_id := 8,
          last_packet := bytes "$OK#9a" ++ List.replicate 4094 0,
          last_packet_len := 6,
          trace := [Event.handle_packet (bytes "Hc7"), Event.put_buffer (bytes "$OK#9a")] },
        RSState.RS_IDLE) ∧
    pyrebox_gdb_handle_packet demo_env { fresh_session 0 false with c_thread_id := 8 }
        (bytes "Hg7") =
      some ({ fresh_session 0 false with
          c_thread_id := 8, g_thread_id := 7,
          last_packet := bytes "$OK#9a" ++ List.replicate 4094 0,
          last_packet_len := 6,
          trace := [Event.handle_packet (bytes "Hg7"), Event.put_buffer (bytes "$OK#9a")] },
        RSState.RS_IDLE) ∧
    pyrebox_gdb_handle_packet demo_env
        { fresh_session 0 false with c_thread_id := 8, g_thread_id := 9 } (bytes "Hx7") =
      some ({ fresh_session 0 false with
          c_thread_id := 8, g_thread_id := 9,
          last_packet := bytes "$E22#a9" ++ List.replicate 4093 0,
          last_packet_len := 7,
          trace := [Event.handle_packet (bytes "Hx7"), Event.put_buffer (bytes "$E22#a9")] },
        RSState.RS_IDLE) :=
  ⟨by decide, by decide, by decide,
    (thread_selections_independent demo_env { fresh_session 0 false with g_thread_id := 8 }
      120 (bytes "7") (by decide) (by decide) (by
        show (List.replicate 4100 0).length = 4100
        rw [List.length_replicate])).1,
    (thread_selections_independent demo_env { fresh_session 0 false with c_thread_id := 8 }
      120 (bytes "7") (by decide) (by decide) (by
        show (List.replicate 4100 0).length = 4100
        rw [List.length_replicate])).2.1,
    (thread_selections_independent demo_env
      { fresh_session 0 false with c_thread_id := 8, g_thread_id := 9 }
      120 (bytes "7") (by decide) (by decide) (by
        show (List.replicate 4100 0).length = 4100
        rw [List.length_replicate])).2.2 (by decide) (by decide)⟩

/-- C20: thread enumeration.  With `N` threads in the session (`N` an `unsigned int`
count), `qfThreadInfo` followed by `k` commands `qsThreadInfo`, for every `k` and from
every earlier cursor, returns and yields in order the replies of the ordinals
`0 .. k`: `m<hex id>` for an ordinal below `N` (the identifier asked from the Provider)
and `l` for every ordinal from `N` on.  The cursor `query_thread` ends at
`min (k + 1) N`, so it never exceeds `N`, and the thread list is unchanged. -/
theorem thread_enumeration (E : Env) (s : GDBState) (k : Nat)
    (hN : s.number_of_current_threads < 2 ^ 32)
    (hlp : s.last_packet.length = MAX_PACKET_LENGTH + 4) :
    ∃ s1, dispatch_all E s (bytes "qfThreadInfo" :: List.replicate k (bytes "qsThreadInfo")) =
        some s1 ∧
      s1.trace = s.trace ++
        thread_info_events E s.current_threads s.number_of_current_threads
          (bytes "qfThreadInfo") 0 ++
        thread_info_trace E s.current_threads s.number_of_current_threads 1 k ∧
      sent_packets s1.trace = sent_packets s.trace ++
        (List.range (k + 1)).map (fun i =>
          frame_of (thread_info_reply E s.current_threads s.number_of_current_threads i)) ∧
      s1.query_thread = min (k + 1) s.number_of_current_threads ∧
      s1.query_thread ≤ s.number_of_current_threads ∧
      s1.current_threads = s.current_threads ∧
      s1.number_of_current_threads = s.number_of_current_threads := by
  have hok := thread_info_reply_ok E s.current_threads s.number_of_current_threads 0
  have hstep := thread_info_step_f E s hlp
  obtain ⟨t1, h1, h2, h3, h4, h5, _, _⟩ := thread_info_run E k
    ({ s with
        query_thread := if 0 < s.number_of_current_threads then 1 else 0,
        last_packet := frame_of (thread_info_reply E s.current_threads
            s.number_of_current_threads 0) ++
          s.last_packet.drop ((thread_info_reply E s.current_threads
            s.number_of_current_threads 0).length + 4),
        last_packet_len := (thread_info_reply E s.current_threads
            s.number_of_current_threads 0).length + 4,
        trace := s.trace ++ thread_info_events E s.current_threads
          s.number_of_current_threads (bytes "qfThreadInfo") 0 } : GDBState)
    hN
    (by
      show (frame_of _ ++ List.drop _ s.last_packet).length = _
      rw [List.length_append, frame_of_length, List.length_drop, hlp]
      have := hok.2
      simp only [MAX_PACKET_LENGTH] at this ⊢
      omega)
    (by
      show (if 0 < s.number_of_current_threads then 1 else 0) ≤ s.number_of_current_threads
      split <;> omega)
  have htr : t1.trace = s.trace ++
      thread_info_events E s.current_threads s.number_of_current_threads
        (bytes "qfThreadInfo") 0 ++
      thread_info_trace E s.current_threads s.number_of_current_threads 1 k := by
    rw [h2]
    show s.trace ++ _ ++ thread_info_trace E s.current_threads s.number_of_current_threads
      (if 0 < s.number_of_current_threads then 1 else 0) k = _
    congr 1
    by_cases hlt : 0 < s.number_of_current_threads
    · rw [if_pos hlt]
    · rw [if_neg hlt]
      exact thread_info_trace_past E _ _ k _ _ (by omega) (by omega)
  have hq : t1.query_thread = min (k + 1) s.number_of_current_threads := by
    rw [h3]
    show min ((if 0 < s.number_of_current_threads then 1 else 0) + k)
      s.number_of_current_threads = _
    split <;> omega
  refine ⟨t1, ?_, htr, ?_, hq, ?_, h4, h5⟩
  · show (match pyrebox_gdb_handle_packet E s (bytes "qfThreadInfo") with
      | some r => dispatch_all E r.1 (List.replicate k (bytes "qsThreadInfo"))
      | none => none) = some t1
    rw [hstep]
    exact h1
  · rw [htr, sent_packets_append, sent_packets_append, sent_thread_info_events,
      sent_thread_info_trace, List.append_assoc, List.range_eq_range', List.range'_succ]
    rfl
  · rw [hq]
    exact Nat.min_le_right _ _

theorem thread_enumeration_witness :
    threads_session.number_of_current_threads < 2 ^ 32 ∧
    threads_session.last_packet.length = MAX_PACKET_LENGTH + 4 ∧
    ∃ s1, dispatch_all demo_env threads_session
        (bytes "qfThreadInfo" :: List.replicate 4 (bytes "qsThreadInfo")) = some s1 ∧
      sent_packets s1.trace =
        [bytes "$m7#a4", bytes "$m8#a5", bytes "$m9#a6", bytes "$l#6c", bytes "$l#6c"] ∧
      s1.query_thread = 3 := by
  have hlp : threads_session.last_packet.length = MAX_PACKET_LENGTH + 4 := by
    show (List.replicate 4100 0).length = 4100
    rw [List.length_replicate]
  obtain ⟨s1, h1, _, h3, h4, _⟩ := thread_enumeration demo_env threads_session 4 (by decide) hlp
  exact ⟨by decide, hlp, s1, h1, h3.trans (by decide), h4.trans (by decide)⟩

/-- C30: hex encoding.  For every sequence `b` of `len` bytes at the start of
`mem`, `pyrebox_memtohex` writes exactly `2 * len` characters and then a NUL;
characters `2 * i` and `2 * i + 1` are the digits of the high and of the low
nybble of byte `i`, each one of `0123456789abcdef`. -/
theorem memtohex_digits (b rest : List Nat) (hb : ∀ x ∈ b, x < 256) :
    (pyrebox_memtohex (b ++ rest) b.length).length = 2 * b.length + 1 ∧
    (pyrebox_memtohex (b ++ rest) b.length)[2 * b.length]? = some 0 ∧
    ∀ (i : Nat) (h : i < b.length),
      (pyrebox_memtohex (b ++ rest) b.length)[2 * i]? = some (hex_digit (b[i] / 16)) ∧
      (pyrebox_memtohex (b ++ rest) b.length)[2 * i + 1]? = some (hex_digit (b[i] % 16)) ∧
      hex_digit (b[i] / 16) ∈ bytes "0123456789abcdef" ∧
      hex_digit (b[i] % 16) ∈ bytes "0123456789abcdef" := by
  rw [memtohex_encode rest b hb]
  have hl := hex_encode_length b
  refine ⟨by rw [List.length_append, hl]; rfl, ?_, ?_⟩
  · rw [List.getElem?_append_right (by omega), hl, Nat.sub_self]
    rfl
  · intro i h
    have hx : b[i] < 256 := hb _ (List.getElem_mem _)
    obtain ⟨h1, h2⟩ := hex_encode_get b i h
    refine ⟨?_, ?_, hex_digit_mem _ (by omega), hex_digit_mem _ (by omega)⟩
    · rw [List.getElem?_append_left (by omega)]; exact h1
    · rw [List.getElem?_append_left (by omega)]; exact h2

theorem memtohex_digits_witness :
    (∀ x ∈ [0xde, 0xad, 0xbe, 0xef], x < 256) ∧
    pyrebox_memtohex ([0xde, 0xad, 0xbe, 0xef] ++ [7, 7]) 4 = bytes "deadbeef" ++ [0] ∧
    (pyrebox_memtohex ([0xde, 0xad, 0xbe, 0xef] ++ [7, 7]) 4).length = 2 * 4 + 1 ∧
    (pyrebox_memtohex ([0xde, 0xad, 0xbe, 0xef] ++ [7, 7]) 4)[2 * 1]? = some (hex_digit 10) :=
  ⟨by decide, by decide,
    (memtohex_digits [0xde, 0xad, 0xbe, 0xef] [7, 7] (by decide)).1,
    (((memtohex_digits [0xde, 0xad, 0xbe, 0xef] [7, 7] (by decide)).2.2 1 (by decide)).1).trans
      (by decide)⟩

/-- C25, at the failing input: in a stopped session that holds a thread list, on a
64-bit target, `m80000000,4` asks the Provider to read at `0xffffffff80000000` (the
`int` variable `addr` is sign-extended), not at `0x80000000`, and `m100000000,4` asks
it to read at 0; `mffffffff80000000,4` reads at `0xffffffff80000000`. -/
theorem read_memory_address_sign_extended :
    demo_env.target_long_bits = 64 ∧
    threads_session.current_threads = some [7, 8, 9] ∧
    (pyrebox_gdb_handle_packet demo_env threads_session
        (bytes "m80000000,4")).map (fun r => r.1.trace) =
      some [Event.handle_packet (bytes "m80000000,4"),
            Event.py_gdb_memory_rw_debug 0 (some [7, 8, 9]) 0xffffffff80000000 4 none false,
            Event.put_buffer (bytes "$00000000#80")] ∧
    (pyrebox_gdb_handle_packet demo_env threads_session
        (bytes "m100000000,4")).map (fun r => r.1.trace) =
      some [Event.handle_packet (bytes "m100000000,4"),
            Event.py_gdb_memory_rw_debug 0 (some [7, 8, 9]) 0 4 none false,
            Event.put_buffer (bytes "$00000000#80")] ∧
    (pyrebox_gdb_handle_packet demo_env threads_session
        (bytes "mffffffff80000000,4")).map (fun r => r.1.trace) =
      some [Event.handle_packet (bytes "mffffffff80000000,4"),
            Event.py_gdb_memory_rw_debug 0 (some [7, 8, 9]) 0xffffffff80000000 4 none false,
            Event.put_buffer (bytes "$00000000#80")] := by
  decide

/-- C28 (amended): the command line `qqemu.sstepbits` (the query letter `q`, then the
name `qemu.sstepbits`) is answered with the bit values `ENABLE=1,NOIRQ=2,NOTIMER=4`,
and a command line `qqemu.sstep=<hex>` is answered `OK` and sets the single-step flags
to the given value, stored in an `int` (the value itself when below `2^31`). -/
theorem sstep_queries (E : Env) (s : GDBState) (v : List Nat) (hv : is_hex_field v)
    (h64 : hex_value v < 2 ^ 64)
    (hlp : s.last_packet.length = MAX_PACKET_LENGTH + 4) :
    pyrebox_gdb_handle_packet E s (bytes "qqemu.sstepbits") =
      some ({ s with
          last_packet := frame_of (bytes "ENABLE=1,NOIRQ=2,NOTIMER=4") ++ s.last_packet.drop 30,
          last_packet_len := 30,
          trace := s.trace ++ [Event.handle_packet (bytes "qqemu.sstepbits"),
            Event.put_buffer (frame_of (bytes "ENABLE=1,NOIRQ=2,NOTIMER=4"))] },
        RSState.RS_IDLE) ∧
    pyrebox_gdb_handle_packet E s (bytes "qqemu.sstep=" ++ v) =
      some ({ s with
          sstep_flags := to_int (hex_value v),
          last_packet := frame_of (bytes "OK") ++ s.last_packet.drop 6,
          last_packet_len := 6,
          trace := s.trace ++ [Event.handle_packet (bytes "qqemu.sstep=" ++ v),
            Event.put_buffer (frame_of (bytes "OK"))] }, RSState.RS_IDLE) ∧
    (hex_value v < 2 ^ 31 → to_int (hex_value v) = (hex_value v : Int)) := by
  refine ⟨?_, ?_, fun h => to_int_of_lt _ h⟩
  · show pyrebox_gdb_handle_packet E s (113 :: bytes "qemu.sstepbits") = _
    rw [handle_packet_q E s _ (by decide), query_sstepbits,
      reply_sends s _ _ (by decide) (by decide) hlp]
    rfl
  · show pyrebox_gdb_handle_packet E s (113 :: (bytes "qemu.sstep=" ++ v)) = _
    have hnz : ∀ c ∈ bytes "qemu.sstep=" ++ v, c ≠ 0 := by
      intro c hc
      rcases List.mem_append.1 hc with h | h
      · have key : ∀ c ∈ bytes "qemu.sstep=", c ≠ 0 := by decide
        exact key c h
      · exact field_ne_zero v hv c h
    have h3 : ¬ (2 ^ 64 ≤ hex_value v) := by omega
    rw [handle_packet_q E s _ hnz, query_sstep_set _ _ v hv, if_neg h3]
    have := put_packet_after { s with sstep_flags := to_int (hex_value v) }
      [Event.handle_packet (113 :: (bytes "qemu.sstep=" ++ v))] (bytes "OK") (by decide)
      (by decide) hlp
    simp only [GDBState.log] at this ⊢
    rw [this]
    simp only [List.append_assoc, List.cons_append, List.nil_append]
    rfl

theorem sstep_queries_witness :
    is_hex_field (bytes "3") ∧ hex_value (bytes "3") < 2 ^ 64 ∧
    pyrebox_gdb_handle_packet demo_env (fresh_session 0 false) (bytes "qqemu.sstepbits") =
      some ({ fresh_session 0 false with
          last_packet := bytes "$ENABLE=1,NOIRQ=2,NOTIMER=4#f4" ++ List.replicate 4070 0,
          last_packet_len := 30,
          trace := [Event.handle_packet (bytes "qqemu.sstepbits"),
            Event.put_buffer (bytes "$ENABLE=1,NOIRQ=2,NOTIMER=4#f4")] }, RSState.RS_IDLE) ∧
    pyrebox_gdb_handle_packet demo_env (fresh_session 0 false) (bytes "qqemu.sstep=3") =
      some ({ fresh_session 0 false with
          sstep_flags := 3,
          last_packet := bytes "$OK#9a" ++ List.replicate 4094 0,
          last_packet_len := 6,
          trace := [Event.handle_packet (bytes "qqemu.sstep=3"),
            Event.put_buffer (bytes "$OK#9a")] }, RSState.RS_IDLE) :=
  ⟨⟨by decide, by decide⟩, by decide,
    (sstep_queries demo_env (fresh_session 0 false) (bytes "3") ⟨by decide, by decide⟩
      (by decide) (by
        show (List.replicate 4100 0).length = 4100
        rw [List.length_replicate])).1,
    (sstep_queries demo_env (fresh_session 0 false) (bytes "3") ⟨by decide, by decide⟩
      (by decide) (by
        show (List.replicate 4100 0).length = 4100
        rw [List.length_replicate])).2.1⟩

/-- C28, counterexample: the command lines `qemu.sstepbits` and `qemu.sstep=3` (no query
letter before the name) are answered with the empty packet, and the second leaves the
single-step flags as they were. -/
theorem sstep_name_alone_unknown :
    (pyrebox_gdb_handle_packet demo_env (fresh_session 0 false) (bytes "qemu.sstepbits")).map
      (fun r => r.1.trace) =
      some [Event.handle_packet (bytes "qemu.sstepbits"), Event.put_buffer (bytes "$#00")] ∧
    (pyrebox_gdb_handle_packet demo_env (fresh_session 0 false) (bytes "qemu.sstep=3")).map
      (fun r => (r.1.sstep_flags, r.1.trace)) =
      some (7, [Event.handle_packet (bytes "qemu.sstep=3"), Event.put_buffer (bytes "$#00")]) := by
  decide

/-- C23: monitor command.  For every `qRcmd,<hex>` command: if an odd number of
characters follows the comma, the reply is `E01` and nothing is written to the monitor
channel; if the number is even, the monitor channel receives exactly the bytes decoded
from the hex text followed by one NUL, and the reply is `OK`.  What the monitor writes
back while it runs the command is not part of this. -/
theorem monitor_command (E : Env) (s : GDBState) (hex : List Nat) (hh : ∀ c ∈ hex, c ≠ 0)
    (hlp : s.last_packet.length = MAX_PACKET_LENGTH + 4) :
    (hex.length % 2 = 1 →
      pyrebox_gdb_handle_packet E s (bytes "qRcmd," ++ hex) =
        some ({ s with
            last_packet := frame_of (bytes "E01") ++ s.last_packet.drop 7,
            last_packet_len := 7,
            trace := s.trace ++ [Event.handle_packet (bytes "qRcmd," ++ hex),
              Event.put_buffer (frame_of (bytes "E01"))] }, RSState.RS_IDLE)) ∧
    (hex.length % 2 = 0 →
      pyrebox_gdb_handle_packet E s (bytes "qRcmd," ++ hex) =
        some ({ s with
            last_packet := frame_of (bytes "OK") ++ s.last_packet.drop 6,
            last_packet_len := 6,
            trace := s.trace ++ [Event.handle_packet (bytes "qRcmd," ++ hex),
              Event.mon_write (pyrebox_hextomem hex (hex.length / 2) ++ [0]),
              Event.put_buffer (frame_of (bytes "OK"))] }, RSState.RS_IDLE)) := by
  have hline : bytes "qRcmd," ++ hex = 113 :: (bytes "Rcmd," ++ hex) := rfl
  have hnz : ∀ c ∈ bytes "Rcmd," ++ hex, c ≠ 0 := by
    intro c hc
    rcases List.mem_append.1 hc with h | h
    · have key : ∀ c ∈ bytes "Rcmd,", c ≠ 0 := by decide
      exact key c h
    · exact hh c h
  constructor
  · intro hodd
    have hb : (hex.length % 2 != 0) = true := by simp [hodd]
    rw [hline, handle_packet_q E s _ hnz, query_rcmd _ _ hex hh, if_pos hb,
      reply_sends s _ _ (by decide) (by decide) hlp]
    rfl
  · intro heven
    have hb : ¬ ((hex.length % 2 != 0) = true) := by simp [heven]
    rw [hline, handle_packet_q E s _ hnz, query_rcmd _ _ hex hh, if_neg hb, log_log,
      put_packet_after s _ (bytes "OK") (by decide) (by decide) hlp]
    simp only [List.append_assoc, List.cons_append, List.nil_append]
    rfl

theorem monitor_command_witness :
    (bytes "696e666f").length % 2 = 0 ∧ (bytes "696e66").length % 2 = 0 ∧
    (bytes "696").length % 2 = 1 ∧
    pyrebox_gdb_handle_packet demo_env (fresh_session 0 false) (bytes "qRcmd,696") =
      some ({ fresh_session 0 false with
          last_packet := bytes "$E01#a6" ++ List.replicate 4093 0,
          last_packet_len := 7,
          trace := [Event.handle_packet (bytes "qRcmd,696"),
            Event.put_buffer (bytes "$E01#a6")] }, RSState.RS_IDLE) ∧
    pyrebox_gdb_handle_packet demo_env (fresh_session 0 false) (bytes "qRcmd,696e666f") =
      some ({ fresh_session 0 false with
          last_packet := bytes "$OK#9a" ++ List.replicate 4094 0,
          last_packet_len := 6,
          trace := [Event.handle_packet (bytes "qRcmd,696e666f"),
            Event.mon_write (bytes "info" ++ [0]),
            Event.put_buffer (bytes "$OK#9a")] }, RSState.RS_IDLE) :=
  ⟨by decide, by decide, by decide,
    (monitor_command demo_env (fresh_session 0 false) (bytes "696") (by decide) (by
        show (List.replicate 4100 0).length = 4100
        rw [List.length_replicate])).1 (by decide),
    (monitor_command demo_env (fresh_session 0 false) (bytes "696e666f") (by decide) (by
        show (List.replicate 4100 0).length = 4100
        rw [List.length_replicate])).2 (by decide)⟩

/-- C29: unknown commands.  The empty packet, the four bytes `$#00`, is the reply to
the empty command line, to every command line whose first character has no case in
the dispatcher, to every `v` command (`vCont?` included) and to every `q` or `Q` query
that none of the query tests takes. -/
theorem unknown_command_reply (E : Env) (s : GDBState) (line p : List Nat)
    (hl : ∀ c ∈ line, c ≠ 0) (hp : ∀ c ∈ p, c ≠ 0)
    (hlp : s.last_packet.length = MAX_PACKET_LENGTH + 4) :
    frame_of [] = bytes "$#00" ∧
    (peek line ∉ command_letters →
      pyrebox_gdb_handle_packet E s line =
        some ({ s with
            last_packet := frame_of [] ++ s.last_packet.drop 4,
            last_packet_len := 4,
            trace := s.trace ++ [Event.handle_packet line, Event.put_buffer (frame_of [])] },
          RSState.RS_IDLE)) ∧
    pyrebox_gdb_handle_packet E s (bytes "v" ++ p) =
      some ({ s with
          last_packet := frame_of [] ++ s.last_packet.drop 4,
          last_packet_len := 4,
          trace := s.trace ++ [Event.handle_packet (bytes "v" ++ p),
            Event.put_buffer (frame_of [])] }, RSState.RS_IDLE) ∧
    (recognised_query E p = false →
      pyrebox_gdb_handle_packet E s (bytes "q" ++ p) =
        some ({ s with
            last_packet := frame_of [] ++ s.last_packet.drop 4,
            last_packet_len := 4,
            trace := s.trace ++ [Event.handle_packet (bytes "q" ++ p),
              Event.put_buffer (frame_of [])] }, RSState.RS_IDLE) ∧
      pyrebox_gdb_handle_packet E s (bytes "Q" ++ p) =
        some ({ s with
            last_packet := frame_of [] ++ s.last_packet.drop 4,
            last_packet_len := 4,
            trace := s.trace ++ [Event.handle_packet (bytes "Q" ++ p),
              Event.put_buffer (frame_of [])] }, RSState.RS_IDLE)) := by
  refine ⟨by decide, ?_, ?_, ?_⟩
  · intro hch
    rw [handle_packet_other E s line hl hch]
    exact empty_reply_sends s line hlp
  · show pyrebox_gdb_handle_packet E s (118 :: p) = _
    rw [handle_packet_v E s p hp]
    split
    · split
      · rw [show bytes "" = [] from rfl, put_packet_empty s _ hlp]
        rfl
      · exact empty_reply_sends s _ hlp
    · exact empty_reply_sends s _ hlp
  · intro hq
    constructor
    · show pyrebox_gdb_handle_packet E s (113 :: p) = _
      rw [handle_packet_q E s p hp, query_unrecognised E _ p hq]
      exact empty_reply_sends s _ hlp
    · show pyrebox_gdb_handle_packet E s (81 :: p) = _
      rw [handle_packet_Q E s p hp, query_unrecognised E _ p hq]
      exact empty_reply_sends s _ hlp

theorem unknown_command_reply_witness :
    peek [] ∉ command_letters ∧ peek (bytes "X1") ∉ command_letters ∧
    recognised_query demo_env (bytes "Offsets") = false ∧
    pyrebox_gdb_handle_packet demo_env (fresh_session 0 false) [] =
      some ({ fresh_session 0 false with
          last_packet := bytes "$#00" ++ List.replicate 4096 0,
          last_packet_len := 4,
          trace := [Event.handle_packet [], Event.put_buffer (bytes "$#00")] },
        RSState.RS_IDLE) ∧
    pyrebox_gdb_handle_packet demo_env (fresh_session 0 false) (bytes "X1") =
      some ({ fresh_session 0 false with
          last_packet := bytes "$#00" ++ List.replicate 4096 0,
          last_packet_len := 4,
          trace := [Event.handle_packet (bytes "X1"), Event.put_buffer (bytes "$#00")] },
        RSState.RS_IDLE) ∧
    pyrebox_gdb_handle_packet demo_env (fresh_session 0 false) (bytes "vCont?") =
      some ({ fresh_session 0 false with
          last_packet := bytes "$#00" ++ List.replicate 4096 0,
          last_packet_len := 4,
          trace := [Event.handle_packet (bytes "vCont?"), Event.put_buffer (bytes "$#00")] },
        RSState.RS_IDLE) ∧
    pyrebox_gdb_handle_packet demo_env (fresh_session 0 false) (bytes "qOffsets") =
      some ({ fresh_session 0 false with
          last_packet := bytes "$#00" ++ List.replicate 4096 0,
          last_packet_len := 4,
          trace := [Event.handle_packet (bytes "qOffsets"), Event.put_buffer (bytes "$#00")] },
        RSState.RS_IDLE) :=
  ⟨by decide, by decide, by decide,
    (unknown_command_reply demo_env (fresh_session 0 false) [] (bytes "Cont?") (by decide)
      (by decide) (by
        show (List.replicate 4100 0).length = 4100
        rw [List.length_replicate])).2.1 (by decide),
    (unknown_command_reply demo_env (fresh_session 0 false) (bytes "X1") (bytes "Cont?")
      (by decide) (by decide) (by
        show (List.replicate 4100 0).length = 4100
        rw [List.length_replicate])).2.1 (by decide),
    (unknown_command_reply demo_env (fresh_session 0 false) [] (bytes "Cont?") (by decide)
      (by decide) (by
        show (List.replicate 4100 0).length = 4100
        rw [List.length_replicate])).2.2.1,
    ((unknown_command_reply demo_env (fresh_session 0 false) [] (bytes "Offsets") (by decide)
      (by decide) (by
        show (List.replicate 4100 0).length = 4100
        rw [List.length_replicate])).2.2.2 (by decide)).1⟩

/-- C21 (amended): stop reason.  Dispatching `?` sends exactly one packet,
`T05thread:<id>;` with `<id>` the lowercase, unpadded hexadecimal identifier of the
thread that the Provider reports as running on the first core for the thread list of
the session (0 when the session holds no thread list or the Provider gives no answer),
records that identifier as the currently running thread, and returns the Idle state.
The Provider call for the running thread and the packet are the only effects: the
primitive `pyrebox_gdb_breakpoint_remove_all` that the dispatcher then calls has an
empty body and asks nothing of the Provider. -/
theorem stop_reason_query (E : Env) (s : GDBState)
    (hlp : s.last_packet.length = MAX_PACKET_LENGTH + 4) :
    pyrebox_gdb_handle_packet E s (bytes "?") =
      some ({ s with
          currently_running_thread := first_core_thread E s,
          last_packet := frame_of (bytes "T05thread:" ++ fmt_x (first_core_thread E s) ++
              bytes ";") ++
            s.last_packet.drop ((bytes "T05thread:" ++ fmt_x (first_core_thread E s) ++
              bytes ";").length + 4),
          last_packet_len := (bytes "T05thread:" ++ fmt_x (first_core_thread E s) ++
              bytes ";").length + 4,
          trace := s.trace ++ Event.handle_packet (bytes "?") ::
            (if s.current_threads.isSome then
              [Event.py_get_running_thread_first_cpu s.current_threads] else []) ++
            [Event.put_buffer (frame_of (bytes "T05thread:" ++
              fmt_x (first_core_thread E s) ++ bytes ";"))] }, RSState.RS_IDLE) ∧
    (∀ tl id, s.current_threads = some tl →
      E.get_running_thread_first_cpu (some tl) = some id → id < 2 ^ 64 →
      first_core_thread E s = id) := by
  constructor
  · have h1 : pyrebox_get_running_thread_first_cpu E (s.log (Event.handle_packet (bytes "?"))) =
        ({ s with trace := s.trace ++ Event.handle_packet (bytes "?") ::
            (if s.current_threads.isSome then
              [Event.py_get_running_thread_first_cpu s.current_threads] else []) },
          first_core_thread E s) := by
      rw [first_cpu_eq]
      simp only [GDBState.log, List.append_assoc, List.cons_append, List.nil_append]
      rfl
    rw [handle_packet_stop_reason, h1]
    simp only
    rw [signal_trap_eq { s with trace := s.trace ++ Event.handle_packet (bytes "?") ::
            (if s.current_threads.isSome then
              [Event.py_get_running_thread_first_cpu s.current_threads] else []) }
      (first_core_thread E s) (first_core_thread_lt E s) hlp]
    simp only [pyrebox_gdb_breakpoint_remove_all, List.append_assoc,
      List.cons_append, List.nil_append]
  · intro tl id htl hid hlt
    simp only [first_core_thread, htl, Option.isSome_some, if_true, hid, Option.getD_some]
    exact Nat.mod_eq_of_lt hlt

theorem stop_reason_query_witness :
    two_threads_session.last_packet.length = MAX_PACKET_LENGTH + 4 ∧
    demo_env.get_running_thread_first_cpu (some [1, 2]) = some 1 ∧
    pyrebox_gdb_handle_packet demo_env two_threads_session (bytes "?") =
      some ({ two_threads_session with
          currently_running_thread := 1,
          last_packet := bytes "$T05thread:1;#d7" ++ List.replicate 4084 0,
          last_packet_len := 16,
          trace := [Event.handle_packet (bytes "?"),
            Event.py_get_running_thread_first_cpu (some [1, 2]),
            Event.put_buffer (bytes "$T05thread:1;#d7")] }, RSState.RS_IDLE) :=
  ⟨by
      show (List.replicate 4100 0).length = 4100
      rw [List.length_replicate], rfl,
    (stop_reason_query demo_env two_threads_session (by
      show (List.replicate 4100 0).length = 4100
      rw [List.length_replicate])).1⟩

/-- C21, counterexample: the effects of `?` in a stopped session with the thread list
`[1, 2]`, in order: the entry of the dispatcher, the Provider call for the thread
running on the first core, and the stop packet.  No removal of breakpoints is
requested of the Provider, and the call of `pyrebox_gdb_breakpoint_remove_all` leaves
the session as it is. -/
theorem stop_reason_requests_no_removal :
    (pyrebox_gdb_handle_packet demo_env two_threads_session (bytes "?")).map
        (fun r => r.1.trace) =
      some [Event.handle_packet (bytes "?"),
            Event.py_get_running_thread_first_cpu (some [1, 2]),
            Event.put_buffer (bytes "$T05thread:1;#d7")] ∧
    pyrebox_gdb_breakpoint_remove_all
        (pyrebox_gdb_signal_trap (two_threads_session.log (Event.handle_packet (bytes "?"))) 1) =
      pyrebox_gdb_signal_trap (two_threads_session.log (Event.handle_packet (bytes "?"))) 1 :=
  ⟨by decide, rfl⟩

/-- C27 (amended): new connection.  When a peer connection is opened
(`CHR_EVENT_OPENED`), whatever the session was before, the target is stopped (the
thread list is fetched from the Provider when the session has none), the thread that
the Provider reports as running on the first core is recorded as the currently running
thread, and `pyrebox_gdb_has_xml` is set to false.  Nothing else changes: the pending
reply (`last_packet`, `last_packet_len`), the parser state and line buffer, and the
thread selections are as before the event, and nothing is sent.  Every other event
leaves the session unchanged. -/
theorem connection_opened (E : Env) (s : GDBState) :
    (∃ (threads : Option (List Nat)) (count : Nat),
      pyrebox_gdb_chr_event E s ChrEvent.CHR_EVENT_OPENED =
        { s with runstate_running := false, vm_is_running := 0,
                 current_threads := threads, number_of_current_threads := count,
                 currently_running_thread := reported_first_core_thread E s,
                 pyrebox_gdb_has_xml := false,
                 trace := s.trace ++ (if s.runstate_running then [Event.vm_stop] else []) ++
                   stop_provider_calls E s }) ∧
    (pyrebox_gdb_chr_event E s ChrEvent.CHR_EVENT_OPENED).pyrebox_gdb_has_xml = false ∧
    (pyrebox_gdb_chr_event E s ChrEvent.CHR_EVENT_OPENED).last_packet_len = s.last_packet_len ∧
    (pyrebox_gdb_chr_event E s ChrEvent.CHR_EVENT_OPENED).state = s.state ∧
    pyrebox_gdb_chr_event E s ChrEvent.other = s := by
  obtain ⟨threads, count, h⟩ := vm_stop_first_cpu_any E s
  have he : pyrebox_gdb_chr_event E s ChrEvent.CHR_EVENT_OPENED =
      { s with runstate_running := false, vm_is_running := 0,
               current_threads := threads, number_of_current_threads := count,
               currently_running_thread := reported_first_core_thread E s,
               pyrebox_gdb_has_xml := false,
               trace := s.trace ++ (if s.runstate_running then [Event.vm_stop] else []) ++
                 stop_provider_calls E s } := by
    show ({ (pyrebox_get_running_thread_first_cpu E (pyrebox_vm_stop E s)).1 with
      currently_running_thread := (pyrebox_get_running_thread_first_cpu E
        (pyrebox_vm_stop E s)).2, pyrebox_gdb_has_xml := false } : GDBState) = _
    rw [h]
  refine ⟨⟨threads, count, he⟩, ?_, ?_, ?_, rfl⟩
  · rw [he]
  · rw [he]
  · rw [he]

/-- C27, counterexample: a reply pending and a frame half received when a connection
is opened.  After `$?#3f` the stop reply is pending (16 bytes), and the event leaves it
pending; after `$g` the parser is in the Accumulating state, and the event leaves it
there. -/
theorem connection_opened_no_reset :
    (pyrebox_gdb_chr_receive demo_env (fresh_session 0 false) (bytes "$?#3f")).map
      (fun s => (s.last_packet_len,
        (pyrebox_gdb_chr_event demo_env s ChrEvent.CHR_EVENT_OPENED).last_packet_len)) =
      some (16, 16) ∧
    (pyrebox_gdb_chr_receive demo_env (fresh_session 0 false) (bytes "$g")).map
      (fun s => (s.state,
        (pyrebox_gdb_chr_event demo_env s ChrEvent.CHR_EVENT_OPENED).state)) =
      some (RSState.RS_GETLINE, RSState.RS_GETLINE) := by
  decide

/-- C26 (amended): frames with escapes.  From the Idle state with no reply pending and
the target stopped, take a wire payload made of plain bytes (none of `#`, `}`, `*`) and
of escape sequences `}` `b` (`b` not `#`), at most 4095 units, and two hex digits `h`,
`l`.  The frame `$<payload>#hl` is accepted exactly when the value of `hl` equals the
sum modulo 256 of the payload bytes as transmitted (each `}` and each escaped byte
`b` itself, not `b XOR 0x20`): then `+` is given to the transport and the dispatcher is
entered on the un-escaped line; otherwise the only effect is `-`. -/
theorem escaped_frame_checksum (E : Env) (s : GDBState) (items : List WireItem) (h l : Nat)
    (hst : s.state = RSState.RS_IDLE) (hp : s.last_packet_len = 0)
    (hr : s.runstate_running = false)
    (hbuf : s.line_buf.length = MAX_PACKET_LENGTH)
    (hlen : items.length ≤ MAX_PACKET_LENGTH - 1)
    (hit : ∀ i ∈ items, wire_item_ok i = true)
    (hh : isxdigit h = true) (hl : isxdigit l = true) :
    pyrebox_gdb_chr_receive E s (36 :: wire_bytes items ++ [35, h, l]) =
      if 16 * pyrebox_fromhex h + pyrebox_fromhex l = (wire_bytes items).sum % 256 then
        (pyrebox_gdb_handle_packet E
          { s with state := RSState.RS_CHKSUM2,
                   line_buf := unescaped items ++ 0 :: s.line_buf.drop (items.length + 1),
                   line_buf_index := items.length,
                   line_sum := (wire_bytes items).sum,
                   line_csum := (wire_bytes items).sum % 256,
                   trace := s.trace ++ [Event.put_buffer [43]] } (unescaped items)).map
          (fun r => { r.1 with state := r.2 })
      else
        some { s with state := RSState.RS_IDLE,
                      line_buf := unescaped items ++ 0 :: s.line_buf.drop (items.length + 1),
                      line_buf_index := items.length,
                      line_sum := (wire_bytes items).sum,
                      line_csum := 16 * pyrebox_fromhex h + pyrebox_fromhex l,
                      trace := s.trace ++ [Event.put_buffer [45]] } := by
  have h1 : pyrebox_gdb_read_byte E s 36 = some
      { s with line_buf_index := 0, line_sum := 0, state := RSState.RS_GETLINE } := by
    rw [read_byte_stopped E s 36 hp hr]
    simp only [read_byte_switch, hst, if_true]
  have hul := unescaped_length items
  have hbuf1 : (memcpy s.line_buf 0 (unescaped items)).set items.length 0
      = unescaped items ++ 0 :: s.line_buf.drop (items.length + 1) := by
    have hm : MAX_PACKET_LENGTH = 4096 := rfl
    rw [memcpy_eq (unescaped items) s.line_buf 0 (by omega), List.set_eq_take_append_cons_drop]
    simp only [List.take_zero, List.nil_append, List.length_append, List.length_drop,
      Nat.zero_add, hul]
    rw [if_pos (by omega), ← hul, List.take_left, List.drop_append_eq_append_drop, List.drop_drop]
    have e3 : List.drop ((unescaped items).length + 1) (unescaped items) = [] :=
      List.drop_eq_nil_of_le (by omega)
    have e4 : (unescaped items).length +
        ((unescaped items).length + 1 - (unescaped items).length) =
        (unescaped items).length + 1 := by omega
    rw [e3, e4, List.nil_append]
  rw [List.cons_append, pyrebox_gdb_chr_receive, h1]
  simp only
  rw [receive_items E items
    { s with line_buf_index := 0, line_sum := 0, state := RSState.RS_GETLINE } [35, h, l]
    rfl hp hr hit (by simp only; omega)]
  simp only [Nat.zero_add]
  by_cases e : 16 * pyrebox_fromhex h + pyrebox_fromhex l = (wire_bytes items).sum % 256
  · rw [if_pos e, receive_trailer_ack E
      { s with line_buf := memcpy s.line_buf 0 (unescaped items),
               line_buf_index := items.length,
               line_sum := (wire_bytes items).sum, state := RSState.RS_GETLINE }
      h l rfl hp hr hh hl e]
    simp only [hbuf1]
    rw [← handle_packet_cstr, cstr_append_zero, handle_packet_cstr]
  · rw [if_neg e, receive_trailer_nak E
      { s with line_buf := memcpy s.line_buf 0 (unescaped items),
               line_buf_index := items.length,
               line_sum := (wire_bytes items).sum, state := RSState.RS_GETLINE }
      h l rfl hp hr hh hl e]
    simp only [hbuf1]

/-- C26, instance: the frame `$}]#da` (payload `}` `]`, sum `0x7d + 0x5d = 0xda`) is
acknowledged and the un-escaped line `}` is dispatched. -/
theorem escaped_frame_checksum_witness :
    wire_bytes [WireItem.escaped 93] = bytes "\x7d]" ∧
    unescaped [WireItem.escaped 93] = bytes "\x7d" ∧
    pyrebox_gdb_chr_receive demo_env (fresh_session 0 false) (bytes "$\x7d]#da") =
      (pyrebox_gdb_handle_packet demo_env
        { fresh_session 0 false with
          state := RSState.RS_CHKSUM2,
          line_buf := bytes "\x7d" ++ 0 :: (fresh_session 0 false).line_buf.drop 2,
          line_buf_index := 1,
          line_sum := 0xda,
          line_csum := 0xda,
          trace := [Event.put_buffer [43]] } (bytes "\x7d")).map
        (fun r => { r.1 with state := r.2 }) :=
  ⟨rfl, rfl,
    (escaped_frame_checksum demo_env (fresh_session 0 false) [WireItem.escaped 93] 100 97
      rfl rfl rfl (List.length_replicate _ _) (by decide) (by decide) (by decide)
      (by decide)).trans (if_pos (by decide))⟩

/-- C26, counterexample: the frame `$}]#7d`.  Its payload un-escapes to the single byte
`}`, whose checksum is `0x7d`, yet the frame is refused (`-`, no dispatch); the same
payload with `da`, the sum of the bytes as transmitted, is acknowledged and dispatched
(the line `}` is an unknown command, answered `$#00`). -/
theorem escaped_frame_unescaped_sum_refused :
    unescaped [WireItem.escaped 93] = [125] ∧
    (unescaped [WireItem.escaped 93]).sum % 256 = 0x7d ∧
    (pyrebox_gdb_chr_receive demo_env (fresh_session 0 false) (bytes "$\x7d]#7d")).map
      (fun s => s.trace) = some [Event.put_buffer (bytes "-")] ∧
    (pyrebox_gdb_chr_receive demo_env (fresh_session 0 false) (bytes "$\x7d]#da")).map
      (fun s => s.trace) =
      some [Event.put_buffer (bytes "+"), Event.handle_packet (bytes "\x7d"),
            Event.put_buffer (bytes "$#00")] := by
  decide

/-- C22 (amended): chunks of the target description.  For a request
`qXfer:features:read:<name>:<offset>,<len>` on a target with a core description file,
where `<name>` is `target.xml` or is not a prefix of it, the fields are hexadecimal
numbers below `2^64`, the low 32 bits of `<len>` are below `2^31` and the named
document is shorter than `2^31` bytes: with `o` and `L` the low 32 bits of offset and
length and `T` the document length, the one reply is `E00` if the name is not a known
document or `o > T`; otherwise, with `n = min L 2045`, it is `m` followed by
`escape_binary` of the `n` document bytes at `o` when `n < T - o`, and `l` followed by
`escape_binary` of all document bytes from `o` when `n ≥ T - o`.  The payload has at
most 4091 bytes, and the flag `pyrebox_gdb_has_xml` is set. -/
theorem feature_read_chunk (E : Env) (s : GDBState) (name offset len : List Nat)
    (hxml : E.gdb_core_xml_file.isSome = true)
    (hbits : E.target_long_bits = 32 ∨ E.target_long_bits = 64)
    (hname : ∀ c ∈ name, c ≠ 0 ∧ c ≠ 58)
    (hpre : name = bytes "target.xml" ∨ name ≠ (bytes "target.xml").take name.length)
    (ho : is_hex_field offset) (hl : is_hex_field len)
    (ho64 : hex_value offset < 2 ^ 64) (hl64 : hex_value len < 2 ^ 64)
    (hl31 : hex_value len % 2 ^ 32 < 2 ^ 31)
    (hdoc : ((known_document E name).getD []).length < 2 ^ 31)
    (hlp : s.last_packet.length = MAX_PACKET_LENGTH + 4) :
    pyrebox_gdb_handle_packet E s
        (bytes "qXfer:features:read:" ++ name ++ bytes ":" ++ offset ++ bytes "," ++ len) =
      some ({ s with
          pyrebox_gdb_has_xml := true,
          last_packet := frame_of (xfer_reply (known_document E name)
              (hex_value offset % 2 ^ 32) (hex_value len % 2 ^ 32)) ++
            s.last_packet.drop ((xfer_reply (known_document E name)
              (hex_value offset % 2 ^ 32) (hex_value len % 2 ^ 32)).length + 4),
          last_packet_len := (xfer_reply (known_document E name)
              (hex_value offset % 2 ^ 32) (hex_value len % 2 ^ 32)).length + 4,
          trace := s.trace ++
            [Event.handle_packet
              (bytes "qXfer:features:read:" ++ name ++ bytes ":" ++ offset ++ bytes "," ++ len),
             Event.put_buffer (frame_of (xfer_reply (known_document E name)
              (hex_value offset % 2 ^ 32) (hex_value len % 2 ^ 32)))] },
        RSState.RS_IDLE) ∧
    (xfer_reply (known_document E name) (hex_value offset % 2 ^ 32)
      (hex_value len % 2 ^ 32)).length ≤ 4091 := by
  refine ⟨?_, xfer_reply_length _ _ _⟩
  have hline : bytes "qXfer:features:read:" ++ name ++ bytes ":" ++ offset ++ bytes "," ++ len =
      113 :: (bytes "Xfer:features:read:" ++ (name ++ 58 :: (offset ++ 44 :: len))) := by
    simp only [List.append_assoc]
    rfl
  have hnul : ∀ c ∈ bytes "Xfer:features:read:" ++ (name ++ 58 :: (offset ++ 44 :: len)),
      c ≠ 0 := by
    intro c hc
    rcases List.mem_append.1 hc with h | h
    · exact (by decide : ∀ c ∈ bytes "Xfer:features:read:", c ≠ 0) c h
    · rcases List.mem_append.1 h with h | h
      · exact (hname c h).1
      · rcases List.mem_cons.1 h with h | h
        · rw [h]; decide
        · rcases List.mem_append.1 h with h | h
          · exact field_ne_zero offset ho c h
          · rcases List.mem_cons.1 h with h | h
            · rw [h]; decide
            · exact field_ne_zero len hl c h
  have hmax := xfer_reply_length (known_document E name) (hex_value offset % 2 ^ 32)
    (hex_value len % 2 ^ 32)
  have hm : MAX_PACKET_LENGTH = 4096 := rfl
  rw [hline, handle_packet_q E s _ hnul, query_xfer,
    xfer_features_eq E _ name offset len hxml hbits hname hpre ho hl ho64 hl64 hl31 hdoc,
    (put_packet_binary_sends
      { s.log (Event.handle_packet
          (113 :: (bytes "Xfer:features:read:" ++ (name ++ 58 :: (offset ++ 44 :: len))))) with
        pyrebox_gdb_has_xml := true } _ _ rfl (by omega) hlp).1]
  simp [GDBState.log]

set_option maxRecDepth 100000 in
/-- C22, instance: on the sample target the generated `target.xml` has 108 bytes; the
request for `0x100` bytes at offset `0x60` is answered with the last chunk, `l` and
the 12 bytes that remain. -/
theorem feature_read_chunk_witness :
    known_document demo_env (bytes "target.xml") = some (target_xml demo_env) ∧
    (target_xml demo_env).length = 108 ∧
    xfer_reply (known_document demo_env (bytes "target.xml"))
      (hex_value (bytes "60") % 2 ^ 32) (hex_value (bytes "100") % 2 ^ 32) =
      bytes "l\"/></target>" ∧
    pyrebox_gdb_handle_packet demo_env (fresh_session 0 false)
        (bytes "qXfer:features:read:" ++ bytes "target.xml" ++ bytes ":" ++ bytes "60" ++
          bytes "," ++ bytes "100") =
      some ({ fresh_session 0 false with
          pyrebox_gdb_has_xml := true,
          last_packet := frame_of (xfer_reply (known_document demo_env (bytes "target.xml"))
              (hex_value (bytes "60") % 2 ^ 32) (hex_value (bytes "100") % 2 ^ 32)) ++
            (fresh_session 0 false).last_packet.drop
              ((xfer_reply (known_document demo_env (bytes "target.xml"))
                (hex_value (bytes "60") % 2 ^ 32) (hex_value (bytes "100") % 2 ^ 32)).length + 4),
          last_packet_len := (xfer_reply (known_document demo_env (bytes "target.xml"))
              (hex_value (bytes "60") % 2 ^ 32) (hex_value (bytes "100") % 2 ^ 32)).length + 4,
          trace := (fresh_session 0 false).trace ++
            [Event.handle_packet
              (bytes "qXfer:features:read:" ++ bytes "target.xml" ++ bytes ":" ++ bytes "60" ++
                bytes "," ++ bytes "100"),
             Event.put_buffer (frame_of (xfer_reply (known_document demo_env (bytes "target.xml"))
              (hex_value (bytes "60") % 2 ^ 32) (hex_value (bytes "100") % 2 ^ 32)))] },
        RSState.RS_IDLE) :=
  ⟨by decide, by decide, by decide,
    (feature_read_chunk demo_env (fresh_session 0 false) (bytes "target.xml") (bytes "60")
      (bytes "100") rfl (Or.inr rfl) (by decide) (Or.inl rfl) ⟨by decide, by decide⟩
      ⟨by decide, by decide⟩ (by decide) (by decide) (by decide) (by decide)
      (List.length_replicate _ _)).1⟩

set_option maxRecDepth 100000 in
/-- C22, counterexample: the offset `0x100000000` is greater than the length 108 of
`target.xml`, yet `qXfer:features:read:target.xml:100000000,10` is answered with the
first 16 bytes of the document (`m<?xml version="1`), not with `E00`: the offset is
kept in an `int`, so only its low 32 bits count. -/
theorem feature_read_offset_wraps :
    (target_xml demo_env).length = 108 ∧
    is_hex_field (bytes "100000000") ∧
    108 < hex_value (bytes "100000000") ∧
    (pyrebox_gdb_handle_packet demo_env (fresh_session 0 false)
        (bytes "qXfer:features:read:target.xml:100000000,10")).map (fun r => r.1.trace) =
      some [Event.handle_packet (bytes "qXfer:features:read:target.xml:100000000,10"),
            Event.put_buffer (bytes "$m<?xml version=\"1#ef")] :=
  ⟨by decide, ⟨by decide, by decide⟩, by decide, by decide⟩

/-- C31, at the failing input: the run that fills the buffer exactly.  With the target
stopped and no reply pending, in the RLENext state with `i` buffered bytes and a
run byte `ch ≥ 0x20` giving `n = ch - 0x20 + 3`: whenever `i + n ≥ 4095` the parser
goes to Idle and nothing else changes (no byte is stored, the running sum is kept), so
the run with `i + n = 4095` exactly is refused, although it would leave room for the
terminating NUL; in the Accumulating state an ordinary byte at index 4094 is stored and
brings the index to 4095. -/
theorem rle_run_boundary (E : Env) (s : GDBState) (ch : Nat)
    (hp : s.last_packet_len = 0) (hr : s.runstate_running = false)
    (hch : ch < 256) (h32 : 0x20 ≤ ch) :
    (s.state = RSState.RS_GETLINE_RLE → 4095 ≤ s.line_buf_index + (ch - 0x20 + 3) →
      pyrebox_gdb_read_byte E s ch = some { s with state := RSState.RS_IDLE }) ∧
    (s.state = RSState.RS_GETLINE_RLE → s.line_buf_index + (ch - 0x20 + 3) = 4095 →
      pyrebox_gdb_read_byte E s ch = some { s with state := RSState.RS_IDLE } ∧
      s.line_buf_index + (ch - 0x20 + 3) + 1 ≤ MAX_PACKET_LENGTH) ∧
    (s.state = RSState.RS_GETLINE → s.line_buf_index = 4094 →
      ch ≠ 35 → ch ≠ 125 → ch ≠ 42 →
      pyrebox_gdb_read_byte E s ch = some
        { s with line_buf := s.line_buf.set 4094 ch, line_buf_index := 4095,
                 line_sum := s.line_sum + ch }) := by
  have hm : MAX_PACKET_LENGTH = 4096 := rfl
  refine ⟨fun hst h => step_rle_idle E s ch hst hp hr hch h32 (by omega),
    fun hst h => ⟨step_rle_idle E s ch hst hp hr hch h32 (by omega), by omega⟩, ?_⟩
  intro hst hidx h1 h2 h3
  rw [step_getline_store E s ch hst hp hr ⟨hch, h1, h2, h3⟩ (by omega), hidx]

/-- C31, instance: with 4092 buffered bytes the run byte `0x20` (3 copies, 4095 bytes in
all) sends the parser to Idle; with 4094 buffered bytes the ordinary byte `a` is stored
as byte 4095. -/
theorem rle_run_boundary_witness :
    pyrebox_gdb_read_byte demo_env
        { fresh_session 0 false with state := RSState.RS_GETLINE_RLE, line_buf_index := 4092 }
        0x20 =
      some { fresh_session 0 false with state := RSState.RS_IDLE, line_buf_index := 4092 } ∧
    pyrebox_gdb_read_byte demo_env
        { fresh_session 0 false with state := RSState.RS_GETLINE, line_buf_index := 4094 } 97 =
      some { fresh_session 0 false with
        state := RSState.RS_GETLINE,
        line_buf := (fresh_session 0 false).line_buf.set 4094 97, line_buf_index := 4095,
        line_sum := 97 } :=
  ⟨((rle_run_boundary demo_env
      { fresh_session 0 false with state := RSState.RS_GETLINE_RLE, line_buf_index := 4092 }
      0x20 rfl rfl (by decide) (by decide)).2.1 rfl rfl).1,
   (rle_run_boundary demo_env
      { fresh_session 0 false with state := RSState.RS_GETLINE, line_buf_index := 4094 }
      97 rfl rfl (by decide) (by decide)).2.2 rfl rfl (by decide) (by decide)
      (by decide)⟩

/-- C32: run-length byte with nothing to repeat.  With the target stopped and no reply
pending, in the RLENext state with an empty line buffer (index 0), every byte `0..255`
returns the parser to Accumulating and changes nothing else: the buffer is still empty
and the running sum is unchanged.  The overflow test, made first, cannot hold: the
repeat count is at most `255 - 32 + 3 = 226`. -/
theorem rle_nothing_to_repeat (E : Env) (s : GDBState) (ch : Nat)
    (hst : s.state = RSState.RS_GETLINE_RLE) (hp : s.last_packet_len = 0)
    (hr : s.runstate_running = false) (hidx : s.line_buf_index = 0) (hch : ch < 256) :
    pyrebox_gdb_read_byte E s ch = some { s with state := RSState.RS_GETLINE } ∧
    ch % 256 - 32 + 3 ≤ 226 ∧
    ¬ (s.line_buf_index + (ch % 256 - 32 + 3) ≥ MAX_PACKET_LENGTH - 1) := by
  have hm : MAX_PACKET_LENGTH = 4096 := rfl
  exact ⟨step_rle_empty E s ch hst hp hr hidx hch, by omega, by omega⟩

theorem rle_nothing_to_repeat_witness :
    pyrebox_gdb_read_byte demo_env
        { fresh_session 0 false with state := RSState.RS_GETLINE_RLE, line_sum := 42 } 255 =
      some { fresh_session 0 false with state := RSState.RS_GETLINE, line_sum := 42 } :=
  (rle_nothing_to_repeat demo_env
    { fresh_session 0 false with state := RSState.RS_GETLINE_RLE, line_sum := 42 } 255
    rfl rfl rfl rfl (by decide)).1

/-- C33: malformed checksum.  With the target stopped and no reply pending: `#` in the
Accumulating state only moves the parser to ChecksumHigh (it is not stored and not added
to the running sum), and a byte that is not a hexadecimal digit, in ChecksumHigh or in
ChecksumLow, only moves the parser back to Accumulating: nothing is given to the
transport, the dispatcher is not entered, and the index, the line buffer and the running
sum are unchanged. -/
theorem checksum_non_hex_resumes (E : Env) (s : GDBState) (ch : Nat)
    (hp : s.last_packet_len = 0) (hr : s.runstate_running = false)
    (hx : isxdigit ch = false) :
    (s.state = RSState.RS_GETLINE →
      pyrebox_gdb_read_byte E s 35 = some { s with state := RSState.RS_CHKSUM1 } ∧
      pyrebox_gdb_chr_receive E s [35, ch] = some s) ∧
    (s.state = RSState.RS_CHKSUM1 →
      pyrebox_gdb_read_byte E s ch = some { s with state := RSState.RS_GETLINE }) ∧
    (s.state = RSState.RS_CHKSUM2 →
      pyrebox_gdb_read_byte E s ch = some { s with state := RSState.RS_GETLINE }) := by
  refine ⟨fun hst => ⟨step_getline_hash E s hst hp hr, ?_⟩,
    fun hst => step_chksum_non_hex E s ch (Or.inl hst) hp hr hx,
    fun hst => step_chksum_non_hex E s ch (Or.inr hst) hp hr hx⟩
  rw [pyrebox_gdb_chr_receive, step_getline_hash E s hst hp hr]
  simp only
  rw [pyrebox_gdb_chr_receive,
    step_chksum_non_hex E { s with state := RSState.RS_CHKSUM1 } ch (Or.inl rfl) hp hr hx]
  simp only [pyrebox_gdb_chr_receive]
  cases s; simp only at hst; subst hst; rfl

/-- C33, instance: after `$g#`, the byte `x` in ChecksumHigh, and after `$g#6` the byte
`x` in ChecksumLow, send nothing and leave the parser in Accumulating with the one
byte `g` buffered and the running sum `0x67`. -/
theorem checksum_non_hex_resumes_witness :
    isxdigit 120 = false ∧
    (pyrebox_gdb_chr_receive demo_env (fresh_session 0 false) (bytes "$g#x")).map
      (fun s => (s.state, s.line_buf_index, s.line_sum, s.trace)) =
      some (RSState.RS_GETLINE, 1, 0x67, []) ∧
    (pyrebox_gdb_chr_receive demo_env (fresh_session 0 false) (bytes "$g#6")).map
      (fun s => s.state) = some RSState.RS_CHKSUM2 ∧
    (pyrebox_gdb_chr_receive demo_env (fresh_session 0 false) (bytes "$g#6x")).map
      (fun s => (s.state, s.line_buf_index, s.line_sum, s.trace)) =
      some (RSState.RS_GETLINE, 1, 0x67, []) ∧
    pyrebox_gdb_read_byte demo_env
        { fresh_session 0 false with state := RSState.RS_CHKSUM2, line_buf_index := 1,
                                     line_sum := 0x67 } 120 =
      some { fresh_session 0 false with state := RSState.RS_GETLINE, line_buf_index := 1,
                                        line_sum := 0x67 } :=
  ⟨by decide, by decide, by decide, by decide,
    (checksum_non_hex_resumes demo_env
      { fresh_session 0 false with state := RSState.RS_CHKSUM2, line_buf_index := 1,
                                   line_sum := 0x67 } 120 rfl rfl (by decide)).2.2 rfl⟩

/-- C35: breakpoint commands.  The primitives `pyrebox_gdb_breakpoint_insert` and
`pyrebox_gdb_breakpoint_remove` return `-ENOSYS` for every type, address and length.
For every command line `Z...` or `z...` (whatever follows the letter) the one reply is
the empty packet `$#00`; it is neither `OK` nor `E22`, and nothing else in the session
changes. -/
theorem breakpoint_commands_unsupported (E : Env) (s : GDBState) (p : List Nat)
    (hp : ∀ x ∈ p, x ≠ 0) (hlp : s.last_packet.length = MAX_PACKET_LENGTH + 4) :
    (∀ (addr len : Nat) (type : Int),
      pyrebox_gdb_breakpoint_insert addr len type = -ENOSYS ∧
      pyrebox_gdb_breakpoint_remove addr len type = -ENOSYS) ∧
    pyrebox_gdb_handle_packet E s (bytes "Z" ++ p) =
      some ({ s with
          last_packet := frame_of [] ++ s.last_packet.drop 4,
          last_packet_len := 4,
          trace := s.trace ++ [Event.handle_packet (bytes "Z" ++ p),
            Event.put_buffer (frame_of [])] }, RSState.RS_IDLE) ∧
    pyrebox_gdb_handle_packet E s (bytes "z" ++ p) =
      some ({ s with
          last_packet := frame_of [] ++ s.last_packet.drop 4,
          last_packet_len := 4,
          trace := s.trace ++ [Event.handle_packet (bytes "z" ++ p),
            Event.put_buffer (frame_of [])] }, RSState.RS_IDLE) ∧
    frame_of [] = bytes "$#00" ∧ frame_of [] ≠ frame_of (bytes "OK") ∧
    frame_of [] ≠ frame_of (bytes "E22") := by
  refine ⟨fun a l t => ⟨breakpoint_insert_enosys a l t, breakpoint_remove_enosys a l t⟩,
    ?_, ?_, by decide, by decide, by decide⟩
  · show pyrebox_gdb_handle_packet E s (90 :: p) = _
    rw [handle_packet_Z E s 90 p (Or.inl rfl) hp]
    exact congrArg (fun x => some (x, RSState.RS_IDLE)) (put_packet_empty s _ hlp)
  · show pyrebox_gdb_handle_packet E s (122 :: p) = _
    rw [handle_packet_Z E s 122 p (Or.inr rfl) hp]
    exact congrArg (fun x => some (x, RSState.RS_IDLE)) (put_packet_empty s _ hlp)

/-- C35, instance: `Z0,4000,1` and `z0,4000,1` are answered `$#00`. -/
theorem breakpoint_commands_unsupported_witness :
    (pyrebox_gdb_handle_packet demo_env (fresh_session 0 false) (bytes "Z0,4000,1")).map
      (fun r => (r.1.trace, r.2)) =
      some ([Event.handle_packet (bytes "Z0,4000,1"), Event.put_buffer (bytes "$#00")],
        RSState.RS_IDLE) ∧
    pyrebox_gdb_handle_packet demo_env (fresh_session 0 false) (bytes "z" ++ bytes "0,4000,1") =
      some ({ fresh_session 0 false with
          last_packet := frame_of [] ++ (fresh_session 0 false).last_packet.drop 4,
          last_packet_len := 4,
          trace := (fresh_session 0 false).trace ++
            [Event.handle_packet (bytes "z" ++ bytes "0,4000,1"),
             Event.put_buffer (frame_of [])] }, RSState.RS_IDLE) :=
  ⟨by decide,
    (breakpoint_commands_unsupported demo_env (fresh_session 0 false) (bytes "0,4000,1")
      (by decide) (List.length_replicate _ _)).2.2.1⟩

/-- C37 (amended): the parser is Idle while a reply is pending or the target runs.  In
every session reachable from a freshly started one by inbound bytes (the run state
changing only through the engine's own stop and resume requests), a pending reply
(`last_packet_len` not 0) or an executing target implies the parser state Idle.  Hence a
`$` that abandons a pending reply is never appended to a partial line: with the target
stopped it starts a new frame (index and running sum reset, state Accumulating); with
the target executing it is taken as the interrupt, the stop request and the stop packet
follow, and the parser stays Idle with its line buffer and index unchanged. -/
theorem pending_or_running_idle (n : Int) (E : Env) (s : GDBState) (h : Reachable n s) :
    ((s.last_packet_len ≠ 0 ∨ s.runstate_running = true) → s.state = RSState.RS_IDLE) ∧
    (s.last_packet_len ≠ 0 → s.runstate_running = false →
      pyrebox_gdb_read_byte E s 36 =
        some { s with last_packet_len := 0, line_buf_index := 0, line_sum := 0,
                      state := RSState.RS_GETLINE }) ∧
    (s.last_packet_len ≠ 0 → s.runstate_running = true →
      pyrebox_gdb_read_byte E s 36 = some (stop_and_report E { s with last_packet_len := 0 }) ∧
      (stop_and_report E { s with last_packet_len := 0 }).state = RSState.RS_IDLE ∧
      (stop_and_report E { s with last_packet_len := 0 }).line_buf = s.line_buf ∧
      (stop_and_report E { s with last_packet_len := 0 }).line_buf_index = s.line_buf_index ∧
      (stop_and_report E { s with last_packet_len := 0 }).line_sum = s.line_sum) := by
  obtain ⟨-, -, hidle⟩ := reachable_inv n s h
  refine ⟨hidle, ?_, ?_⟩
  · intro hp hr
    have hst := hidle (Or.inl hp)
    rw [read_byte_pending_dollar E s hp,
      read_byte_stopped E { s with last_packet_len := 0 } 36 rfl hr]
    simp only [read_byte_switch, hst, if_true]
  · intro hp hr
    obtain ⟨h1, h2⟩ := read_byte_dollar_running E s hr
    obtain ⟨p1, p2, p3, -, p5⟩ := parser_of_fields h2
    exact ⟨h1, p5.trans (hidle (Or.inl hp)), p1, p2, p3⟩

/-- C37, instance: the session reached from a started, executing one by one inbound byte
(the interrupt) has the stop packet pending, the parser Idle, and `$` starts a frame. -/
theorem pending_or_running_idle_witness :
    Reachable 0 (stop_and_report demo_env (fresh_session 0 true)) ∧
    (stop_and_report demo_env (fresh_session 0 true)).last_packet_len ≠ 0 ∧
    (stop_and_report demo_env (fresh_session 0 true)).runstate_running = false ∧
    (stop_and_report demo_env (fresh_session 0 true)).state = RSState.RS_IDLE ∧
    pyrebox_gdb_read_byte demo_env (stop_and_report demo_env (fresh_session 0 true)) 36 =
      some { stop_and_report demo_env (fresh_session 0 true) with
        last_packet_len := 0, line_buf_index := 0, line_sum := 0,
        state := RSState.RS_GETLINE } :=
  ⟨Reachable.byte demo_env _ _ 120 (Reachable.start true) (by decide)
      (read_byte_running demo_env (fresh_session 0 true) 120 rfl rfl),
    by decide, by decide,
    (pending_or_running_idle 0 demo_env (stop_and_report demo_env (fresh_session 0 true))
      (Reachable.byte demo_env _ _ 120 (Reachable.start true) (by decide)
        (read_byte_running demo_env (fresh_session 0 true) 120 rfl rfl))).1
      (Or.inl (by decide)),
    (pending_or_running_idle 0 demo_env (stop_and_report demo_env (fresh_session 0 true))
      (Reachable.byte demo_env _ _ 120 (Reachable.start true) (by decide)
        (read_byte_running demo_env (fresh_session 0 true) 120 rfl rfl))).2.1
      (by decide) (by decide)⟩

/-- C37, counterexample: a `$` that abandons a pending reply while the target runs.
After `$D#44` the reply `OK` is pending and the target executes (parser Idle); the
next `$` abandons that reply but starts no frame: the target is stopped, the stop packet
is sent and is pending, and the parser is still Idle (not Accumulating). -/
theorem dollar_while_running_starts_no_frame :
    (pyrebox_gdb_chr_receive demo_env (fresh_session 0 false) (bytes "$D#44")).map
      (fun s => (s.state, s.runstate_running, s.last_packet_len)) =
      some (RSState.RS_IDLE, true, 6) ∧
    (pyrebox_gdb_chr_receive demo_env (fresh_session 0 false) (bytes "$D#44$")).map
      (fun s => (s.state, s.runstate_running, s.last_packet_len, sent_packets s.trace)) =
      some (RSState.RS_IDLE, false, 16,
        [bytes "+", bytes "$OK#9a", bytes "$T05thread:7;#dd"]) := by
  decide

/-- C34: encoder and parser agree.  For every sequence `b` of at most 4095 bytes whose
escaped form fits in a packet (at most 4096 bytes): `pyrebox_put_packet_binary` applied
to the output of `pyrebox_memtox` for `b` gives the transport one frame, and that frame,
fed byte by byte to a session in the Idle state with the target stopped and no reply
pending, is acknowledged with `+` (no `-`, no return to Idle on the way) and the
dispatcher is entered with exactly `b`, followed by the NUL, at the start of the line
buffer. -/
theorem encoder_parser_agree (E : Env) (t s : GDBState) (b : List Nat)
    (hb : ∀ c ∈ b, c < 256) (hlen : b.length ≤ MAX_PACKET_LENGTH - 1)
    (hfit : (pyrebox_memtox b b.length).2 ≤ MAX_PACKET_LENGTH)
    (htl : t.last_packet.length = MAX_PACKET_LENGTH + 4)
    (hst : s.state = RSState.RS_IDLE) (hp : s.last_packet_len = 0)
    (hr : s.runstate_running = false) (hbuf : s.line_buf.length = MAX_PACKET_LENGTH) :
    (pyrebox_put_packet_binary t (pyrebox_memtox b b.length).1
        (pyrebox_memtox b b.length).2).trace =
      t.trace ++ [Event.put_buffer (frame_of (pyrebox_memtox b b.length).1)] ∧
    pyrebox_gdb_chr_receive E s (frame_of (pyrebox_memtox b b.length).1) =
      (pyrebox_gdb_handle_packet E
        { s with state := RSState.RS_CHKSUM2,
                 line_buf := b ++ 0 :: s.line_buf.drop (b.length + 1),
                 line_buf_index := b.length,
                 line_sum := (pyrebox_memtox b b.length).1.sum,
                 line_csum := (pyrebox_memtox b b.length).1.sum % 256,
                 trace := s.trace ++ [Event.put_buffer [43]] } b).map
        (fun r => { r.1 with state := r.2 }) := by
  have hmx : pyrebox_memtox b b.length = (escape_binary b, (escape_binary b).length) := by
    simp only [pyrebox_memtox, memtox_loop_eq, List.nil_append]
  rw [hmx] at hfit ⊢
  simp only at hfit ⊢
  constructor
  · rw [(put_packet_binary_sends t (escape_binary b) _ rfl hfit htl).1]
  · have hd1 : (escape_binary b).sum % 256 / 16 < 16 := by omega
    have hd2 : (escape_binary b).sum % 16 < 16 := by omega
    obtain ⟨hh, hhv⟩ := hex_digit_fromhex _ hd1
    obtain ⟨hl, hlv⟩ := hex_digit_fromhex _ hd2
    have hw := escape_items_wire b
    have hu := escape_items_unescaped b
    have hil := escape_items_length b
    have h1 : pyrebox_gdb_read_byte E s 36 = some
        { s with line_buf_index := 0, line_sum := 0, state := RSState.RS_GETLINE } := by
      rw [read_byte_stopped E s 36 hp hr]
      simp only [read_byte_switch, hst, if_true]
    have hbuf1 : (memcpy s.line_buf 0 b).set b.length 0
        = b ++ 0 :: s.line_buf.drop (b.length + 1) := by
      have hm : MAX_PACKET_LENGTH = 4096 := rfl
      rw [memcpy_eq b s.line_buf 0 (by omega), List.set_eq_take_append_cons_drop]
      simp only [List.take_zero, List.nil_append, List.length_append, List.length_drop,
        Nat.zero_add]
      rw [if_pos (by omega), List.take_left, List.drop_append_eq_append_drop, List.drop_drop]
      have e3 : List.drop (b.length + 1) b = [] := List.drop_eq_nil_of_le (by omega)
      have e4 : b.length + (b.length + 1 - b.length) = b.length + 1 := by omega
      rw [e3, e4, List.nil_append]
    have e : 16 * pyrebox_fromhex (hex_digit ((escape_binary b).sum % 256 / 16)) +
        pyrebox_fromhex (hex_digit ((escape_binary b).sum % 16)) =
        (escape_binary b).sum % 256 := by
      rw [hhv, hlv]; omega
    have hframe : frame_of (escape_binary b) =
        36 :: (wire_bytes (escape_items b) ++
          [35, hex_digit ((escape_binary b).sum % 256 / 16),
           hex_digit ((escape_binary b).sum % 16)]) := by
      rw [hw]; rfl
    rw [hframe, pyrebox_gdb_chr_receive, h1]
    simp only
    rw [receive_items E (escape_items b)
      { s with line_buf_index := 0, line_sum := 0, state := RSState.RS_GETLINE } _
      rfl hp hr (escape_items_ok b hb) (by simp only [hil]; omega)]
    simp only [Nat.zero_add, hw, hu, hil]
    rw [receive_trailer_ack E
      { s with line_buf := memcpy s.line_buf 0 b, line_buf_index := b.length,
               line_sum := (escape_binary b).sum, state := RSState.RS_GETLINE }
      _ _ rfl hp hr hh hl e]
    simp only [hbuf1]
    rw [← handle_packet_cstr, cstr_append_zero, handle_packet_cstr]

/-- C34, instance: the bytes `$`, `#`, `g` are sent as `$`, `}`, `0x04`, `}`, `0x03`, `g`, `#68`, and that frame
puts `$#g` in the line buffer of the receiving session. -/
theorem encoder_parser_agree_witness :
    pyrebox_memtox [36, 35, 103] 3 = ([125, 4, 125, 3, 103], 5) ∧
    frame_of [125, 4, 125, 3, 103] = [36, 125, 4, 125, 3, 103, 35, 54, 56] ∧
    (pyrebox_put_packet_binary (fresh_session 0 false)
        (pyrebox_memtox [36, 35, 103] ([36, 35, 103] : List Nat).length).1
        (pyrebox_memtox [36, 35, 103] ([36, 35, 103] : List Nat).length).2).trace =
      (fresh_session 0 false).trace ++
        [Event.put_buffer
          (frame_of (pyrebox_memtox [36, 35, 103] ([36, 35, 103] : List Nat).length).1)] ∧
    pyrebox_gdb_chr_receive demo_env (fresh_session 0 false)
        (frame_of (pyrebox_memtox [36, 35, 103] ([36, 35, 103] : List Nat).length).1) =
      (pyrebox_gdb_handle_packet demo_env
        { fresh_session 0 false with
          state := RSState.RS_CHKSUM2,
          line_buf := [36, 35, 103] ++ 0 ::
            (fresh_session 0 false).line_buf.drop (([36, 35, 103] : List Nat).length + 1),
          line_buf_index := ([36, 35, 103] : List Nat).length,
          line_sum := (pyrebox_memtox [36, 35, 103] ([36, 35, 103] : List Nat).length).1.sum,
          line_csum :=
            (pyrebox_memtox [36, 35, 103] ([36, 35, 103] : List Nat).length).1.sum % 256,
          trace := (fresh_session 0 false).trace ++ [Event.put_buffer [43]] }
        [36, 35, 103]).map (fun r => { r.1 with state := r.2 }) :=
  ⟨by decide, by decide,
    (encoder_parser_agree demo_env (fresh_session 0 false) (fresh_session 0 false)
      [36, 35, 103] (by decide) (by decide) (by decide) (List.length_replicate _ _) rfl rfl rfl
      (List.length_replicate _ _)).1,
    (encoder_parser_agree demo_env (fresh_session 0 false) (fresh_session 0 false)
      [36, 35, 103] (by decide) (by decide) (by decide) (List.length_replicate _ _) rfl rfl rfl
      (List.length_replicate _ _)).2⟩

/-- C36, at the failing input: chunks of the monitor output.  `pyrebox_gdb_monitor_write`
is total (the loop ends: the remaining length decreases by 2049 on every turn).  For a
message of `len` bytes: if `len ≤ 2047` one packet `O` with the hex text of the whole
message is sent; if `len` is 2048 or 2049 one packet is sent, which carries only the
first 2047 bytes, so the last one or two bytes are lost; if `len > 2049` the first
packet carries the bytes `0..2046` and the loop goes on with the bytes from 2049 on, so
the bytes 2047 and 2048 are lost. -/
theorem monitor_write_chunks (s : GDBState) (msg : List Nat)
    (hb : ∀ x ∈ msg, x < 256) (hlp : s.last_packet.length = MAX_PACKET_LENGTH + 4) :
    (msg.length ≤ 2047 →
      pyrebox_gdb_monitor_write s msg msg.length = (after_output s msg, (msg.length : Int))) ∧
    (2047 < msg.length → msg.length ≤ 2049 →
      pyrebox_gdb_monitor_write s msg msg.length =
        (after_output s (msg.take 2047), (msg.length : Int)) ∧
      (msg.take 2047).length < msg.length) ∧
    (2049 < msg.length →
      pyrebox_gdb_monitor_write s msg msg.length =
        pyrebox_gdb_monitor_write (after_output s (msg.take 2047)) (msg.drop 2049)
          ((msg.length : Int) - 2049)) := by
  have hmax := monitor_max_sz_eq
  refine ⟨?_, ?_, ?_⟩
  · intro h
    rw [pyrebox_gdb_monitor_write, if_pos (by rw [hmax]; omega),
      monitor_output_sends s msg msg.length hb (Nat.le_refl _) hlp,
      Nat.min_eq_left h, List.take_length]
  · intro h1 h2
    refine ⟨?_, by rw [List.length_take]; omega⟩
    rw [pyrebox_gdb_monitor_write, if_pos (by rw [hmax]; omega),
      monitor_output_sends s msg msg.length hb (Nat.le_refl _) hlp,
      Nat.min_eq_right (by omega)]
  · intro h
    have e : monitor_max_sz = ((2049 : Nat) : Int) := hmax
    rw [pyrebox_gdb_monitor_write, if_neg (by rw [hmax]; omega), e,
      monitor_output_sends s msg 2049 hb (by omega) hlp, Int.toNat_ofNat]
    rfl

/-- C36, instance: of a message of 2048 bytes `A` only 2047 are forwarded. -/
theorem monitor_write_chunks_witness :
    (List.replicate 2048 65).length = 2048 ∧
    ((List.replicate 2048 65).take 2047).length = 2047 ∧
    pyrebox_gdb_monitor_write (fresh_session 0 false) (List.replicate 2048 65)
        (List.replicate 2048 65).length =
      (after_output (fresh_session 0 false) ((List.replicate 2048 65).take 2047),
        ((List.replicate 2048 65).length : Int)) :=
  ⟨List.length_replicate _ _, by rw [List.length_take, List.length_replicate]; decide,
    ((monitor_write_chunks (fresh_session 0 false) (List.replicate 2048 65)
      (fun x hx => by rw [(List.mem_replicate.1 hx).2]; decide) (List.length_replicate _ _)).2.1
      (by rw [List.length_replicate]; decide) (by rw [List.length_replicate]; decide)).1⟩

end Pyrebox
